import Mathlib

/-! coresim: IP allocator, Markov engine, UE actor, network functions, controller

A shallow embedding of
* `internal/components/utils/ipam.go` (the IP allocator),
* `internal/models/ue_markov_states.go` and `internal/components/ran/markov.go`
  (the UE Markov engine),
* `generateIMEI`, `luhnCheckDigit` and `generateNRCellIDsHex` of
  `internal/simulator/network.go`,
* the operations of the UE of `internal/components/ran/ue.go`, with the
  messages of `internal/models/gitc_messages.go` and the counters of
  `internal/models/up_stats.go`,
* the traffic counters of `internal/monitoring/prometheus.go`,
* the subscription and notification code of the AMF, the SMF and the PCF
  (`internal/components/core`),
* the network instance and the controller (`internal/simulator/network.go`,
  `internal/simulator/app.go`),
followed by the properties established about them.

Conventions of the embedding:
* a Go `string` is a Lean `String`; a Go `int32`/`int` is an `Int` (range
  conditions are stated where they matter);
* a Go `map[string]string` is an association list with at most one entry per
  key (`GoMap`); a Go slice is a `List`;
* a method with a pointer receiver takes the receiver state and returns the
  new state next to its Go results; a Go `(value, error)` result is an `Except`;
* a Go run-time panic is the result `none`;
* `rand.Intn(n)` is the next element of an explicit list of draws, taken
  modulo `n`; `time.Now()` is an explicit instant in nanoseconds; the calls of
  `gitc.Send` of an operation are returned as a list; logs and gauges have no
  counterpart;
* an HTTP handler takes the decoded request and the response built so far and
  returns the response; a goroutine that posts a notification is the post it
  makes;
* the goroutine of `PowerUp` is one round of its ticker at a time (`Ue.tick`),
  the goroutine of `NetworkInstance.Start` is one step of its arrival loop at
  a time (`NetworkInstance.arrivalStep`); the interleavings of the goroutines
  of a UE are the sequences of such steps (`Ue.Trajectory`).
-/

namespace utils

/-! ## Go maps -/

/-- A Go `map[string]string`: association list, newest binding first. -/
abbrev GoMap := List (String × String)

namespace GoMap

/-- The comma-ok read `v, ok := m[k]`; `none` is `ok = false`. -/
def lookup : GoMap → String → Option String
  | [], _ => none
  | (k', v) :: rest, k => if k' = k then some v else lookup rest k

/-- The builtin `delete(m, k)`. -/
def delete (m : GoMap) (k : String) : GoMap :=
  m.filter (fun p => decide (p.1 ≠ k))

/-- The assignment `m[k] = v`. -/
def store (m : GoMap) (k v : String) : GoMap :=
  (k, v) :: delete m k

end GoMap

/-! ## Formatting and parsing helpers of the Go standard library -/

/-- The verb `%d` of `fmt.Sprintf` on a signed integer. -/
def formatInt : Int → String
  | Int.ofNat m => Nat.repr m
  | Int.negSucc m => "-" ++ Nat.repr (m + 1)

/-- The key `fmt.Sprintf("%s-%d", supi, pduSessId)`. -/
def userString (supi : String) (pduSessId : Int) : String :=
  supi ++ "-" ++ formatInt pduSessId

/-- The call `strings.Split(s, sep)` for a one-character separator. -/
def Split (s : String) (sep : Char) : List String :=
  (List.splitOn sep s.data).map String.mk

/-- Value of a string of decimal digits, most significant first. -/
def digitsValue (ds : List Char) : Nat :=
  ds.foldl (fun acc c => acc * 10 + (c.toNat - 48)) 0

/-- The digits of a numeral after its optional sign (`+` or `-`). -/
def stripSign : List Char → List Char
  | '-' :: r => r
  | '+' :: r => r
  | r => r

/-- The call `strconv.Atoi(s)` on a 64-bit platform: an optional sign followed
by at least one decimal digit, the value in the range of `int`; `none` is a
non-nil error. -/
def Atoi (s : String) : Option Int :=
  let body : List Char := stripSign s.data
  let neg : Bool := s.data.head? == some '-'
  if body = [] ∨ body.all Char.isDigit = false then none
  else
    let v : Int := if neg then -(digitsValue body : Int) else (digitsValue body : Int)
    if -(2 : Int) ^ 63 ≤ v ∧ v < (2 : Int) ^ 63 then some v else none

/-- The conversion `int32(n)` of an `int`: wrap-around modulo 2^32. -/
def toInt32 (n : Int) : Int :=
  (n + 2 ^ 31) % 2 ^ 32 - 2 ^ 31

/-! ## The allocator -/

/-- The struct `IPAllocator`. -/
structure IPAllocator where
  availableIPs : List String
  allocated : GoMap
  ipToUser : GoMap
deriving DecidableEq, Repr

/-- The method `AllocateIP`: the existing address of a bound key, else the head
of the free list. -/
def AllocateIP (a : IPAllocator) (supi : String) (pduSessId : Int) :
    Except String String × IPAllocator :=
  let userString := userString supi pduSessId
  match a.allocated.lookup userString with
  | some ip => (Except.ok ip, a)
  | none =>
    match a.availableIPs with
    | [] => (Except.error "no available IP addresses", a)
    | ip :: rest =>
      (Except.ok ip,
        { availableIPs := rest
          allocated := a.allocated.store userString ip
          ipToUser := a.ipToUser.store ip userString })

/-- The method `ReleaseIP`. -/
def ReleaseIP (a : IPAllocator) (supi : String) (pduSessId : Int) :
    Except String Unit × IPAllocator :=
  let userString := userString supi pduSessId
  match a.allocated.lookup userString with
  | none => (Except.error "user does not have an allocated IP", a)
  | some ip =>
    (Except.ok (),
      { availableIPs := [ip] ++ a.availableIPs
        allocated := a.allocated.delete userString
        ipToUser := a.ipToUser.delete ip })

/-- The method `GetIP`; a missing key reads as the zero value `""`. -/
def GetIP (a : IPAllocator) (supi : String) (pduSessId : Int) : String × Bool :=
  match a.allocated.lookup (userString supi pduSessId) with
  | some ip => (ip, true)
  | none => ("", false)

/-- The method `GetUserStringOk`. The result `none` is the index-out-of-range
panic of `userStringSplitted[1]`. -/
def GetUserStringOk (a : IPAllocator) (ip : String) : Option (String × Int × Bool) :=
  match a.ipToUser.lookup ip with
  | none => some ("", 0, false)
  | some userString =>
    match Split userString '-' with
    | user :: second :: _ =>
      match Atoi second with
      | none => some ("", 0, false)
      | some pduSessId => some (user, toInt32 pduSessId, true)
    | _ => none

/-! ## Building the pool (`NewIpamService`)

`net.ParseCIDR` belongs to the Go standard library. The embedding starts from
its result: `none` for a parse error, else the `*net.IPNet` it returns. For an
IPv4 block the address and the mask are 4-byte slices, which is the case
embedded here (`ipv4Net`). -/

/-- The struct `net.IPNet`; addresses and masks are byte slices. -/
structure IPNet where
  IP : List Nat
  Mask : List Nat
deriving DecidableEq, Repr

/-- The loop of `net.CIDRMask` over the `l` remaining bytes, `n` ones left. -/
def CIDRMaskLoop : Nat → Nat → List Nat
  | 0, _ => []
  | l + 1, n =>
    if n ≥ 8 then 0xff :: CIDRMaskLoop l (n - 8)
    else (0xff ^^^ (0xff >>> n)) :: CIDRMaskLoop l 0

/-- The call `net.CIDRMask(ones, bits)`; the empty slice is `nil`. -/
def CIDRMask (ones bits : Nat) : List Nat :=
  if (bits ≠ 32 ∧ bits ≠ 128) ∨ ones > bits then [] else CIDRMaskLoop (bits / 8) ones

/-- The method `IP.Mask` for an address and a mask of the same length. -/
def Mask (ip mask : List Nat) : List Nat :=
  if ip.length ≠ mask.length then [] else List.zipWith (fun x m => x &&& m) ip mask

/-- The `*net.IPNet` that `net.ParseCIDR` returns for the IPv4 text
`a.b.c.d/ones`: the masked address and the mask of `ones` leading one bits. -/
def ipv4Net (a b c d ones : Nat) : IPNet :=
  { IP := Mask [a, b, c, d] (CIDRMask ones 32), Mask := CIDRMask ones 32 }

/-- The method `IPNet.Contains` for an address as long as the network number:
byte by byte, `nn[i]&m[i] == ip[i]&m[i]`. -/
def Contains (n : IPNet) (ip : List Nat) : Bool :=
  if ip.length ≠ n.IP.length then false
  else (List.range ip.length).all fun i =>
    (n.IP.getD i 0 &&& n.Mask.getD i 0) == (ip.getD i 0 &&& n.Mask.getD i 0)

/-- The method `IP.String` on a 4-byte address: dotted decimal. Other lengths
are not embedded. -/
def ipString : List Nat → String
  | [a, b, c, d] => Nat.repr a ++ "." ++ Nat.repr b ++ "." ++ Nat.repr c ++ "." ++ Nat.repr d
  | _ => "?"

/-- The loop of `inc` from the last byte down: the new bytes, and whether the
loop is still running (every byte so far wrapped to 0). -/
def incLoop : List Nat → List Nat × Bool
  | [] => ([], true)
  | b :: rest =>
    match incLoop rest with
    | (rest', true) => (((b + 1) % 256) :: rest', (b + 1) % 256 == 0)
    | (rest', false) => (b :: rest', false)

/-- The function `inc`: add one to a big-endian byte slice, with wrap-around. -/
def inc (ip : List Nat) : List Nat :=
  (incLoop ip).1

/-- The loop `for ip := ...; ipnet.Contains(ip); inc(ip)` of `NewIpamService`,
run for at most `fuel` tests of its condition; `none` when the condition still
holds after that many. -/
def collectIPs (ipnet : IPNet) : Nat → List Nat → List String → Option (List String)
  | 0, _, _ => none
  | fuel + 1, ip, ips =>
    if Contains ipnet ip then collectIPs ipnet fuel (inc ip) (ips ++ [ipString ip])
    else some ips

/-- The function `NewIpamService`, from the result `parsed` of `net.ParseCIDR`.
The outer `none` says that the loop did not end within `fuel` steps; the inner
`none` is the `nil` allocator returned on a parse error. -/
def NewIpamService (fuel : Nat) (parsed : Option IPNet) : Option (Option IPAllocator) :=
  match parsed with
  | none => some none
  | some ipnet =>
    match collectIPs ipnet fuel (Mask ipnet.IP ipnet.Mask) [] with
    | none => none
    | some ips =>
      let ips := if ips.length > 2 then (ips.take (ips.length - 1)).drop 1 else ips
      some (some { availableIPs := ips, allocated := [], ipToUser := [] })

/-- The 4-byte big-endian form of the address number `v`. -/
def addr (v : Nat) : List Nat :=
  [v / 2 ^ 24 % 256, v / 2 ^ 16 % 256, v / 2 ^ 8 % 256, v % 256]

/-- The address number of a 4-byte address. -/
def ipValue : List Nat → Nat
  | [a, b, c, d] => ((a * 256 + b) * 256 + c) * 256 + d
  | _ => 0

/-- The network address number of the block `a.b.c.d/ones`. -/
def networkOf (a b c d ones : Nat) : Nat :=
  ipValue [a, b, c, d] / 2 ^ (32 - ones) * 2 ^ (32 - ones)

/-- The addresses expected in the pool of the block `a.b.c.d/ones`, as text: the
block without its first and last address when it has more than two addresses,
else the whole block. -/
def poolOf (a b c d ones : Nat) : List String :=
  if 2 < 2 ^ (32 - ones) then
    (List.range (2 ^ (32 - ones) - 2)).map fun i => ipString (addr (networkOf a b c d ones + 1 + i))
  else (List.range (2 ^ (32 - ones))).map fun i => ipString (addr (networkOf a b c d ones + i))

/-- The allocator states reachable from a pool built by `NewIpamService` on an
IPv4 block through calls of `AllocateIP` and `ReleaseIP`. -/
inductive Reachable : IPAllocator → Prop
  | init (fuel a b c d ones : Nat) (al : IPAllocator)
      (ha : a < 256) (hb : b < 256) (hc : c < 256) (hd : d < 256) (hones : ones ≤ 32)
      (h : NewIpamService fuel (some (ipv4Net a b c d ones)) = some (some al)) : Reachable al
  | allocate (al : IPAllocator) (supi : String) (pduSessId : Int)
      (h : Reachable al) : Reachable (AllocateIP al supi pduSessId).2
  | release (al : IPAllocator) (supi : String) (pduSessId : Int)
      (h : Reachable al) : Reachable (ReleaseIP al supi pduSessId).2

/-- Consistency of an allocator: no address is free twice, the two maps are
inverse to each other, and no free address has an inverse entry. -/
structure Inv (al : IPAllocator) : Prop where
  nodup : al.availableIPs.Nodup
  fwd : ∀ k ip, al.allocated.lookup k = some ip → al.ipToUser.lookup ip = some k
  bwd : ∀ ip k, al.ipToUser.lookup ip = some k → al.allocated.lookup k = some ip
  free : ∀ ip ∈ al.availableIPs, al.ipToUser.lookup ip = none

end utils

/-! ## The Markov engine -/

namespace models

/-- The type `UeState` (`type UeState int`). -/
abbrev UeState := Int

def Deregistered : UeState := 0
def Registered : UeState := 1
def Attached : UeState := 2
def Idle : UeState := 3
def Connected : UeState := 4
def Handover : UeState := 5

/-- The type `UeProcedure` (`type UeProcedure string`). -/
abbrev UeProcedure := String

def NoProcedure : UeProcedure := "NONE"
def Registration : UeProcedure := "REGISTRATION"
def Attach : UeProcedure := "ATTACH"
def PduSessionEstablishement : UeProcedure := "PDU_SES_EST"
def PduSessionFailure : UeProcedure := "PDU_SES_FAIL"
def PduSessionRelease : UeProcedure := "PDU_SES_REL"
def LossOfConnection : UeProcedure := "LOSS_OF_CONNECTION"
def Sleep : UeProcedure := "IDLE_MODE"
def Paging : UeProcedure := "PAGING"
def HandoverSuccessful : UeProcedure := "HO_SUCCESSFUL"
def HandoverFailure : UeProcedure := "HO_FAILED"
def HandoverInitiated : UeProcedure := "HO_INITIATED"

/-- The struct `Transition`. The probability is the exact decimal written in
the source; a field left out of a literal has its zero value. -/
structure Transition where
  To : UeState := 0
  Probability : ℚ := 0
  Procedure : UeProcedure := ""

end models

namespace ran

open models

/-- The map literal `transitions`, rows in the order of the source. -/
def transitions : List (UeState × List Transition) :=
  [ (Deregistered,
      [ { To := Registered, Probability := 0.90, Procedure := Registration },
        { To := Deregistered, Probability := 0.10, Procedure := NoProcedure } ]),
    (Registered,
      [ { To := Attached, Probability := 0.99, Procedure := Attach },
        { To := Registered, Probability := 0.005 },
        { To := Deregistered, Probability := 0.005, Procedure := LossOfConnection } ]),
    (Attached,
      [ { To := Connected, Probability := 0.90, Procedure := PduSessionEstablishement },
        { To := Attached, Probability := 0.05, Procedure := NoProcedure },
        { To := Deregistered, Probability := 0.05, Procedure := LossOfConnection } ]),
    (Idle,
      [ { To := Idle, Probability := 0.94, Procedure := NoProcedure },
        { To := Connected, Probability := 0.05, Procedure := Paging },
        { To := Handover, Probability := 0.007, Procedure := HandoverInitiated },
        { To := Deregistered, Probability := 0.003, Procedure := LossOfConnection } ]),
    (Connected,
      [ { To := Connected, Probability := 0.997, Procedure := NoProcedure },
        { To := Handover, Probability := 0.002, Procedure := HandoverInitiated },
        { To := Deregistered, Probability := 0.001, Procedure := LossOfConnection } ]),
    (Handover,
      [ { To := Connected, Probability := 0.99, Procedure := HandoverSuccessful },
        { To := Deregistered, Probability := 0.01, Procedure := HandoverFailure } ]) ]

/-- The comma-ok read `row, ok := transitions[current]`. -/
def transitionsRow (current : UeState) : Option (List Transition) :=
  (transitions.find? fun r => r.1 == current).map Prod.snd

/-- The read `transitions[current]`: a missing key gives the nil slice. -/
def transitionsAt (current : UeState) : List Transition :=
  (transitionsRow current).getD []

/-- The loop of `NextState` over the rest of the row, `cumulative` being the
sum so far. -/
def NextStateLoop (rnd : ℚ) (current : UeState) :
    List Transition → ℚ → UeState × UeProcedure
  | [], _ => (current, NoProcedure)
  | t :: rest, cumulative =>
    if rnd < cumulative + t.Probability then (t.To, t.Procedure)
    else NextStateLoop rnd current rest (cumulative + t.Probability)

/-- The function `NextState`, the draw `rand.Float64()` being the argument `rnd`. -/
def NextState (rnd : ℚ) (current : UeState) : UeState × UeProcedure :=
  NextStateLoop rnd current (transitionsAt current) 0

/-- The cumulative probability of the first `k` transitions of a row. -/
def cumulative (row : List Transition) (k : Nat) : ℚ :=
  ((row.take k).map fun t => t.Probability).sum

/-- The six UE states. -/
def allStates : List UeState :=
  [Deregistered, Registered, Attached, Idle, Connected, Handover]

end ran

namespace ran

open models

/-- The transition table as the specification prints it (section 4.2): for each
state the listed (next state, probability) pairs, in the order of the text. -/
def specTransitions : List (UeState × List (UeState × ℚ)) :=
  [ (Deregistered, [(Registered, 0.90), (Deregistered, 0.10)]),
    (Registered, [(Attached, 0.99), (Registered, 0.005), (Deregistered, 0.005)]),
    (Attached, [(Connected, 0.90), (Attached, 0.05), (Deregistered, 0.05)]),
    (Idle, [(Idle, 0.94), (Connected, 0.05), (Handover, 0.007), (Deregistered, 0.003)]),
    (Connected, [(Connected, 0.997), (Handover, 0.002), (Deregistered, 0.001)]),
    (Handover, [(Connected, 0.99), (Deregistered, 0.01)]) ]

/-- The nine procedures that the specification names for transitions. -/
def namedProcedures : List UeProcedure :=
  [Registration, Attach, PduSessionEstablishement, NoProcedure, LossOfConnection, Paging,
    HandoverInitiated, HandoverSuccessful, HandoverFailure]

end ran

/-! ## Identifiers generated by the network instance (`simulator/network.go`) -/

namespace simulator

/-- Zero padding of the verbs `%08d`, `%06d`, `%09x`: zeros on the left up to
`width` characters, nothing when the numeral is already that long. -/
def padZero (width : Nat) (numeral : List Char) : String :=
  String.mk (List.replicate (width - numeral.length) '0' ++ numeral)

/-- The call `fmt.Sprintf("%0{width}d", n)` for `n ≥ 0`. -/
def SprintfZeroPadD (width n : Nat) : String :=
  padZero width (Nat.repr n).data

/-- The call `fmt.Sprintf("%09x", i)` on a `uint64`. -/
def Sprintf09x (i : Nat) : String :=
  padZero 9 (Nat.toDigits 16 i)

/-- The loop of `luhnCheckDigit`, over the bytes from the last one to the first:
`n, _ := strconv.Atoi(string(number[i]))` is 0 when the byte is no digit. -/
def luhnLoop : List Char → Bool → Nat → Nat
  | [], _, sum => sum
  | c :: rest, alt, sum =>
    let n := ((utils.Atoi (String.mk [c])).getD 0).toNat
    let n := if alt then (if n * 2 > 9 then n * 2 - 9 else n * 2) else n
    luhnLoop rest (!alt) (sum + n)

/-- The function `luhnCheckDigit` (on text of one-byte characters). -/
def luhnCheckDigit (number : String) : String :=
  let sum := luhnLoop number.data.reverse true 0
  let checkDigit := (10 - (sum % 10)) % 10
  Nat.repr checkDigit

/-- The function `generateIMEI`; `r₁` and `r₂` are the results of the calls
`rand.Intn(100000000)` and `rand.Intn(1000000)`. -/
def generateIMEI (r₁ r₂ : Nat) : String :=
  let tac := SprintfZeroPadD 8 r₁
  let snr := SprintfZeroPadD 6 r₂
  let imei14 := tac ++ snr
  let checkDigit := luhnCheckDigit imei14
  imei14 ++ checkDigit

/-- The constant `maxNCI`. -/
def maxNCI : Nat := (1 <<< 36) - 1

/-- The function `generateNRCellIDsHex`: the counting loop appends
`fmt.Sprintf("%09x", i)` for `i = 0, ..., max - 1`. -/
def generateNRCellIDsHex (max : Nat) : List String :=
  let max := if max > maxNCI then maxNCI else max
  (List.range max).map Sprintf09x

/-- The Luhn sum of a numeral whose digits are listed from the right: the check
digit counts as it is, its neighbour is doubled (minus 9 above 9), and so on
alternating. -/
def luhnSum : List Nat → Nat
  | [] => 0
  | [d] => d
  | d :: e :: rest => d + (if 2 * e > 9 then 2 * e - 9 else 2 * e) + luhnSum rest

/-- The Luhn check of a decimal numeral. -/
def luhnValid (s : String) : Bool :=
  s.data.all Char.isDigit && luhnSum (s.data.reverse.map fun c => c.toNat - 48) % 10 == 0

/-- Value of one of the characters `0-9`, `a-f` as a hexadecimal digit. -/
def hexDigitValue (c : Char) : Nat :=
  if c.isDigit then c.toNat - 48 else c.toNat - 87

/-- Value of a lowercase hexadecimal numeral, most significant digit first. -/
def hexValue (ds : List Char) : Nat :=
  ds.foldl (fun acc c => acc * 16 + hexDigitValue c) 0

/-- The characters `0-9` and `a-f`. -/
def hexChars : List Char := "0123456789abcdef".data

end simulator

/-! ## The UE actor (`ran/ue.go`)

Conventions of this part:
* the clock is an argument: every `time.Now()` of one call reads the instant
  `now`, an integer number of nanoseconds; a `time.Duration` is an integer too;
* the results of `rand.Intn` are an argument: the list `draws` of the numbers
  still to come, a call `rand.Intn(n)` taking the next one modulo `n`; a loop
  that needs more draws than the list holds has no result (`none`);
* the bus `gitc` is an external library: every call of `gitc.Send` is recorded,
  in order, in the list of `SendCall`s that an operation returns (the error that
  `Send` may report is only logged by the callers);
* the allocator behind the pointer `ue.ipManager` is shared between UEs, so the
  operations that use it take and return its state;
* log lines, Prometheus metrics and the goroutines started by an operation are
  not part of the state; the body of a goroutine loop is a step function of its
  own (`inactivityMonitorFire`, `trafficPacket`). -/

namespace models

/-- Modelled from the spec: the string type `RmState`, whose declaration is not
among the sources; registration-management state, DEREGISTERED or REGISTERED. -/
abbrev RmState := String

/-- Modelled from the spec: the constant `RmStateDeregistered`. -/
def RmStateDeregistered : RmState := "DEREGISTERED"

/-- Modelled from the spec: the constant `RmStateRegistered`. -/
def RmStateRegistered : RmState := "REGISTERED"

/-- Modelled from the spec: the string type `CmState`, whose declaration is not
among the sources; connection-management state, IDLE or CONNECTED. -/
abbrev CmState := String

/-- Modelled from the spec: the constant `CmStateIdle`. -/
def CmStateIdle : CmState := "IDLE"

/-- Modelled from the spec: the constant `CmStateConnected`. -/
def CmStateConnected : CmState := "CONNECTED"

/-- Modelled from the spec: the string type `AccessType`, whose declaration is
not among the sources. -/
abbrev AccessType := String

/-- Modelled from the spec: the constant `ACCESSTYPE__3_GPP_ACCESS`, the default
access type. -/
def ACCESSTYPE__3_GPP_ACCESS : AccessType := "3GPP_ACCESS"

/-- Modelled from the spec: the string type `AmfEventTypeAnyOf` of the AMF event
kinds, whose declaration is not among the sources. -/
abbrev AmfEventTypeAnyOf := String

/-- Modelled from the spec: the AMF event kind LOCATION_REPORT. -/
def AMFEVENTTYPEANYOF_LOCATION_REPORT : AmfEventTypeAnyOf := "LOCATION_REPORT"

/-- Modelled from the spec: the AMF event kind REGISTRATION_STATE_REPORT. -/
def AMFEVENTTYPEANYOF_REGISTRATION_STATE_REPORT : AmfEventTypeAnyOf :=
  "REGISTRATION_STATE_REPORT"

/-- Modelled from the spec: the AMF event kind CONNECTIVITY_STATE_REPORT. -/
def AMFEVENTTYPEANYOF_CONNECTIVITY_STATE_REPORT : AmfEventTypeAnyOf :=
  "CONNECTIVITY_STATE_REPORT"

/-- Modelled from the spec: the AMF event kind LOSS_OF_CONNECTIVITY. -/
def AMFEVENTTYPEANYOF_LOSS_OF_CONNECTIVITY : AmfEventTypeAnyOf := "LOSS_OF_CONNECTIVITY"

/-- Modelled from the spec: the AMF event kind UES_IN_AREA_REPORT. -/
def AMFEVENTTYPEANYOF_UES_IN_AREA_REPORT : AmfEventTypeAnyOf := "UES_IN_AREA_REPORT"

/-- Modelled from the spec: the string type `SmfEventAnyOf` of the SMF event
kinds, whose declaration is not among the sources. -/
abbrev SmfEventAnyOf := String

/-- Modelled from the spec: the SMF event kind PDU_SES_EST. -/
def SMFEVENTANYOF_PDU_SES_EST : SmfEventAnyOf := "PDU_SES_EST"

/-- Modelled from the spec: the SMF event kind PDU_SES_REL. -/
def SMFEVENTANYOF_PDU_SES_REL : SmfEventAnyOf := "PDU_SES_REL"

/-- Modelled from the spec: the SMF event kind DDDS. -/
def SMFEVENTANYOF_DDDS : SmfEventAnyOf := "DDDS"

/-- Modelled from the spec: the SMF event kind QOS_MON. -/
def SMFEVENTANYOF_QOS_MON : SmfEventAnyOf := "QOS_MON"

/-- Modelled from the spec: the SMF event kind COMM_FAIL. -/
def SMFEVENTANYOF_COMM_FAIL : SmfEventAnyOf := "COMM_FAIL"

/-- Modelled from the spec: the string type `PduSessionTypeAnyOf`, whose
declaration is not among the sources. -/
abbrev PduSessionTypeAnyOf := String

/-- Modelled from the spec: the PDU session type IPV4. -/
def PDUSESSIONTYPEANYOF_IPV4 : PduSessionTypeAnyOf := "IPV4"

/-- Modelled from the spec: the string type `DlDataDeliveryStatusAnyOf`, whose
declaration is not among the sources. -/
abbrev DlDataDeliveryStatusAnyOf := String

/-- Modelled from the spec: the struct `PlmnId`, whose declaration is not among
the sources: the pair (MCC, MNC). -/
structure PlmnId where
  Mcc : String
  Mnc : String
deriving DecidableEq, Repr

/-- Modelled from the spec: the struct `Snssai`, whose declaration is not among
the sources: the slice selector (SST, SD). -/
structure Snssai where
  Sst : Int
  Sd : String
deriving DecidableEq, Repr

/-- Modelled from the spec: the struct `PduSessionInfo`, whose declaration is
not among the sources, with the fields that `ue.go` uses. The fields `Ctx` and
`CtxCancelFun` (the scope of the session and its cancel function) have no
counterpart: every stored session has a cancel function, and the zero value,
whose cancel function is nil, is the absent session. -/
structure PduSessionInfo where
  Id : Int
  Ipv4 : String
  Snssai : Snssai
  Dnn : String
deriving DecidableEq, Repr

/-- The constants of type `gitc.MessageType`. -/
def UeToAmfType : Nat := 0
def AmfToUeType : Nat := 1
def UeToSmfType : Nat := 2
def SmfToUeType : Nat := 3
def PcfToUeType : Nat := 4
def UeToPcfType : Nat := 5

/-- The wrap-around of `int64` arithmetic. -/
def wrapInt64 (x : Int) : Int :=
  (x + 2 ^ 63) % 2 ^ 64 - 2 ^ 63

/-- The struct `UpStats`; a `time.Time` is an instant in nanoseconds. -/
structure UpStats where
  PduSessId : Int := 0
  NumOfPackets : Int := 0
  TotalBytes : Int := 0
  NumUlPackets : Int := 0
  NumDlPackets : Int := 0
  TotalUlBytes : Int := 0
  TotalDlBytes : Int := 0
  LastUlUpdate : Int := 0
  LastDlUpdate : Int := 0
  LastUlSizeArrived : Int := 0
  LastDlSizeArrived : Int := 0
deriving DecidableEq, Repr

/-- The struct `UpStatsReport` without its four floating-point rates. -/
structure UpStatsReport where
  UpStats : UpStats
deriving DecidableEq, Repr

/-- The function `NewUpStats`. -/
def NewUpStats (sessionId : Int) (now : Int) : UpStats :=
  { PduSessId := sessionId
    NumOfPackets := 0
    TotalBytes := 0
    TotalUlBytes := 0
    TotalDlBytes := 0
    NumUlPackets := 0
    NumDlPackets := 0
    LastDlUpdate := now
    LastUlUpdate := now }

/-- The method `UpStats.NewPacket`. -/
def UpStats.NewPacket (stats : UpStats) (ul : Bool) (size : Int) (timestamp : Int) : UpStats :=
  let stats := { stats with NumOfPackets := wrapInt64 (stats.NumOfPackets + 1) }
  let stats := { stats with TotalBytes := wrapInt64 (stats.TotalBytes + size) }
  if ul then
    { stats with
      NumUlPackets := wrapInt64 (stats.NumUlPackets + 1)
      TotalUlBytes := wrapInt64 (stats.TotalUlBytes + size)
      LastUlSizeArrived := size
      LastUlUpdate := timestamp }
  else
    { stats with
      NumDlPackets := wrapInt64 (stats.NumDlPackets + 1)
      TotalDlBytes := wrapInt64 (stats.TotalDlBytes + size)
      LastDlSizeArrived := size
      LastDlUpdate := timestamp }

/-- The struct `UeToAmfMsg`. -/
structure UeToAmfMsg where
  EventType : AmfEventTypeAnyOf
  TimeStamp : Int
  RmState : RmState
  CmState : CmState
  Supi : String
  Gpsi : String
  PlmnId : PlmnId
  CurrentCellId : String
  AccessType : AccessType
deriving DecidableEq, Repr

/-- The struct `UeToSmfMsg`; a field left out of a literal has its zero value. -/
structure UeToSmfMsg where
  EventType : SmfEventAnyOf
  TimeStamp : Int
  Supi : String
  Gpsi : String
  PlmnId : PlmnId
  AccessType : AccessType
  Dnn : String
  Snssai : Snssai
  UeAddress : String
  PduSessType : PduSessionTypeAnyOf
  PduSessId : Int
  DddsState : DlDataDeliveryStatusAnyOf := ""
  UpReport : Option UpStatsReport := none
deriving DecidableEq, Repr

/-- The payload of a bus message. -/
inductive Payload where
  | UeToAmf (msg : UeToAmfMsg)
  | UeToSmf (msg : UeToSmfMsg)
deriving DecidableEq, Repr

/-- One call `gitc.Send(sender, recipient, msgType, payload)`. -/
structure SendCall where
  sender : String
  recipient : String
  msgType : Nat
  payload : Payload
deriving DecidableEq, Repr

end models

namespace ran

open models

/-- A Go map with `int32` keys: association list, newest binding first; the map
it stands for binds a key to the first entry that has it. -/
abbrev Map32 (β : Type) := List (Int × β)

namespace Map32

/-- The comma-ok read `v, ok := m[k]`; `none` is `ok = false`. -/
def lookup {β : Type} : Map32 β → Int → Option β
  | [], _ => none
  | (k', v) :: rest, k => if k' = k then some v else lookup rest k

/-- The builtin `delete(m, k)`. -/
def delete {β : Type} (m : Map32 β) (k : Int) : Map32 β :=
  m.filter (fun p => decide (p.1 ≠ k))

/-- The assignment `m[k] = v`. -/
def store {β : Type} (m : Map32 β) (k : Int) (v : β) : Map32 β :=
  (k, v) :: delete m k

/-- The builtin `len(m)`: the number of keys. -/
def len {β : Type} (m : Map32 β) : Nat :=
  (m.map Prod.fst).dedup.length

end Map32

/-- The struct `Ue`. The pair `ctx`, `cancelFun` is the flag `ctxDone` (the
scope of the UE has been cancelled); the mutexes, the unused field
`UserLocation` and the pointer `ipManager` have no counterpart. -/
structure Ue where
  ctxDone : Bool
  Imsi : String
  Msidn : String
  Imei : String
  ueState : UeState
  PlmnId : models.PlmnId
  CurrentCellId : String
  PduSessions : Map32 PduSessionInfo
  RmStatus : RmState
  CmStatus : CmState
  HasUplinkData : Bool
  LastActivityTime : Int
  accessType : AccessType
  defautlDnn : String
  defaultSnssai : Snssai
  UpStats : Map32 models.UpStats
  UpStatsReport : Bool
  IncactivityTimer : Int
  Profile : String
  simId : String
  gnbList : List String
deriving DecidableEq, Repr

/-- The struct `UeConfig`; the field `Type` is named `Kind` here. -/
structure UeConfig where
  Imsi : String
  Msidn : String
  Imei : String
  Dnn : String
  Snssai : Snssai
  Kind : String
  Plmn : PlmnId
deriving DecidableEq, Repr

/-- The function `NewUserEquipment`; `parentDone` says whether the context
handed in is already cancelled. -/
def NewUserEquipment (parentDone : Bool) (cfg : UeConfig) (simulationId : String)
    (gnbs : List String) (now : Int) : Ue :=
  { ctxDone := parentDone
    PlmnId := cfg.Plmn
    Imsi := cfg.Imsi
    Msidn := cfg.Msidn
    Imei := cfg.Imei
    Profile := cfg.Kind
    defautlDnn := cfg.Dnn
    defaultSnssai := cfg.Snssai
    RmStatus := RmStateDeregistered
    CmStatus := CmStateIdle
    PduSessions := []
    UpStats := []
    HasUplinkData := false
    LastActivityTime := now
    accessType := ACCESSTYPE__3_GPP_ACCESS
    simId := simulationId
    gnbList := gnbs
    ueState := 0
    CurrentCellId := ""
    UpStatsReport := false
    IncactivityTimer := 0 }

/-- The loop of `pickRandomNRCellID`: one draw per round, until the cell drawn
is not the current one. -/
def pickLoop (gnbList : List String) (current : String) : List Nat → Option String
  | [] => none
  | d :: draws =>
    let idx := d % gnbList.length
    if gnbList.getD idx "" ≠ current then some (gnbList.getD idx "")
    else pickLoop gnbList current draws

/-- The method `pickRandomNRCellID`. -/
def Ue.pickRandomNRCellID (ue : Ue) (draws : List Nat) : Option String :=
  if ue.gnbList.length ≤ 1 then some ""
  else pickLoop ue.gnbList ue.CurrentCellId draws

/-- The message that the UE operations send to the AMF: the literal
`&models.UeToAmfMsg{...}` filled from the fields of the UE. -/
def amfMsg (ue : Ue) (eventType : AmfEventTypeAnyOf) (now : Int) : SendCall :=
  { sender := ue.Imsi
    recipient := "AMF"
    msgType := UeToAmfType
    payload := Payload.UeToAmf
      { EventType := eventType
        TimeStamp := now
        RmState := ue.RmStatus
        CmState := ue.CmStatus
        Supi := ue.Imsi
        Gpsi := ue.Msidn
        PlmnId := ue.PlmnId
        CurrentCellId := ue.CurrentCellId
        AccessType := ue.accessType } }

/-- The method `Register`. -/
def Ue.Register (ue : Ue) (draws : List Nat) (now : Int) : Option (Ue × List SendCall) :=
  match ue.pickRandomNRCellID draws with
  | none => none
  | some cell =>
    let ue := { ue with CurrentCellId := cell }
    let ue := { ue with RmStatus := RmStateRegistered }
    let msg := amfMsg ue AMFEVENTTYPEANYOF_REGISTRATION_STATE_REPORT now
    let msg2 := amfMsg ue AMFEVENTTYPEANYOF_LOCATION_REPORT now
    some (ue, [msg, msg2])

/-- The method `Attach`. -/
def Ue.Attach (ue : Ue) (inactivityTimer : Int) (now : Int) : Ue × List SendCall :=
  let _ := inactivityTimer
  if ue.RmStatus ≠ RmStateRegistered then (ue, [])
  else
    let ue := { ue with CmStatus := CmStateConnected }
    let msg := amfMsg ue AMFEVENTTYPEANYOF_CONNECTIVITY_STATE_REPORT now
    (ue, [msg])

/-- The message that the UE operations send to the SMF for a session: the
literal `&models.UeToSmfMsg{...}` of `NewPduSession` and `ReleasePduSession`. -/
def smfMsg (ue : Ue) (eventType : SmfEventAnyOf) (dnn : String) (snssai : Snssai)
    (ueAddress : String) (sessionId : Int) (now : Int) : SendCall :=
  { sender := ue.Imsi
    recipient := "SMF"
    msgType := UeToSmfType
    payload := Payload.UeToSmf
      { EventType := eventType
        TimeStamp := now
        Dnn := dnn
        Snssai := snssai
        PduSessType := PDUSESSIONTYPEANYOF_IPV4
        UeAddress := ueAddress
        Supi := ue.Imsi
        Gpsi := ue.Msidn
        PlmnId := ue.PlmnId
        PduSessId := sessionId
        AccessType := ue.accessType } }

/-- The method `NewPduSession`. -/
def Ue.NewPduSession (ue : Ue) (al : utils.IPAllocator) (sessionId : Int) (dnn : String)
    (snssai : Snssai) (enableReport : Bool) (now : Int) :
    Ue × utils.IPAllocator × List SendCall :=
  let ue := { ue with LastActivityTime := now }
  if ue.CmStatus ≠ CmStateConnected then (ue, al, [])
  else
    match utils.AllocateIP al ue.Imsi sessionId with
    | (Except.error _, al) => (ue, al, [])
    | (Except.ok ip, al) =>
      let ue := { ue with
        PduSessions := ue.PduSessions.store sessionId
          { Id := sessionId, Ipv4 := ip, Snssai := snssai, Dnn := dnn } }
      let ue := { ue with HasUplinkData := false }
      let msg := smfMsg ue SMFEVENTANYOF_PDU_SES_EST dnn snssai ip sessionId now
      let ue :=
        if enableReport then
          { ue with UpStats := ue.UpStats.store sessionId (NewUpStats sessionId now) }
        else ue
      (ue, al, [msg])

/-- The method `ReleasePduSession`. The result `none` is the panic of the call
`pduSess.CtxCancelFun()` on the zero value read for an unknown id. -/
def Ue.ReleasePduSession (ue : Ue) (al : utils.IPAllocator) (sessionId : Int) (now : Int) :
    Option (Ue × utils.IPAllocator × List SendCall) :=
  match utils.ReleaseIP al ue.Imsi sessionId with
  | (Except.error _, al) => some (ue, al, [])
  | (Except.ok _, al) =>
    match ue.PduSessions.lookup sessionId with
    | none => none
    | some pduSess =>
      let msg := smfMsg ue SMFEVENTANYOF_PDU_SES_REL pduSess.Dnn pduSess.Snssai pduSess.Ipv4
        sessionId now
      let ue := { ue with PduSessions := ue.PduSessions.delete sessionId }
      some (ue, al, [msg])

/-- The loop `for i := range len(ue.PduSessions)` of `LossOfConnection` over the
indices still to do, with the messages sent so far. -/
def releaseLoop (now : Int) : List Nat → Ue × utils.IPAllocator × List SendCall →
    Option (Ue × utils.IPAllocator × List SendCall)
  | [], st => some st
  | i :: rest, (ue, al, sent) =>
    match ue.ReleasePduSession al (utils.toInt32 ((i : Int) + 1)) now with
    | none => none
    | some (ue, al, msgs) => releaseLoop now rest (ue, al, sent ++ msgs)

/-- The method `LossOfConnection`. -/
def Ue.LossOfConnection (ue : Ue) (al : utils.IPAllocator) (isGracefully : Bool) (now : Int) :
    Option (Ue × utils.IPAllocator × List SendCall) :=
  let msg := amfMsg ue AMFEVENTTYPEANYOF_LOSS_OF_CONNECTIVITY now
  let ue := { ue with CmStatus := CmStateIdle }
  let ue := { ue with RmStatus := RmStateDeregistered }
  let sent :=
    if isGracefully then [msg, amfMsg ue AMFEVENTTYPEANYOF_REGISTRATION_STATE_REPORT now]
    else [msg]
  releaseLoop now (List.range ue.PduSessions.len) (ue, al, sent)

/-- The method `Sleep`. -/
def Ue.Sleep (ue : Ue) (force : Bool) (now : Int) : Ue × List SendCall :=
  let _ := force
  let ue := { ue with CmStatus := CmStateIdle }
  let msg := amfMsg ue AMFEVENTTYPEANYOF_CONNECTIVITY_STATE_REPORT now
  (ue, [msg])

/-- The method `WakeUp`. -/
def Ue.WakeUp (ue : Ue) (isPaging : Bool) (now : Int) : Ue × List SendCall :=
  let _ := isPaging
  if ue.RmStatus ≠ RmStateRegistered then (ue, [])
  else if ue.CmStatus ≠ CmStateConnected then
    let ue := { ue with LastActivityTime := now }
    let ue := { ue with CmStatus := CmStateConnected }
    let msg := amfMsg ue AMFEVENTTYPEANYOF_CONNECTIVITY_STATE_REPORT now
    (ue, [msg])
  else (ue, [])

/-- The method `DoHandover`. -/
def Ue.DoHandover (ue : Ue) (targetCellId : String) (now : Int) : Ue × List SendCall :=
  let msg := amfMsg ue AMFEVENTTYPEANYOF_LOCATION_REPORT now
  let ue := { ue with LastActivityTime := now }
  let ue := { ue with CurrentCellId := targetCellId }
  (ue, [msg])

/-- One round of the loop of `inactivityMonitor`, at the instant `now` at which
`time.After(inactivityTimer)` fires. -/
def Ue.inactivityMonitorFire (ue : Ue) (inactivityTimer : Int) (now : Int) : Ue × List SendCall :=
  let maxTolleratedInactivity := now - inactivityTimer
  if ue.CmStatus = CmStateConnected ∧ ue.LastActivityTime < maxTolleratedInactivity then
    let ue := { ue with CmStatus := CmStateIdle }
    let ue := { ue with ueState := Idle }
    let msg := amfMsg ue AMFEVENTTYPEANYOF_CONNECTIVITY_STATE_REPORT now
    (ue, [msg])
  else (ue, [])

/-- One round of the loop of `StartTrafficSession` in which the generator
returns a packet of `size` bytes (`pkt != nil`), without the metrics. -/
def Ue.trafficPacket (ue : Ue) (sessionId : Int) (ul : Bool) (size : Int) (now : Int) :
    Ue × List SendCall :=
  match ue.WakeUp false now with
  | (ue, msgs) =>
    let ue := { ue with LastActivityTime := now }
    let ue :=
      match ue.UpStats.lookup sessionId with
      | some stats =>
        { ue with UpStats := ue.UpStats.store sessionId (stats.NewPacket ul (wrapInt64 size) now) }
      | none => ue
    (ue, msgs)

/-- The method `TurnOff`. -/
def Ue.TurnOff (ue : Ue) (al : utils.IPAllocator) (isGracefully : Bool) (now : Int) :
    Option (Ue × utils.IPAllocator × List SendCall) :=
  let ue := { ue with ctxDone := true }
  ue.LossOfConnection al isGracefully now

/-- The operations on a UE, with their arguments. -/
inductive Op where
  | Register (draws : List Nat)
  | Attach (inactivityTimer : Int)
  | LossOfConnection (isGracefully : Bool)
  | NewPduSession (sessionId : Int) (dnn : String) (snssai : Snssai) (enableReport : Bool)
  | ReleasePduSession (sessionId : Int)
  | Sleep (force : Bool)
  | WakeUp (isPaging : Bool)
  | DoHandover (targetCellId : String)
  | TurnOff (isGracefully : Bool)
  | inactivityMonitorFire (inactivityTimer : Int)
  | trafficPacket (sessionId : Int) (ul : Bool) (size : Int)
deriving DecidableEq, Repr

/-- One operation of a UE at the instant `now`: the new UE, the new allocator
and the messages sent; `none` when the operation does not return. -/
def applyOp (op : Op) (ue : Ue) (al : utils.IPAllocator) (now : Int) :
    Option (Ue × utils.IPAllocator × List SendCall) :=
  match op with
  | Op.Register draws => (ue.Register draws now).map fun r => (r.1, al, r.2)
  | Op.Attach inactivityTimer =>
    some ((ue.Attach inactivityTimer now).1, al, (ue.Attach inactivityTimer now).2)
  | Op.LossOfConnection isGracefully => ue.LossOfConnection al isGracefully now
  | Op.NewPduSession sessionId dnn snssai enableReport =>
    some (ue.NewPduSession al sessionId dnn snssai enableReport now)
  | Op.ReleasePduSession sessionId => ue.ReleasePduSession al sessionId now
  | Op.Sleep force => some ((ue.Sleep force now).1, al, (ue.Sleep force now).2)
  | Op.WakeUp isPaging => some ((ue.WakeUp isPaging now).1, al, (ue.WakeUp isPaging now).2)
  | Op.DoHandover targetCellId =>
    some ((ue.DoHandover targetCellId now).1, al, (ue.DoHandover targetCellId now).2)
  | Op.TurnOff isGracefully => ue.TurnOff al isGracefully now
  | Op.inactivityMonitorFire inactivityTimer =>
    some ((ue.inactivityMonitorFire inactivityTimer now).1, al,
      (ue.inactivityMonitorFire inactivityTimer now).2)
  | Op.trafficPacket sessionId ul size =>
    some ((ue.trafficPacket sessionId ul size now).1, al,
      (ue.trafficPacket sessionId ul size now).2)

/-- The session ids that an operation names are positive `int32` values. -/
def Op.positiveIds : Op → Prop
  | Op.NewPduSession sessionId _ _ _ => 0 < sessionId ∧ sessionId < 2 ^ 31
  | Op.ReleasePduSession sessionId => 0 < sessionId ∧ sessionId < 2 ^ 31
  | _ => True

/-- UEs that share one allocator (the fields `UeList` and `ipam` of the network
instance), the UEs in a list. -/
structure Population where
  ipam : utils.IPAllocator
  UeList : List Ue

/-- The UE at position `i` performs one operation at the instant `now`; `none`
when there is no such UE or the operation does not return. -/
def Population.step (p : Population) (i : Nat) (op : Op) (now : Int) : Option Population :=
  match p.UeList.get? i with
  | none => none
  | some ue =>
    match applyOp op ue p.ipam now with
    | none => none
    | some (ue, al, _) => some { ipam := al, UeList := p.UeList.set i ue }

/-- The populations reachable from a fresh pool on an IPv4 block and fresh UEs
with pairwise distinct SUPIs without hyphen, by operations of the UEs that
name positive session ids. -/
inductive Population.Reachable : Population → Prop
  | init (fuel a b c d ones : Nat) (al : utils.IPAllocator) (cfgs : List UeConfig)
      (simulationId : String) (gnbs : List String) (now : Int)
      (ha : a < 256) (hb : b < 256) (hc : c < 256) (hd : d < 256) (hones : ones ≤ 32)
      (hal : utils.NewIpamService fuel (some (utils.ipv4Net a b c d ones)) = some (some al))
      (hdistinct : (cfgs.map fun cfg => cfg.Imsi).Nodup)
      (hhyphen : ∀ cfg ∈ cfgs, '-' ∉ cfg.Imsi.data) :
      Population.Reachable
        { ipam := al
          UeList := cfgs.map fun cfg => NewUserEquipment false cfg simulationId gnbs now }
  | step (p p' : Population) (i : Nat) (op : Op) (now : Int)
      (h : Population.Reachable p) (hop : op.positiveIds)
      (hstep : p.step i op now = some p') : Population.Reachable p'

/-- Consistency of the sessions of a UE with the allocator: every stored session
has a positive `int32` id and its key is bound to its address, and the key of
an id without session is not bound. -/
def Ue.sessionsBound (ue : Ue) (al : utils.IPAllocator) : Prop :=
  (∀ id sess, ue.PduSessions.lookup id = some sess →
    0 < id ∧ id < 2 ^ 31 ∧
    al.allocated.lookup (utils.userString ue.Imsi id) = some sess.Ipv4) ∧
  (∀ id, ue.PduSessions.lookup id = none →
    al.allocated.lookup (utils.userString ue.Imsi id) = none)

/-- A UE for the examples: the fresh UE of SUPI `208950000000001`, without cell
list, created at the instant 0. -/
def exampleUe : Ue :=
  NewUserEquipment false
    { Imsi := "208950000000001"
      Msidn := "33600000001"
      Imei := "356938035643809"
      Dnn := "internet"
      Snssai := { Sst := 1, Sd := "010203" }
      Kind := "smartphone"
      Plmn := { Mcc := "208", Mnc := "95" } }
    "sim" [] 0

/-- The UE of the examples after `Register`, `Attach` and a call
`NewPduSession(sessionId, "internet", ...)` that got the address `10.0.0.1`. -/
def exampleUeWithSession (sessionId : Int) : Ue :=
  { exampleUe with
    RmStatus := RmStateRegistered
    CmStatus := CmStateConnected
    PduSessions :=
      [(sessionId,
        { Id := sessionId
          Ipv4 := "10.0.0.1"
          Snssai := { Sst := 1, Sd := "010203" }
          Dnn := "internet" })] }

/-- The allocator on `10.0.0.0/30` after that call of `NewPduSession`. -/
def exampleAllocator (sessionId : Int) : utils.IPAllocator :=
  { availableIPs := ["10.0.0.2"]
    allocated := [(utils.userString "208950000000001" sessionId, "10.0.0.1")]
    ipToUser := [("10.0.0.1", utils.userString "208950000000001" sessionId)] }

end ran

namespace monitoring

/-- A Prometheus counter vector: the children that exist, each under its label
values, newest first. A counter value is a `float64`; the values added here are
whole numbers of packets and bytes, which a `float64` holds exactly below
`2^53`, and they are kept as integers. -/
abbrev CounterVec := List (List String × Int)

namespace CounterVec

/-- The value of the child `WithLabelValues(lvs...)`; a child that does not
exist yet is created with the value 0. -/
def value : CounterVec → List String → Int
  | [], _ => 0
  | (l, v) :: rest, lvs => if l = lvs then v else value rest lvs

/-- The call `WithLabelValues(lvs...).Add(v)`; `none` is the panic of `Add` on a
negative value. -/
def Add (c : CounterVec) (lvs : List String) (v : Int) : Option CounterVec :=
  if v < 0 then none
  else some ((lvs, c.value lvs + v) :: c.filter (fun p => decide (p.1 ≠ lvs)))

/-- The call `WithLabelValues(lvs...).Inc()`. -/
def Inc (c : CounterVec) (lvs : List String) : CounterVec :=
  (lvs, c.value lvs + 1) :: c.filter (fun p => decide (p.1 ≠ lvs))

end CounterVec

/-- The three traffic counters among the package variables of `prometheus.go`. -/
structure Metrics where
  TrafficBytes : CounterVec
  TrafficPackets : CounterVec
  TotalTraffic : CounterVec
deriving DecidableEq, Repr

end monitoring

namespace ran

open models

/-- The calls on the counters in the round of the loop of `StartTrafficSession`
that `Ue.trafficPacket` describes: they are made when the session has an
entry in `UpStats`. `none` is the panic of `Add`. -/
def Ue.trafficCounters (ue : Ue) (m : monitoring.Metrics) (sessionId : Int) (ul : Bool)
    (size : Int) : Option monitoring.Metrics :=
  match ue.UpStats.lookup sessionId with
  | some _ =>
    if ul then
      let m := { m with TrafficPackets := m.TrafficPackets.Inc [ue.simId, ue.Imsi, "UL"] }
      (m.TrafficBytes.Add [ue.simId, ue.Imsi, "UL"] size).bind fun c =>
      let m := { m with TrafficBytes := c }
      (m.TotalTraffic.Add [ue.simId, "UL"] size).bind fun c =>
      some { m with TotalTraffic := c }
    else
      let m := { m with TrafficPackets := m.TrafficPackets.Inc [ue.simId, ue.Imsi, "DL"] }
      (m.TrafficBytes.Add [ue.simId, ue.Imsi, "DL"] size).bind fun c =>
      let m := { m with TrafficBytes := c }
      (m.TotalTraffic.Add [ue.simId, "UL"] size).bind fun c =>
      some { m with TotalTraffic := c }
  | none => some m

/-- The UE of the examples with the session 1 opened with `enableReport`, so
that the session has an entry in `UpStats`. -/
def exampleUeWithStats : Ue :=
  { exampleUeWithSession 1 with UpStats := [(1, NewUpStats 1 0)] }

end ran

namespace http

/-- The response that a handler builds through its `http.ResponseWriter`, as it
goes on the wire: the header lines and the status code. `status = none` says
that no status has been written yet. The body has no counterpart. -/
structure ResponseWriter where
  header : List (String × String) := []
  status : Option Nat := none
deriving DecidableEq, Repr

/-- The call `w.Header().Add(key, value)`; after the status line it has no
effect on the response. -/
def ResponseWriter.HeaderAdd (w : ResponseWriter) (key value : String) : ResponseWriter :=
  if w.status.isSome then w else { w with header := w.header ++ [(key, value)] }

/-- The call `w.Header().Set(key, value)`; after the status line it has no
effect on the response. -/
def ResponseWriter.HeaderSet (w : ResponseWriter) (key value : String) : ResponseWriter :=
  if w.status.isSome then w
  else { w with header := w.header.filter (fun p => decide (p.1 ≠ key)) ++ [(key, value)] }

/-- The call `w.WriteHeader(code)`; only the first call writes the status. -/
def ResponseWriter.WriteHeader (w : ResponseWriter) (code : Nat) : ResponseWriter :=
  if w.status.isSome then w else { w with status := some code }

/-- The call `w.Write(...)` of a body part: it writes the status 200 when none
has been written. -/
def ResponseWriter.Write (w : ResponseWriter) : ResponseWriter :=
  w.WriteHeader 200

/-- The function `http.Error(w, error, code)`. -/
def Error (w : ResponseWriter) (error : String) (code : Nat) : ResponseWriter :=
  let _ := error
  let w := w.HeaderSet "Content-Type" "text/plain; charset=utf-8"
  let w := w.HeaderSet "X-Content-Type-Options" "nosniff"
  let w := w.WriteHeader code
  w.Write

/-- The status code of the response once the handler has returned: the status
written, or 200 when the handler wrote none. -/
def ResponseWriter.statusCode (w : ResponseWriter) : Nat :=
  w.status.getD 200

/-- The values of the header lines with the name `key`, in order. -/
def ResponseWriter.Values (w : ResponseWriter) (key : String) : List String :=
  (w.header.filter (fun p => decide (p.1 = key))).map Prod.snd

/-- The constants `http.StatusCreated`, `http.StatusBadRequest`,
`http.StatusNotFound`, `http.StatusMethodNotAllowed`,
`http.StatusInternalServerError` and `http.StatusNotImplemented`. -/
def StatusCreated : Nat := 201
def StatusBadRequest : Nat := 400
def StatusNotFound : Nat := 404
def StatusMethodNotAllowed : Nat := 405
def StatusInternalServerError : Nat := 500
def StatusNotImplemented : Nat := 501

end http

namespace models

/-- Modelled from the spec: one element of `subscription.eventList` of the AMF
subscription body, whose declaration is not among the sources; its field `type`
is named `Kind` here. -/
structure AmfEvent where
  Kind : AmfEventTypeAnyOf
deriving DecidableEq, Repr

/-- Modelled from the spec: the part `subscription` of the AMF subscription
body, with the list `eventList` (the result of `GetEventList`) and the field
`eventNotifyUri` (`none` when `GetEventNotifyUriOk` reports it missing). -/
structure AmfEventSubscription where
  EventList : List AmfEvent
  EventNotifyUri : Option String
deriving DecidableEq, Repr

/-- Modelled from the spec: the body of `POST /namf-evts/v1/subscriptions`;
`Subscription` is `none` when `GetSubscriptionOk` reports it missing. -/
structure AmfCreateEventSubscription where
  Subscription : Option AmfEventSubscription
deriving DecidableEq, Repr

/-- Modelled from the spec: the notification report of the AMF, whose
declaration is not among the sources, with the fields that `amf.go` fills: the
base fields (event type, here `Kind`, timestamp, SUPI, GPSI, active state,
access type list), the NR location (TAI and NCGI) and the enrichments. -/
structure AmfEventReport where
  Kind : AmfEventTypeAnyOf
  TimeStamp : Int
  Supi : String
  Gpsi : String
  Active : Bool
  AccessTypeList : List AccessType
  UeLocationTimestamp : Int
  AgeOfLocationInformation : Int
  TaiPlmnId : PlmnId
  Tac : String
  NcgiPlmnId : PlmnId
  NrCellId : String
  CmInfoList : List (CmState × AccessType) := []
  RmInfoList : List (RmState × AccessType) := []
  LossOfConnectReason : Option String := none
deriving DecidableEq, Repr

/-- Modelled from the spec: the constant
`LOSSOFCONNECTIVITYREASONANYOF_DEREGISTERED`. -/
def LOSSOFCONNECTIVITYREASONANYOF_DEREGISTERED : String := "DEREGISTERED"

/-- Modelled from the spec: the envelope `{reportList}` of an AMF notification. -/
structure AmfEventNotification where
  ReportList : List AmfEventReport
deriving DecidableEq, Repr

/-- Modelled from the spec: one element of `eventSubscriptions` of the SMF
subscription body, with its field `event`. -/
structure EventSubscription where
  Event : SmfEventAnyOf
deriving DecidableEq, Repr

/-- Modelled from the spec: the body of
`POST /nsmf-event-exposure/v1/subscriptions`; a field is `none` when its getter
(`GetEventSubsOk`, `GetNotifUriOk`) reports it missing. -/
structure NsmfEventExposure where
  EventSubs : Option (List EventSubscription)
  NotifUri : Option String
deriving DecidableEq, Repr

/-- Modelled from the spec: the struct `Volume` of a usage report. -/
structure Volume where
  Downlink : Int
  Uplink : Int
  Total : Int
deriving DecidableEq, Repr

/-- Modelled from the spec: the struct `CustomUsageReport`. -/
structure CustomUsageReport where
  Volume : models.Volume
  NoP : models.Volume
  Trigger : String
  SeId : Int
deriving DecidableEq, Repr

/-- Modelled from the spec: the event notification of the SMF, whose
declaration is not among the sources, with the fields that `smf.go` fills. -/
structure EventNotification where
  Event : SmfEventAnyOf
  TimeStamp : Int
  Supi : String
  Gpsi : String
  Dnn : String
  Snssai : Snssai
  AccType : AccessType
  PduSeId : Int
  PlmnId : PlmnId
  PduSessType : Option PduSessionTypeAnyOf := none
  Ipv4Addr : Option String := none
  DddStatus : Option DlDataDeliveryStatusAnyOf := none
  CustomizedData : Option CustomUsageReport := none
deriving DecidableEq, Repr

/-- Modelled from the spec: the envelope `{notifId, eventNotifs}` of an SMF
notification. -/
structure NsmfEventExposureNotification where
  NotifId : String
  EventNotifs : List EventNotification
deriving DecidableEq, Repr

/-- Modelled from the spec: the part `ascReqData` of a PCF app-session context,
with the fields that `pcf.go` reads; a field is `none` when its getter
(`GetUeIpv4Ok`, `GetMedComponentsOk`, `GetAfRoutReqOk`) reports it missing. The
values of `medComponents` and `afRoutReq` are kept as uninterpreted text. -/
structure AppSessionContextReqData where
  UeIpv4 : Option String
  MedComponents : Option String
  AfRoutReq : Option String
deriving DecidableEq, Repr

/-- Modelled from the spec: the PCF app-session context, the body of
`POST /npcf-policyauthorization/v1/app-sessions`; `AscReqData` is `none` when
`GetAscReqDataOk` reports it missing or nil. -/
structure AppSessionContext where
  AscReqData : Option AppSessionContextReqData
deriving DecidableEq, Repr

end models

namespace core

open models

/-- A Go map with `string` keys: association list, newest binding first, at most
one entry per key. -/
abbrev StringMap (β : Type) := List (String × β)

namespace StringMap

/-- The comma-ok read `v, ok := m[k]`; `none` is `ok = false`. -/
def lookup {β : Type} : StringMap β → String → Option β
  | [], _ => none
  | (k', v) :: rest, k => if k' = k then some v else lookup rest k

/-- The builtin `delete(m, k)`. -/
def delete {β : Type} (m : StringMap β) (k : String) : StringMap β :=
  m.filter (fun p => decide (p.1 ≠ k))

/-- The assignment `m[k] = v`. -/
def store {β : Type} (m : StringMap β) (k : String) (v : β) : StringMap β :=
  (k, v) :: delete m k

end StringMap

/-- One call `http.Post(url, contentType, body)` made by a notifier goroutine;
the body is the notification that `json.Marshal` serialised. -/
structure HttpPost (β : Type) where
  url : String
  contentType : String
  body : β
deriving DecidableEq, Repr

/-- The struct `Amf` without its mutex. -/
structure Amf where
  PlmnId : PlmnId
  AmfId : String
  Subscriptions : StringMap (List String)
deriving DecidableEq, Repr

/-- The function `NewAmf`. -/
def NewAmf (plmnId : PlmnId) : Amf :=
  { PlmnId := plmnId
    AmfId := "AMF-" ++ plmnId.Mcc ++ plmnId.Mnc
    Subscriptions := [] }

/-- The notification that `handleUeToAmfEvent` builds from a message. -/
def amfNotification (msg : UeToAmfMsg) : AmfEventNotification :=
  let amfReport : AmfEventReport :=
    { Kind := msg.EventType
      TimeStamp := msg.TimeStamp
      Supi := msg.Supi
      Gpsi := msg.Gpsi
      Active := true
      AccessTypeList := [msg.AccessType]
      UeLocationTimestamp := msg.TimeStamp
      AgeOfLocationInformation := 0
      TaiPlmnId := msg.PlmnId
      Tac := "001010"
      NcgiPlmnId := msg.PlmnId
      NrCellId := msg.CurrentCellId }
  let amfReport :=
    if msg.EventType = AMFEVENTTYPEANYOF_CONNECTIVITY_STATE_REPORT then
      { amfReport with CmInfoList := [(msg.CmState, msg.AccessType)] }
    else if msg.EventType = AMFEVENTTYPEANYOF_REGISTRATION_STATE_REPORT then
      { amfReport with RmInfoList := [(msg.RmState, msg.AccessType)] }
    else if msg.EventType = AMFEVENTTYPEANYOF_LOCATION_REPORT then amfReport
    else if msg.EventType = AMFEVENTTYPEANYOF_LOSS_OF_CONNECTIVITY then
      { amfReport with LossOfConnectReason := some LOSSOFCONNECTIVITYREASONANYOF_DEREGISTERED }
    else amfReport
  { ReportList := [amfReport] }

/-- The method `handleUeToAmfEvent`: the posts of the goroutines it starts, in
the order of the URL list. `json.Marshal` fails on such a notification only for
an instant whose year is outside 0..9999, which no instant counted in `int64`
nanoseconds is, so its error branch has no counterpart. -/
def Amf.handleUeToAmfEvent (amf : Amf) (msg : UeToAmfMsg) : List (HttpPost AmfEventNotification) :=
  let callbackBody := amfNotification msg
  ((amf.Subscriptions.lookup msg.EventType).getD []).map fun callbackUrl =>
    { url := callbackUrl, contentType := "application/json", body := callbackBody }

/-- The loop of `Amf.HandleNewSubscription` over the event list. -/
def amfSubscribeLoop (callbackUrl : String) :
    List AmfEvent → StringMap (List String) → StringMap (List String)
  | [], subs => subs
  | event :: rest, subs =>
    match subs.lookup event.Kind with
    | some listSub => amfSubscribeLoop callbackUrl rest (subs.store event.Kind (listSub ++ [callbackUrl]))
    | none => amfSubscribeLoop callbackUrl rest (subs.store event.Kind [callbackUrl])

/-- The method `Amf.HandleNewSubscription`; `body` is the result of decoding the
request body (`none` for a decoding error). The call of `http.Error` after a
failed `Encode` comes after the status line and leaves the response as it is. -/
def Amf.HandleNewSubscription (amf : Amf) (w : http.ResponseWriter)
    (body : Option AmfCreateEventSubscription) : Amf × http.ResponseWriter :=
  match body with
  | none => (amf, http.Error w "Invalid request body" http.StatusBadRequest)
  | some subData =>
    match subData.Subscription with
    | none => (amf, http.Error w "could not find subscription information" http.StatusBadRequest)
    | some sub =>
      match sub.EventNotifyUri with
      | none => (amf, http.Error w "could not find callbackUri information" http.StatusBadRequest)
      | some callbackUrl =>
        let amf := { amf with
          Subscriptions := amfSubscribeLoop callbackUrl sub.EventList amf.Subscriptions }
        let w := w.HeaderSet "Content-Type" "application/json"
        let w := w.WriteHeader http.StatusCreated
        (amf, w.Write)

/-- The struct `Smf` without its mutex; the allocator it points to is not
used by its methods. -/
structure Smf where
  PlmnId : PlmnId
  SmfId : String
  Subscriptions : StringMap (List String)
deriving DecidableEq, Repr

/-- The function `NewSmf`. -/
def NewSmf (plmnId : PlmnId) : Smf :=
  { PlmnId := plmnId
    SmfId := "SMF-" ++ plmnId.Mcc ++ plmnId.Mnc
    Subscriptions := [] }

/-- The notification that `handleUeToSmfEvent` builds from a message. A message
of kind QOS_MON carries a usage report (`msg.UpReport` is read without a nil
check, so `none` is the panic on a message without one). -/
def smfNotification (msg : UeToSmfMsg) : Option NsmfEventExposureNotification :=
  let smfEvent : EventNotification :=
    { Event := msg.EventType
      TimeStamp := msg.TimeStamp
      Supi := msg.Supi
      Gpsi := msg.Gpsi
      Dnn := msg.Dnn
      Snssai := msg.Snssai
      AccType := msg.AccessType
      PduSeId := msg.PduSessId
      PlmnId := msg.PlmnId }
  let smfEvent : Option EventNotification :=
    if msg.EventType = SMFEVENTANYOF_PDU_SES_EST then
      some { smfEvent with PduSessType := some msg.PduSessType, Ipv4Addr := some msg.UeAddress }
    else if msg.EventType = SMFEVENTANYOF_PDU_SES_REL then
      some { smfEvent with PduSessType := some msg.PduSessType, Ipv4Addr := some msg.UeAddress }
    else if msg.EventType = SMFEVENTANYOF_DDDS then
      some { smfEvent with DddStatus := some msg.DddsState }
    else if msg.EventType = SMFEVENTANYOF_QOS_MON then
      match msg.UpReport with
      | none => none
      | some report =>
        some { smfEvent with
          CustomizedData := some
            { Volume :=
                { Downlink := report.UpStats.TotalDlBytes
                  Uplink := report.UpStats.TotalUlBytes
                  Total := report.UpStats.TotalBytes }
              NoP :=
                { Downlink := report.UpStats.NumDlPackets
                  Uplink := report.UpStats.NumUlPackets
                  Total := report.UpStats.NumOfPackets }
              Trigger := "PERIODIC"
              SeId := msg.PduSessId } }
    else some smfEvent
  smfEvent.map fun e => { NotifId := "test", EventNotifs := [e] }

/-- The method `handleUeToSmfEvent`: the posts of the goroutines it starts, in
the order of the URL list; `none` is the panic of `smfNotification`. The error
branch of `json.Marshal` has no counterpart, as for the AMF. -/
def Smf.handleUeToSmfEvent (smf : Smf) (msg : UeToSmfMsg) :
    Option (List (HttpPost NsmfEventExposureNotification)) :=
  (smfNotification msg).map fun callbackBody =>
    ((smf.Subscriptions.lookup msg.EventType).getD []).map fun callbackUrl =>
      { url := callbackUrl, contentType := "application/json", body := callbackBody }

/-- The loop of `Smf.HandleNewSubscription` over the event list. -/
def smfSubscribeLoop (callbackUrl : String) :
    List EventSubscription → StringMap (List String) → StringMap (List String)
  | [], subs => subs
  | event :: rest, subs =>
    match subs.lookup event.Event with
    | some listSub => smfSubscribeLoop callbackUrl rest (subs.store event.Event (listSub ++ [callbackUrl]))
    | none => smfSubscribeLoop callbackUrl rest (subs.store event.Event [callbackUrl])

/-- The method `Smf.HandleNewSubscription`; `body` is the result of decoding the
request body (`none` for a decoding error). -/
def Smf.HandleNewSubscription (smf : Smf) (w : http.ResponseWriter)
    (body : Option NsmfEventExposure) : Smf × http.ResponseWriter :=
  match body with
  | none => (smf, http.Error w "Invalid request body" http.StatusBadRequest)
  | some subData =>
    match subData.EventSubs with
    | none => (smf, http.Error w "could not find event list" http.StatusBadRequest)
    | some subList =>
      match subData.NotifUri with
      | none => (smf, http.Error w "could not find callbackUri information" http.StatusBadRequest)
      | some callbackUrl =>
        let smf := { smf with
          Subscriptions := smfSubscribeLoop callbackUrl subList smf.Subscriptions }
        let w := w.HeaderSet "Content-Type" "application/json"
        let w := w.WriteHeader http.StatusCreated
        (smf, w.Write)

end core

namespace core

open models

/-- The struct `Pcf` without its mutex; the allocator it points to, which the
network instance shares with the UEs, is an argument of the handler. -/
structure Pcf where
  PlmnId : PlmnId
  PcfId : String
  Subscriptions : StringMap AppSessionContext
deriving DecidableEq, Repr

/-- The function `NewPcf`. -/
def NewPcf (plmnId : PlmnId) : Pcf :=
  { PlmnId := plmnId
    PcfId := "PCF-" ++ plmnId.Mcc ++ plmnId.Mnc
    Subscriptions := [] }

/-- The method `Pcf.HandleNewSubscription`. `method` is `r.Method`, `body` the
result of decoding the request body (`none` for a decoding error), `subId` the
string of the UUID that `uuid.New()` draws, and `encodeErr` says whether
`json.NewEncoder(w).Encode(subData)` returned an error. The result `none` is
the panic of `GetUserStringOk`. -/
def Pcf.HandleNewSubscription (pcf : Pcf) (ipam : utils.IPAllocator) (w : http.ResponseWriter)
    (method : String) (body : Option AppSessionContext) (subId : String) (encodeErr : Bool) :
    Option (Pcf × http.ResponseWriter) :=
  if method = "POST" then
    match body with
    | none => some (pcf, http.Error w "Invalid request body" http.StatusBadRequest)
    | some subData =>
      match subData.AscReqData with
      | none => some (pcf, http.Error w "Missing ascReqData" http.StatusBadRequest)
      | some rData =>
        match rData.UeIpv4 with
        | none => some (pcf, http.Error w "Missing Ue Ipv4 Address" http.StatusBadRequest)
        | some ueAddr =>
          match utils.GetUserStringOk ipam ueAddr with
          | none => none
          | some (_, _, false) =>
            some (pcf, http.Error w "requested UE is not connected to the network"
              http.StatusNotFound)
          | some (_, _, true) =>
            if rData.MedComponents.isSome ∨ rData.AfRoutReq.isSome then
              let location := "/npcf-policyauthorization/v1/app-sessions/" ++ subId
              let w := w.HeaderAdd "Location" location
              let w := w.HeaderAdd "Content-Type" "application/json"
              let w := w.WriteHeader http.StatusCreated
              if encodeErr then
                some (pcf, http.Error w "could not serialize response body"
                  http.StatusInternalServerError)
              else
                some ({ pcf with Subscriptions := pcf.Subscriptions.store subId subData },
                  w.Write)
            else
              some (pcf, http.Error w "unsupported policy request" http.StatusBadRequest)
  else some (pcf, http.Error w "method not allowed" http.StatusMethodNotAllowed)

/-- The method `Pcf.HandleUpdateSubscription`. -/
def Pcf.HandleUpdateSubscription (pcf : Pcf) (w : http.ResponseWriter) :
    Pcf × http.ResponseWriter :=
  (pcf, http.Error w "policy update is not supported yet" http.StatusNotImplemented)

/-- The method `Pcf.HandleDeleteSubscription`; `appSessId` is the route variable
`vars["appSessId"]`. There is no `return` after the answer to an empty id. -/
def Pcf.HandleDeleteSubscription (pcf : Pcf) (w : http.ResponseWriter) (method : String)
    (appSessId : String) : Pcf × http.ResponseWriter :=
  if method ≠ "POST" then
    (pcf, http.Error w "method not allowed on this endpoint" http.StatusMethodNotAllowed)
  else
    let w :=
      if appSessId.length = 0 then
        http.Error w "the request url is malformed" http.StatusBadRequest
      else w
    match pcf.Subscriptions.lookup appSessId with
    | some _ => ({ pcf with Subscriptions := pcf.Subscriptions.delete appSessId }, w)
    | none => (pcf, http.Error w "app-session context is not found" http.StatusNotFound)

end core

namespace simulator

open models

/-- The struct `NetworkConfig`; the field `ArrivalRate`, a `float32` that only
sets the sleeping times of the arrival loop, has no counterpart. -/
structure NetworkConfig where
  Snssai : Snssai
  Plmn : PlmnId
  Dnn : String
  NumOfGnb : Int
  NumOfUe : Int
deriving DecidableEq, Repr

/-- The struct `AppConfig`. -/
structure AppConfig where
  HttpVersion : Nat
  UseTLS : Bool
  Fqdn : String
  SbiPort : Nat
  OamPort : Nat
  InitOnStartup : Bool
  NetConfig : Option NetworkConfig
deriving DecidableEq, Repr

/-- One goroutine started by `NetworkInstance.Start`: `entered` says whether it
has passed its `select` on the generation scope, and `i` is the loop index. -/
structure ArrivalLoop where
  entered : Bool
  i : Int
deriving DecidableEq, Repr

/-- The struct `NetworkInstance` without its mutex. The pair `ueGenContext`,
`ueGenCancel` is `none` while nil, else the flag saying whether the generation
scope has been cancelled; the field `ctx`, which is `context.Background()`, has
no counterpart. The arrival goroutines that `Start` has started and that have
not ended are kept with the instance (`arrivalLoops`). -/
structure NetworkInstance where
  UeList : core.StringMap ran.Ue
  Amf : Option core.Amf
  Smf : Option core.Smf
  Pcf : Option core.Pcf
  config : NetworkConfig
  ueGenContext : Option Bool
  ipam : Option utils.IPAllocator
  sbiPort : Nat
  simId : String
  GnbList : List String
  arrivalLoops : List ArrivalLoop
deriving DecidableEq, Repr

/-- The function `NewNetworkInstance`; `simId` is the string that
`uuid.NewString()` draws. -/
def NewNetworkInstance (sbiPort : Nat) (config : NetworkConfig) (simId : String) :
    NetworkInstance :=
  { UeList := []
    config := config
    Amf := none
    Smf := none
    Pcf := none
    ueGenContext := none
    ipam := none
    sbiPort := sbiPort
    simId := simId
    GnbList := []
    arrivalLoops := [] }

/-- The method `InitNetworkInstance`: the Go error it returns, which is always
nil, and the instance. The outer `none` says that the loop of `NewIpamService`
did not end within `fuel` steps. The bus tasks, the router and the HTTP server
have no counterpart. -/
def NetworkInstance.InitNetworkInstance (n : NetworkInstance) (fuel : Nat) :
    Option (Except String Unit × NetworkInstance) :=
  match utils.NewIpamService fuel (some (utils.ipv4Net 12 1 0 0 16)) with
  | none => none
  | some ipam =>
    let n := { n with ipam := ipam }
    let n := { n with Amf := some (core.NewAmf n.config.Plmn) }
    let n := { n with Smf := some (core.NewSmf n.config.Plmn) }
    let n := { n with Pcf := some (core.NewPcf n.config.Plmn) }
    let n := { n with GnbList := generateNRCellIDsHex (n.config.NumOfGnb % 2 ^ 64).toNat }
    some (Except.ok (), n)

/-- The method `NetworkInstance.Start`: a fresh generation scope and one more
arrival goroutine. The Go error it returns is always nil. -/
def NetworkInstance.Start (n : NetworkInstance) : Except String Unit × NetworkInstance :=
  let n := { n with ueGenContext := some false }
  let n := { n with arrivalLoops := n.arrivalLoops ++ [{ entered := false, i := 0 }] }
  (Except.ok (), n)

/-- The call `ue.TurnOff(true)` of a UE of the registry, whose allocator is the
one of the instance. With the nil allocator `ReleaseIP` dereferences nil, so
the call returns only for a UE without sessions. -/
def turnOffUe (ipam : Option utils.IPAllocator) (ue : ran.Ue) (now : Int) :
    Option (ran.Ue × Option utils.IPAllocator × List SendCall) :=
  match ipam with
  | some al => (ue.TurnOff al true now).map fun r => (r.1, some r.2.1, r.2.2)
  | none =>
    if ue.PduSessions.len = 0 then
      (ue.TurnOff { availableIPs := [], allocated := [], ipToUser := [] } true now).map
        fun r => (r.1, none, r.2.2)
    else none

/-- The loop of `NetworkInstance.Stop` over the registry, in the order of the
list: the allocator, the UEs turned off so far and the messages sent so far. -/
def stopLoop (now : Int) : List (String × ran.Ue) →
    Option utils.IPAllocator × List ran.Ue × List SendCall →
    Option (Option utils.IPAllocator × List ran.Ue × List SendCall)
  | [], st => some st
  | (_, ue) :: rest, (ipam, off, sent) =>
    match turnOffUe ipam ue now with
    | none => none
    | some (ue, ipam, msgs) => stopLoop now rest (ipam, off ++ [ue], sent ++ msgs)

/-- What `NetworkInstance.Stop` does besides changing the instance: the UEs it
removed from the registry, as `TurnOff` left them, and the messages sent. -/
structure StopTrace where
  turnedOff : List ran.Ue
  sent : List SendCall
deriving DecidableEq, Repr

/-- The method `NetworkInstance.Stop` at the instant `now`: the Go error it
returns, which is always nil, the instance and the trace. The result `none` is
a panic: of the call of the nil `ueGenCancel`, or of a `TurnOff`. -/
def NetworkInstance.Stop (n : NetworkInstance) (now : Int) :
    Option (Except String Unit × NetworkInstance × StopTrace) :=
  match n.ueGenContext with
  | none => none
  | some _ =>
    let n := { n with ueGenContext := some true }
    match stopLoop now n.UeList (n.ipam, [], []) with
    | none => none
    | some (ipam, off, sent) =>
      some (Except.ok (), { n with UeList := [], ipam := ipam },
        { turnedOff := off, sent := sent })

/-- The type `SimulationStatus` and its constants. -/
abbrev SimulationStatus := String
def CONFIGURED : SimulationStatus := "CONFIGURED"
def STARTED : SimulationStatus := "STARTED"
def STOPPED : SimulationStatus := "STOPPED"
def ERROR : SimulationStatus := "ERROR"

/-- The struct `CoreSimulatorApp` without its mutex, HTTP server, wait group and
context. -/
structure CoreSimulatorApp where
  currentInstance : Option NetworkInstance
  status : SimulationStatus
  config : AppConfig
deriving DecidableEq, Repr

/-- The function `NewCoreSimulatorApp`, from the configuration that
`InitConfig(configPath)` reads. -/
def NewCoreSimulatorApp (config : AppConfig) : CoreSimulatorApp :=
  { currentInstance := none
    status := STOPPED
    config := config }

/-- The method `InitNewSimulation`: the Go error and the controller. `config` is
`none` for the nil pointer; `simId` and `fuel` are those of
`NewNetworkInstance` and `InitNetworkInstance`. -/
def CoreSimulatorApp.InitNewSimulation (app : CoreSimulatorApp) (config : Option NetworkConfig)
    (simId : String) (fuel : Nat) : Option (Except String Unit × CoreSimulatorApp) :=
  match config with
  | none => some (Except.error "no configuration provided, could not initialize", app)
  | some config =>
    match app.currentInstance with
    | some _ =>
      some (Except.error
        "could not initialize the simulation instance, please stop or reset the current instance",
        app)
    | none =>
      let inst := NewNetworkInstance app.config.SbiPort config simId
      let app := { app with currentInstance := some inst }
      match inst.InitNetworkInstance fuel with
      | none => none
      | some (Except.error _, inst) =>
        some (Except.error "could not initialize the simulation instance",
          { app with currentInstance := some inst })
      | some (Except.ok _, inst) =>
        let app := { app with currentInstance := some inst }
        some (Except.ok (), { app with status := CONFIGURED })

/-- The method `StartSimulation` at the instant `now`: the Go error, the
controller and the trace of the `Stop` of a restart. -/
def CoreSimulatorApp.StartSimulation (app : CoreSimulatorApp) (now : Int) :
    Option (Except String Unit × CoreSimulatorApp × Option StopTrace) :=
  match app.currentInstance with
  | none => some (Except.error "please configure the simulation via /configure", app, none)
  | some inst =>
    let stopped : Option (NetworkInstance × Option StopTrace) :=
      if app.status = STARTED then
        (inst.Stop now).map fun r => (r.2.1, some r.2.2)
      else some (inst, none)
    match stopped with
    | none => none
    | some (inst, trace) =>
      match inst.Start with
      | (Except.error _, inst) =>
        some (Except.error "could not start the simulation instance",
          { app with currentInstance := some inst, status := ERROR }, trace)
      | (Except.ok _, inst) =>
        some (Except.ok (), { app with currentInstance := some inst, status := STARTED }, trace)

/-- The method `GetCurrentSimulationStatus`. -/
def CoreSimulatorApp.GetCurrentSimulationStatus (app : CoreSimulatorApp) : SimulationStatus :=
  app.status

/-- The method `StopSimulation` at the instant `now`: the Go error, the
controller and the trace of `Stop`. -/
def CoreSimulatorApp.StopSimulation (app : CoreSimulatorApp) (now : Int) :
    Option (Except String Unit × CoreSimulatorApp × Option StopTrace) :=
  match app.currentInstance with
  | none => some (Except.error "no running instance", app, none)
  | some inst =>
    if app.status = STOPPED then some (Except.error "no running instance", app, none)
    else if app.status = STARTED then
      match inst.Stop now with
      | none => none
      | some (Except.error _, inst, trace) =>
        some (Except.error "could not stop the simulation instance",
          { app with currentInstance := some inst }, some trace)
      | some (Except.ok _, inst, trace) =>
        some (Except.ok (), { app with currentInstance := some inst, status := STOPPED },
          some trace)
    else some (Except.ok (), { app with status := STOPPED }, none)

end simulator

namespace simulator

/-- Consistency of an instance: it has an allocator, which is consistent; the
UEs of the registry have pairwise distinct SUPIs without hyphen, and the
sessions of each are consistent with the allocator. -/
def NetworkInstance.Consistent (n : NetworkInstance) : Prop :=
  ∃ al, n.ipam = some al ∧ utils.Inv al ∧
    (n.UeList.map fun e => e.2.Imsi).Nodup ∧
    ∀ e ∈ n.UeList, '-' ∉ e.2.Imsi.data ∧ e.2.sessionsBound al

/-- A controller configuration for the examples. -/
def exampleAppConfig : AppConfig :=
  { HttpVersion := 2
    UseTLS := false
    Fqdn := "coresim"
    SbiPort := 8080
    OamPort := 8081
    InitOnStartup := false
    NetConfig := none }

/-- A network configuration for the examples: 3 UEs and 4 cells. -/
def exampleNetworkConfig : NetworkConfig :=
  { Snssai := { Sst := 1, Sd := "010203" }
    Plmn := { Mcc := "208", Mnc := "95" }
    Dnn := "internet"
    NumOfGnb := 4
    NumOfUe := 3 }

end simulator

namespace models

/-- The method `UpStats.GenerateReport` without the four floating-point rates
of the report. -/
def UpStats.GenerateReport (stats : UpStats) : UpStatsReport :=
  { UpStats := stats }

end models

namespace ran

open models

/-- The release with an early return on the miss, which the specification asks
of a rewrite of `ReleasePduSession`: an id without entry in the session map is
logged and nothing else happens; for an id with an entry the release goes on as
in the code. -/
def Ue.ReleasePduSessionEarlyReturn (ue : Ue) (al : utils.IPAllocator) (sessionId : Int)
    (now : Int) : Option (Ue × utils.IPAllocator × List SendCall) :=
  match ue.PduSessions.lookup sessionId with
  | none => some (ue, al, [])
  | some _ => ue.ReleasePduSession al sessionId now

end ran

namespace utils

/-- The allocator states reached from the state `init` by calls of `AllocateIP`
and `ReleaseIP`, successful or failing. -/
inductive ReachableFrom (init : IPAllocator) : IPAllocator → Prop
  | start : ReachableFrom init init
  | allocate (al : IPAllocator) (supi : String) (pduSessId : Int)
      (h : ReachableFrom init al) : ReachableFrom init (AllocateIP al supi pduSessId).2
  | release (al : IPAllocator) (supi : String) (pduSessId : Int)
      (h : ReachableFrom init al) : ReachableFrom init (ReleaseIP al supi pduSessId).2

/-- The bound addresses of an allocator: the values of its forward map, one per
binding. -/
def IPAllocator.boundIPs (a : IPAllocator) : List String :=
  a.allocated.map Prod.snd

end utils

namespace ran

open models

/-- One round of the ticker loop of `PowerUp` at the instant `now`: the draw of
`NextState` is `rnd`, the draws of the cell selection are `draws`. The
procedure is dispatched on the UE whose Markov state is already the new one.
The goroutines that `StartTrafficSession` starts have no counterpart here
(their rounds are `Ue.trafficPacket`). The result `none` says that the
procedure does not return. -/
def Ue.tick (ue : Ue) (al : utils.IPAllocator) (rnd : ℚ) (draws : List Nat) (now : Int) :
    Option (Ue × utils.IPAllocator × List SendCall) :=
  let next := NextState rnd ue.ueState
  let ue := { ue with ueState := next.1 }
  let procedure := next.2
  if procedure = Registration then
    (ue.Register draws now).map fun r => (r.1, al, r.2)
  else if procedure = models.Attach then
    some ((ue.Attach 10000000000 now).1, al, (ue.Attach 10000000000 now).2)
  else if procedure = PduSessionEstablishement then
    some (ue.NewPduSession al 1 ue.defautlDnn ue.defaultSnssai true now)
  else if procedure = PduSessionFailure then some (ue, al, [])
  else if procedure = PduSessionRelease then ue.ReleasePduSession al 1 now
  else if procedure = models.LossOfConnection then ue.LossOfConnection al false now
  else if procedure = models.Sleep then some (ue, al, [])
  else if procedure = Paging then some ((ue.WakeUp true now).1, al, (ue.WakeUp true now).2)
  else if procedure = HandoverSuccessful then
    (ue.pickRandomNRCellID draws).map fun cell =>
      ((ue.DoHandover cell now).1, al, (ue.DoHandover cell now).2)
  else if procedure = HandoverFailure then ue.LossOfConnection al false now
  else if procedure = HandoverInitiated then some (ue, al, [])
  else some (ue, al, [])

/-- The states of a UE along its trajectories from `NewUserEquipment` up to
`TurnOff`: each round of the ticker, each firing of the inactivity monitor and
each packet of a traffic session is one step; the allocator, which other UEs
use as well, is arbitrary at each step. -/
inductive Ue.Trajectory : Ue → Prop
  | init (parentDone : Bool) (cfg : UeConfig) (simulationId : String) (gnbs : List String)
      (now : Int) : Ue.Trajectory (NewUserEquipment parentDone cfg simulationId gnbs now)
  | tick (ue ue' : Ue) (al al' : utils.IPAllocator) (rnd : ℚ) (draws : List Nat) (now : Int)
      (msgs : List SendCall) (h : Ue.Trajectory ue)
      (hstep : ue.tick al rnd draws now = some (ue', al', msgs)) : Ue.Trajectory ue'
  | monitor (ue : Ue) (inactivityTimer now : Int) (h : Ue.Trajectory ue) :
      Ue.Trajectory (ue.inactivityMonitorFire inactivityTimer now).1
  | traffic (ue : Ue) (sessionId : Int) (ul : Bool) (size now : Int) (h : Ue.Trajectory ue) :
      Ue.Trajectory (ue.trafficPacket sessionId ul size now).1

end ran

namespace simulator

open models

/-- One step of the arrival goroutine at position `k` of `arrivalLoops`, at the
instant `now`, with the two draws `r₁`, `r₂` of `generateIMEI`. A goroutine
that has not entered yet evaluates its `select` on the generation scope: it
ends when the scope is cancelled and enters the loop otherwise. A goroutine in
the loop runs one round, which creates the UE of index `i`, powers it up and
puts it in the registry, or ends when `i` has reached `NumOfUe`. The sleeping
time and the goroutines of `PowerUp` have no counterpart. The result `none`
says that there is no such goroutine, or that the scope is nil. -/
def NetworkInstance.arrivalStep (n : NetworkInstance) (k : Nat) (r₁ r₂ : Nat) (now : Int) :
    Option NetworkInstance :=
  match n.arrivalLoops.get? k with
  | none => none
  | some loop =>
    if loop.entered = false then
      match n.ueGenContext with
      | none => none
      | some true => some { n with arrivalLoops := n.arrivalLoops.eraseIdx k }
      | some false =>
        some { n with arrivalLoops := n.arrivalLoops.set k { loop with entered := true } }
    else if loop.i < n.config.NumOfUe then
      let imsi := n.config.Plmn.Mcc ++ n.config.Plmn.Mnc ++ "00000"
        ++ SprintfZeroPadD 5 (loop.i + 1).toNat
      let imei := generateIMEI r₁ r₂
      let msisdn := "+336" ++ SprintfZeroPadD 9 (100000000 + loop.i).toNat
      let ue := ran.NewUserEquipment false
        { Imsi := imsi
          Msidn := msisdn
          Imei := imei
          Dnn := n.config.Dnn
          Snssai := n.config.Snssai
          Kind := "Smartphone"
          Plmn := n.config.Plmn }
        n.simId n.GnbList now
      some { n with
        UeList := n.UeList.store imsi ue
        arrivalLoops := n.arrivalLoops.set k { loop with i := loop.i + 1 } }
    else some { n with arrivalLoops := n.arrivalLoops.eraseIdx k }

end simulator

/-! # Properties -/

namespace utils

/-! ## Go maps -/

namespace GoMap

theorem lookup_delete_self (m : GoMap) (k : String) : (delete m k).lookup k = none := by
  induction m with
  | nil => rfl
  | cons p rest ih =>
    obtain ⟨k', v⟩ := p
    unfold delete at ih ⊢
    by_cases h : k' = k
    · subst h
      simpa [List.filter_cons] using ih
    · simpa [List.filter_cons, h, lookup] using ih

theorem lookup_delete_ne (m : GoMap) {k k' : String} (hne : k' ≠ k) :
    (delete m k).lookup k' = m.lookup k' := by
  induction m with
  | nil => rfl
  | cons p rest ih =>
    obtain ⟨k₀, v⟩ := p
    unfold delete at ih ⊢
    by_cases h : k₀ = k
    · subst h
      have h' : ¬ k₀ = k' := fun e => hne e.symm
      simpa [List.filter_cons, lookup, h'] using ih
    · by_cases h2 : k₀ = k'
      · subst h2
        simp [List.filter_cons, h, lookup]
      · simpa [List.filter_cons, h, lookup, h2] using ih

theorem lookup_store_self (m : GoMap) (k v : String) : (store m k v).lookup k = some v := by
  simp [store, lookup]

theorem lookup_store_ne (m : GoMap) {k k' : String} (v : String) (hne : k' ≠ k) :
    (store m k v).lookup k' = m.lookup k' := by
  have h : k ≠ k' := fun e => hne e.symm
  simp [store, lookup, h, lookup_delete_ne m hne]

end GoMap

/-! ## Single calls of the allocator -/

theorem GetIP_snd_false_iff (a : IPAllocator) (supi : String) (pduSessId : Int) :
    (GetIP a supi pduSessId).2 = false ↔ a.allocated.lookup (userString supi pduSessId) = none := by
  unfold GetIP
  cases a.allocated.lookup (userString supi pduSessId) <;> simp

theorem GetIP_eq_true_iff (a : IPAllocator) (supi : String) (pduSessId : Int) (ip : String) :
    GetIP a supi pduSessId = (ip, true) ↔
      a.allocated.lookup (userString supi pduSessId) = some ip := by
  unfold GetIP
  cases a.allocated.lookup (userString supi pduSessId) <;> simp

/-- C1: `AllocateIP` is idempotent. If a call succeeds with `ip`, the same call
repeated at once succeeds with the same `ip` and leaves the allocator (free
list and both maps) as the first call left it. -/
theorem AllocateIP_idempotent (a : IPAllocator) (supi : String) (pduSessId : Int) (ip : String)
    (h : (AllocateIP a supi pduSessId).1 = Except.ok ip) :
    AllocateIP (AllocateIP a supi pduSessId).2 supi pduSessId
      = (Except.ok ip, (AllocateIP a supi pduSessId).2) := by
  unfold AllocateIP at h ⊢
  cases hl : a.allocated.lookup (userString supi pduSessId) with
  | some x =>
    simp only [hl] at h ⊢
    injection h with h
    subst h
    rfl
  | none =>
    cases hf : a.availableIPs with
    | nil => simp [hl, hf] at h
    | cons x rest =>
      simp only [hl, hf] at h ⊢
      injection h with h
      subst h
      simp [GoMap.lookup_store_self]

/-- Witness of C1 on a two-address pool. -/
theorem AllocateIP_idempotent_witness :
    (AllocateIP ⟨["10.0.0.1", "10.0.0.2"], [], []⟩ "208950000000001" 1).1
        = Except.ok "10.0.0.1" ∧
    AllocateIP (AllocateIP ⟨["10.0.0.1", "10.0.0.2"], [], []⟩ "208950000000001" 1).2
        "208950000000001" 1
      = (Except.ok "10.0.0.1",
          (AllocateIP ⟨["10.0.0.1", "10.0.0.2"], [], []⟩ "208950000000001" 1).2) :=
  ⟨rfl, AllocateIP_idempotent _ _ _ _ rfl⟩

/-- C2: for a key that is not bound, `AllocateIP` fails exactly when the free
list is empty, a failing call leaves the allocator unchanged, and a successful
call returns the head of the free list, leaves the tail as the new free list,
binds key to address and address to key, and touches no other binding. -/
theorem AllocateIP_unbound (a : IPAllocator) (supi : String) (pduSessId : Int)
    (h : (GetIP a supi pduSessId).2 = false) :
    ((∃ e, (AllocateIP a supi pduSessId).1 = Except.error e) ↔ a.availableIPs = []) ∧
    (a.availableIPs = [] → (AllocateIP a supi pduSessId).2 = a) ∧
    (∀ ip rest, a.availableIPs = ip :: rest →
      (AllocateIP a supi pduSessId).1 = Except.ok ip ∧
      (AllocateIP a supi pduSessId).2.availableIPs = rest ∧
      (AllocateIP a supi pduSessId).2.allocated.lookup (userString supi pduSessId) = some ip ∧
      (AllocateIP a supi pduSessId).2.ipToUser.lookup ip = some (userString supi pduSessId) ∧
      (∀ k, k ≠ userString supi pduSessId →
        (AllocateIP a supi pduSessId).2.allocated.lookup k = a.allocated.lookup k) ∧
      (∀ x, x ≠ ip →
        (AllocateIP a supi pduSessId).2.ipToUser.lookup x = a.ipToUser.lookup x)) := by
  rw [GetIP_snd_false_iff] at h
  unfold AllocateIP
  simp only [h]
  refine ⟨?_, ?_, ?_⟩
  · cases hf : a.availableIPs with
    | nil => simp
    | cons x rest => simp
  · intro hf
    simp [hf]
  · intro ip rest hf
    simp only [hf]
    refine ⟨?_, ?_, GoMap.lookup_store_self _ _ _, GoMap.lookup_store_self _ _ _, ?_, ?_⟩
    · trivial
    · trivial
    · intro k hk
      exact GoMap.lookup_store_ne _ _ hk
    · intro x hx
      exact GoMap.lookup_store_ne _ _ hx

/-- Witness of C2: a fresh key on a pool with one bound and one free address. -/
theorem AllocateIP_unbound_witness :
    (GetIP ⟨["10.0.0.2"], [("7-1", "10.0.0.1")], [("10.0.0.1", "7-1")]⟩ "8" 1).2 = false ∧
    (AllocateIP ⟨["10.0.0.2"], [("7-1", "10.0.0.1")], [("10.0.0.1", "7-1")]⟩ "8" 1).1
      = Except.ok "10.0.0.2" :=
  ⟨rfl, ((AllocateIP_unbound ⟨["10.0.0.2"], [("7-1", "10.0.0.1")], [("10.0.0.1", "7-1")]⟩
    "8" 1 rfl).2.2 "10.0.0.2" [] rfl).1⟩

/-- C3: `ReleaseIP` fails exactly when the key is not bound and then leaves the
allocator unchanged; on a key bound to `ip` it removes the key's entry and the
entry of `ip`, keeps every other binding, and puts `ip` in front of the old
free list. -/
theorem ReleaseIP_spec (a : IPAllocator) (supi : String) (pduSessId : Int) :
    ((∃ e, (ReleaseIP a supi pduSessId).1 = Except.error e) ↔
      (GetIP a supi pduSessId).2 = false) ∧
    ((GetIP a supi pduSessId).2 = false → (ReleaseIP a supi pduSessId).2 = a) ∧
    (∀ ip, GetIP a supi pduSessId = (ip, true) →
      (ReleaseIP a supi pduSessId).1 = Except.ok () ∧
      (ReleaseIP a supi pduSessId).2.allocated.lookup (userString supi pduSessId) = none ∧
      (ReleaseIP a supi pduSessId).2.ipToUser.lookup ip = none ∧
      (∀ k, k ≠ userString supi pduSessId →
        (ReleaseIP a supi pduSessId).2.allocated.lookup k = a.allocated.lookup k) ∧
      (∀ x, x ≠ ip →
        (ReleaseIP a supi pduSessId).2.ipToUser.lookup x = a.ipToUser.lookup x) ∧
      (ReleaseIP a supi pduSessId).2.availableIPs = ip :: a.availableIPs) := by
  simp only [GetIP_snd_false_iff, GetIP_eq_true_iff]
  unfold ReleaseIP
  cases hl : a.allocated.lookup (userString supi pduSessId) with
  | none => simp [hl]
  | some x =>
    simp only [hl, reduceCtorEq, exists_false, false_iff, not_false_eq_true, true_and,
      IsEmpty.forall_iff, Option.some.injEq, forall_eq']
    refine ⟨GoMap.lookup_delete_self _ _, GoMap.lookup_delete_self _ _, ?_, ?_, rfl⟩
    · intro k hk
      exact GoMap.lookup_delete_ne _ hk
    · intro y hy
      exact GoMap.lookup_delete_ne _ hy

/-- C5: LIFO reuse. After releasing a key bound to `x`, the lookup of `x`
reports not-found and the next `AllocateIP` of any key that is not bound at
that moment returns `x`. -/
theorem ReleaseIP_lifo (a : IPAllocator) (supi : String) (pduSessId : Int) (x : String)
    (h : GetIP a supi pduSessId = (x, true)) :
    (ReleaseIP a supi pduSessId).1 = Except.ok () ∧
    GetUserStringOk (ReleaseIP a supi pduSessId).2 x = some ("", 0, false) ∧
    ∀ (supi' : String) (pduSessId' : Int),
      (GetIP (ReleaseIP a supi pduSessId).2 supi' pduSessId').2 = false →
      (AllocateIP (ReleaseIP a supi pduSessId).2 supi' pduSessId').1 = Except.ok x := by
  rw [GetIP_eq_true_iff] at h
  refine ⟨?_, ?_, ?_⟩
  · simp [ReleaseIP, h]
  · simp [ReleaseIP, h, GetUserStringOk, GoMap.lookup_delete_self]
  · intro supi' pduSessId' h'
    rw [GetIP_snd_false_iff] at h'
    unfold AllocateIP
    simp only [h']
    simp [ReleaseIP, h]

/-- Witness of C5: release the only binding, then allocate for another key. -/
theorem ReleaseIP_lifo_witness :
    GetIP ⟨["10.0.0.2"], [("7-1", "10.0.0.1")], [("10.0.0.1", "7-1")]⟩ "7" 1
      = ("10.0.0.1", true) ∧
    (AllocateIP (ReleaseIP ⟨["10.0.0.2"], [("7-1", "10.0.0.1")], [("10.0.0.1", "7-1")]⟩
      "7" 1).2 "8" 2).1 = Except.ok "10.0.0.1" :=
  ⟨rfl, (ReleaseIP_lifo ⟨["10.0.0.2"], [("7-1", "10.0.0.1")], [("10.0.0.1", "7-1")]⟩
    "7" 1 "10.0.0.1" rfl).2.2 "8" 2 rfl⟩

/-! ## Decimal formatting -/

theorem digitChar_isDigit : ∀ k, k < 10 → (Nat.digitChar k).isDigit = true := by decide

theorem digitChar_toNat : ∀ k, k < 10 → (Nat.digitChar k).toNat - 48 = k := by decide

theorem toDigitsCore_isDigit (fuel : Nat) : ∀ (n : Nat) (ds : List Char),
    (∀ c ∈ ds, c.isDigit = true) → ∀ c ∈ Nat.toDigitsCore 10 fuel n ds, c.isDigit = true := by
  induction fuel with
  | zero => intro n ds h; simpa [Nat.toDigitsCore] using h
  | succ f ih =>
    intro n ds h
    have hd : (Nat.digitChar (n % 10)).isDigit = true :=
      digitChar_isDigit _ (Nat.mod_lt _ (by norm_num))
    have h' : ∀ c ∈ Nat.digitChar (n % 10) :: ds, c.isDigit = true := by
      intro c hc
      rcases List.mem_cons.1 hc with rfl | hc
      · exact hd
      · exact h c hc
    simp only [Nat.toDigitsCore]
    split
    · exact h'
    · exact ih _ _ h'

theorem toDigitsCore_foldl (fuel : Nat) : ∀ (n : Nat) (ds : List Char), n < fuel →
    (Nat.toDigitsCore 10 fuel n ds).foldl (fun acc c => acc * 10 + (c.toNat - 48)) 0
      = ds.foldl (fun acc c => acc * 10 + (c.toNat - 48)) n := by
  induction fuel with
  | zero => intro n ds h; omega
  | succ f ih =>
    intro n ds h
    have hd := digitChar_toNat (n % 10) (Nat.mod_lt _ (by norm_num))
    simp only [Nat.toDigitsCore]
    split
    · rename_i h0
      simp only [List.foldl_cons, hd]
      congr 1
      omega
    · rename_i h0
      rw [ih (n / 10) _ (by omega)]
      simp only [List.foldl_cons, hd]
      congr 1
      omega

theorem repr_data (n : Nat) : (Nat.repr n).data = Nat.toDigits 10 n := rfl

theorem repr_isDigit (n : Nat) : ∀ c ∈ (Nat.repr n).data, c.isDigit = true := by
  rw [repr_data]
  exact toDigitsCore_isDigit _ _ _ (by simp)

theorem digitsValue_repr (n : Nat) : digitsValue (Nat.repr n).data = n := by
  rw [repr_data]
  exact toDigitsCore_foldl (n + 1) n [] (by omega)

theorem repr_injective {m n : Nat} (h : Nat.repr m = Nat.repr n) : m = n := by
  have := congrArg (fun s => digitsValue s.data) h
  simpa [digitsValue_repr] using this

theorem repr_ne_nil (n : Nat) : (Nat.repr n).data ≠ [] := by
  rw [repr_data]
  unfold Nat.toDigits
  simp only [Nat.toDigitsCore]
  split
  · simp
  · intro h
    have := congrArg List.length h
    rw [Nat.toDigitsCore_lens_eq] at this
    simp at this

/-! ## Byte masks and address arithmetic -/

set_option maxRecDepth 1000000 in
theorem land_maskByte : ∀ j, j ≤ 8 → ∀ x, x < 256 →
    x &&& (0xff ^^^ (0xff >>> j)) = x / 2 ^ (8 - j) * 2 ^ (8 - j) := by
  decide

theorem land_255 (x : Nat) (h : x < 256) : x &&& 255 = x := by
  have := land_maskByte 8 (by norm_num) x h; simpa using this
theorem land_254 (x : Nat) (h : x < 256) : x &&& 254 = x / 2 * 2 := by
  have := land_maskByte 7 (by norm_num) x h; simpa using this
theorem land_252 (x : Nat) (h : x < 256) : x &&& 252 = x / 4 * 4 := by
  have := land_maskByte 6 (by norm_num) x h; simpa using this
theorem land_248 (x : Nat) (h : x < 256) : x &&& 248 = x / 8 * 8 := by
  have := land_maskByte 5 (by norm_num) x h; simpa using this
theorem land_240 (x : Nat) (h : x < 256) : x &&& 240 = x / 16 * 16 := by
  have := land_maskByte 4 (by norm_num) x h; simpa using this
theorem land_224 (x : Nat) (h : x < 256) : x &&& 224 = x / 32 * 32 := by
  have := land_maskByte 3 (by norm_num) x h; simpa using this
theorem land_192 (x : Nat) (h : x < 256) : x &&& 192 = x / 64 * 64 := by
  have := land_maskByte 2 (by norm_num) x h; simpa using this
theorem land_128 (x : Nat) (h : x < 256) : x &&& 128 = x / 128 * 128 := by
  have := land_maskByte 1 (by norm_num) x h; simpa using this


theorem CIDRMask_length (ones : Nat) (h : ones ≤ 32) : (CIDRMask ones 32).length = 4 := by
  interval_cases ones <;> decide

theorem Mask_ipv4 (a b c d ones : Nat) (ha : a < 256) (hb : b < 256) (hc : c < 256)
    (hd : d < 256) (h : ones ≤ 32) :
    Mask [a, b, c, d] (CIDRMask ones 32) = addr (networkOf a b c d ones) := by
  interval_cases ones <;>
    simp [Mask, CIDRMask, CIDRMaskLoop, addr, networkOf, ipValue, land_255 _ ha, land_255 _ hb,
      land_255 _ hc, land_255 _ hd, land_254 _ ha, land_254 _ hb, land_254 _ hc, land_254 _ hd,
      land_252 _ ha, land_252 _ hb, land_252 _ hc, land_252 _ hd, land_248 _ ha, land_248 _ hb,
      land_248 _ hc, land_248 _ hd, land_240 _ ha, land_240 _ hb, land_240 _ hc, land_240 _ hd,
      land_224 _ ha, land_224 _ hb, land_224 _ hc, land_224 _ hd, land_192 _ ha, land_192 _ hb,
      land_192 _ hc, land_192 _ hd, land_128 _ ha, land_128 _ hb, land_128 _ hc, land_128 _ hd] <;>
    omega




theorem ipValue_addr (v : Nat) (h : v < 2 ^ 32) : ipValue (addr v) = v := by
  simp only [ipValue, addr]
  omega

theorem addr_lt (v : Nat) : ∀ x ∈ addr v, x < 256 := by
  simp only [addr, List.mem_cons, List.mem_singleton, List.not_mem_nil, or_false]
  rintro x (rfl | rfl | rfl | rfl) <;> omega

theorem addr_injective {v w : Nat} (hv : v < 2 ^ 32) (hw : w < 2 ^ 32) (h : addr v = addr w) :
    v = w := by
  rw [← ipValue_addr v hv, ← ipValue_addr w hw, h]



theorem inc_addr (v : Nat) (h : v < 2 ^ 32) : inc (addr v) = addr ((v + 1) % 2 ^ 32) := by
  simp only [inc, incLoop, addr]
  cases e3 : ((v % 256 + 1) % 256 == 0)
  · have h3 : ¬ (v % 256 + 1) % 256 = 0 := by simpa using e3
    simp only [List.cons.injEq, and_true]
    omega
  · have h3 : (v % 256 + 1) % 256 = 0 := by simpa using e3
    cases e2 : ((v / 2 ^ 8 % 256 + 1) % 256 == 0)
    · have h2 : ¬ (v / 2 ^ 8 % 256 + 1) % 256 = 0 := by simpa using e2
      simp only [List.cons.injEq, and_true]
      omega
    · have h2 : (v / 2 ^ 8 % 256 + 1) % 256 = 0 := by simpa using e2
      cases e1 : ((v / 2 ^ 16 % 256 + 1) % 256 == 0)
      · have h1 : ¬ (v / 2 ^ 16 % 256 + 1) % 256 = 0 := by simpa using e1
        simp only [List.cons.injEq, and_true]
        omega
      · have h1 : (v / 2 ^ 16 % 256 + 1) % 256 = 0 := by simpa using e1
        simp only [List.cons.injEq, and_true]
        omega

/-! ## The loop of `NewIpamService` -/

theorem Contains_iff_Mask (n0 n1 n2 n3 m0 m1 m2 m3 x0 x1 x2 x3 : Nat) :
    Contains ⟨[n0, n1, n2, n3], [m0, m1, m2, m3]⟩ [x0, x1, x2, x3] = true ↔
      Mask [n0, n1, n2, n3] [m0, m1, m2, m3] = Mask [x0, x1, x2, x3] [m0, m1, m2, m3] := by
  simp [Contains, Mask, List.range_succ, and_assoc]

theorem pow_block (ones : Nat) (h : ones ≤ 32) : 2 ^ (32 - ones) * 2 ^ ones = 2 ^ 32 := by
  rw [← pow_add]
  congr 1
  omega

theorem ipValue_lt (a b c d : Nat) (ha : a < 256) (hb : b < 256) (hc : c < 256)
    (hd : d < 256) : ipValue [a, b, c, d] < 2 ^ 32 := by
  simp only [ipValue]; omega

theorem networkOf_lt (a b c d ones : Nat) (ha : a < 256) (hb : b < 256) (hc : c < 256)
    (hd : d < 256) : networkOf a b c d ones < 2 ^ 32 :=
  lt_of_le_of_lt (Nat.div_mul_le_self _ _) (ipValue_lt a b c d ha hb hc hd)

theorem Mask_addr (v ones : Nat) (hv : v < 2 ^ 32) (h : ones ≤ 32) :
    Mask (addr v) (CIDRMask ones 32) = addr (v / 2 ^ (32 - ones) * 2 ^ (32 - ones)) := by
  have key := Mask_ipv4 (v / 2 ^ 24 % 256) (v / 2 ^ 16 % 256) (v / 2 ^ 8 % 256) (v % 256) ones
    (Nat.mod_lt _ (by norm_num)) (Nat.mod_lt _ (by norm_num)) (Nat.mod_lt _ (by norm_num))
    (Nat.mod_lt _ (by norm_num)) h
  have e : networkOf (v / 2 ^ 24 % 256) (v / 2 ^ 16 % 256) (v / 2 ^ 8 % 256) (v % 256) ones
      = v / 2 ^ (32 - ones) * 2 ^ (32 - ones) := by
    unfold networkOf
    rw [show [v / 2 ^ 24 % 256, v / 2 ^ 16 % 256, v / 2 ^ 8 % 256, v % 256] = addr v from rfl,
      ipValue_addr v hv]
  rw [e] at key
  exact key

theorem networkOf_aligned (a b c d ones : Nat) :
    networkOf a b c d ones / 2 ^ (32 - ones) * 2 ^ (32 - ones) = networkOf a b c d ones := by
  unfold networkOf
  rw [Nat.mul_div_cancel _ (Nat.pos_pow_of_pos _ (by norm_num))]

/-- Membership test of the loop, on address numbers. -/
theorem Contains_addr (a b c d ones v : Nat) (ha : a < 256) (hb : b < 256) (hc : c < 256)
    (hd : d < 256) (h : ones ≤ 32) (hv : v < 2 ^ 32) :
    Contains (ipv4Net a b c d ones) (addr v) = true ↔
      v / 2 ^ (32 - ones) * 2 ^ (32 - ones) = networkOf a b c d ones := by
  have hN := networkOf_lt a b c d ones ha hb hc hd
  have hvK : v / 2 ^ (32 - ones) * 2 ^ (32 - ones) < 2 ^ 32 :=
    lt_of_le_of_lt (Nat.div_mul_le_self _ _) hv
  have e1 := Mask_addr (networkOf a b c d ones) ones hN h
  have e2 := Mask_addr v ones hv h
  rw [networkOf_aligned] at e1
  have hlen := CIDRMask_length ones h
  obtain ⟨m0, m1, m2, m3, hm⟩ : ∃ m0 m1 m2 m3, CIDRMask ones 32 = [m0, m1, m2, m3] := by
    match hc : CIDRMask ones 32, hlen with
    | [m0, m1, m2, m3], _ => exact ⟨m0, m1, m2, m3, rfl⟩
  have hnet : ipv4Net a b c d ones = ⟨addr (networkOf a b c d ones), [m0, m1, m2, m3]⟩ := by
    simp only [ipv4Net, Mask_ipv4 a b c d ones ha hb hc hd h]
    rw [hm]
  rw [hm] at e1 e2
  rw [hnet]
  have := Contains_iff_Mask (networkOf a b c d ones / 2 ^ 24 % 256)
    (networkOf a b c d ones / 2 ^ 16 % 256) (networkOf a b c d ones / 2 ^ 8 % 256)
    (networkOf a b c d ones % 256) m0 m1 m2 m3
    (v / 2 ^ 24 % 256) (v / 2 ^ 16 % 256) (v / 2 ^ 8 % 256) (v % 256)
  change Contains ⟨addr _, _⟩ (addr v) = true ↔ Mask (addr _) _ = Mask (addr v) _ at this
  rw [this, e1, e2]
  constructor
  · intro hh
    exact (addr_injective hN hvK hh).symm
  · intro hh
    rw [hh]


theorem block_arith (V ones : Nat) (hV : V < 2 ^ 32) (h : ones ≤ 32) :
    0 < 2 ^ (32 - ones) ∧
    V / 2 ^ (32 - ones) * 2 ^ (32 - ones) + 2 ^ (32 - ones) ≤ 2 ^ 32 ∧
    (∀ j, j < 2 ^ (32 - ones) →
      (V / 2 ^ (32 - ones) * 2 ^ (32 - ones) + j) / 2 ^ (32 - ones) * 2 ^ (32 - ones)
        = V / 2 ^ (32 - ones) * 2 ^ (32 - ones)) ∧
    (1 ≤ ones → 2 ^ (32 - ones) < 2 ^ 32) := by
  have hK : 0 < 2 ^ (32 - ones) := Nat.pos_pow_of_pos _ (by norm_num)
  have hq : V / 2 ^ (32 - ones) < 2 ^ ones := by
    apply Nat.div_lt_of_lt_mul
    rw [pow_block ones h]
    exact hV
  refine ⟨hK, ?_, ?_, ?_⟩
  · calc V / 2 ^ (32 - ones) * 2 ^ (32 - ones) + 2 ^ (32 - ones)
        = (V / 2 ^ (32 - ones) + 1) * 2 ^ (32 - ones) := by ring
      _ ≤ 2 ^ ones * 2 ^ (32 - ones) := Nat.mul_le_mul_right _ hq
      _ = 2 ^ 32 := by rw [Nat.mul_comm, pow_block ones h]
  · intro j hj
    congr 1
    rw [Nat.add_comm, Nat.add_mul_div_right _ _ hK, Nat.div_eq_of_lt hj, Nat.zero_add]
  · intro h1
    exact Nat.pow_lt_pow_right (by norm_num) (by omega)

theorem collectIPs_block (a b c d ones : Nat) (ha : a < 256) (hb : b < 256) (hc : c < 256)
    (hd : d < 256) (h1 : 1 ≤ ones) (h : ones ≤ 32) :
    ∀ (m j fuel : Nat) (acc : List String), j + m = 2 ^ (32 - ones) → m < fuel →
      collectIPs (ipv4Net a b c d ones) fuel
          (addr ((networkOf a b c d ones + j) % 2 ^ 32)) acc
        = some (acc ++ (List.range m).map
            fun i => ipString (addr (networkOf a b c d ones + j + i))) := by
  have hV := ipValue_lt a b c d ha hb hc hd
  obtain ⟨hK, hNK, hdiv, hlt⟩ := block_arith (ipValue [a, b, c, d]) ones hV h
  have hlt := hlt h1
  change 0 < 2 ^ (32 - ones) at hK
  change networkOf a b c d ones + 2 ^ (32 - ones) ≤ 2 ^ 32 at hNK
  change ∀ j, j < 2 ^ (32 - ones) →
    (networkOf a b c d ones + j) / 2 ^ (32 - ones) * 2 ^ (32 - ones) = networkOf a b c d ones
    at hdiv
  intro m
  induction m with
  | zero =>
    intro j fuel acc hj hf
    obtain ⟨f, rfl⟩ : ∃ f, fuel = f + 1 := ⟨fuel - 1, by omega⟩
    have hw : (networkOf a b c d ones + j) % 2 ^ 32 < 2 ^ 32 := Nat.mod_lt _ (by norm_num)
    have hnot : ¬ Contains (ipv4Net a b c d ones)
        (addr ((networkOf a b c d ones + j) % 2 ^ 32)) = true := by
      rw [Contains_addr a b c d ones _ ha hb hc hd h hw]
      have hj' : j = 2 ^ (32 - ones) := by omega
      subst hj'
      rcases Nat.lt_or_ge (networkOf a b c d ones + 2 ^ (32 - ones)) (2 ^ 32) with hlt2 | hge
      · rw [Nat.mod_eq_of_lt hlt2, Nat.add_div_right _ hK, Nat.succ_mul]
        have := Nat.div_mul_le_self (networkOf a b c d ones) (2 ^ (32 - ones))
        rw [networkOf_aligned] at this ⊢
        omega
      · have e : networkOf a b c d ones + 2 ^ (32 - ones) = 2 ^ 32 := by omega
        rw [e, Nat.mod_self, Nat.zero_div, Nat.zero_mul]
        omega
    simp only [collectIPs, hnot, List.range_zero, List.map_nil, List.append_nil]
    rfl
  | succ m ih =>
    intro j fuel acc hj hf
    obtain ⟨f, rfl⟩ : ∃ f, fuel = f + 1 := ⟨fuel - 1, by omega⟩
    have hjK : j < 2 ^ (32 - ones) := by omega
    have hv : networkOf a b c d ones + j < 2 ^ 32 := by omega
    have hin : Contains (ipv4Net a b c d ones)
        (addr ((networkOf a b c d ones + j) % 2 ^ 32)) = true := by
      rw [Nat.mod_eq_of_lt hv, Contains_addr a b c d ones _ ha hb hc hd h hv]
      exact hdiv j hjK
    have hstep := ih (j + 1) f (acc ++ [ipString (addr (networkOf a b c d ones + j))])
      (by omega) (by omega)
    simp only [collectIPs, hin, if_true]
    rw [Nat.mod_eq_of_lt hv, inc_addr _ hv]
    rw [Nat.add_assoc, hstep, List.range_succ_eq_map]
    simp only [List.map_cons, List.map_map, List.append_assoc, List.singleton_append,
      Nat.add_zero]
    congr 3
    apply List.map_congr_left
    intro i _
    simp only [Function.comp, Nat.succ_eq_add_one]
    congr 2
    omega


theorem append_sep_inj {α : Type} (s : α) : ∀ (l₁ l₂ r₁ r₂ : List α), s ∉ l₁ → s ∉ l₂ →
    l₁ ++ s :: r₁ = l₂ ++ s :: r₂ → l₁ = l₂ ∧ r₁ = r₂ := by
  intro l₁
  induction l₁ with
  | nil =>
    intro l₂ r₁ r₂ _ h₂ h
    cases l₂ with
    | nil => simpa using h
    | cons y ys =>
      simp only [List.nil_append, List.cons_append, List.cons.injEq] at h
      exact absurd (by rw [h.1]; simp) h₂
  | cons x xs ih =>
    intro l₂ r₁ r₂ h₁ h₂ h
    cases l₂ with
    | nil =>
      simp only [List.nil_append, List.cons_append, List.cons.injEq] at h
      exact absurd (by rw [← h.1]; simp) h₁
    | cons y ys =>
      simp only [List.cons_append, List.cons.injEq] at h
      have := ih ys r₁ r₂ (fun hm => h₁ (List.mem_cons_of_mem _ hm))
        (fun hm => h₂ (List.mem_cons_of_mem _ hm)) h.2
      exact ⟨by rw [h.1, this.1], this.2⟩

theorem repr_no_dot (n : Nat) : '.' ∉ (Nat.repr n).data := by
  intro hm
  have := repr_isDigit n _ hm
  exact absurd this (by decide)

theorem ipString_data (a b c d : Nat) :
    (ipString [a, b, c, d]).data
      = (Nat.repr a).data ++ '.' :: ((Nat.repr b).data ++ '.' ::
          ((Nat.repr c).data ++ '.' :: (Nat.repr d).data)) := by
  simp [ipString, String.data_append]

theorem ipString_injective {a b c d a' b' c' d' : Nat}
    (h : ipString [a, b, c, d] = ipString [a', b', c', d']) :
    [a, b, c, d] = [a', b', c', d'] := by
  have hd := congrArg String.data h
  rw [ipString_data, ipString_data] at hd
  obtain ⟨e1, hd⟩ := append_sep_inj _ _ _ _ _ (repr_no_dot a) (repr_no_dot a') hd
  obtain ⟨e2, hd⟩ := append_sep_inj _ _ _ _ _ (repr_no_dot b) (repr_no_dot b') hd
  obtain ⟨e3, e4⟩ := append_sep_inj _ _ _ _ _ (repr_no_dot c) (repr_no_dot c') hd
  rw [repr_injective (String.ext e1), repr_injective (String.ext e2),
    repr_injective (String.ext e3), repr_injective (String.ext e4)]

theorem ipString_addr_injective {v w : Nat} (hv : v < 2 ^ 32) (hw : w < 2 ^ 32)
    (h : ipString (addr v) = ipString (addr w)) : v = w :=
  addr_injective hv hw (ipString_injective h)

theorem trim_range {β : Type} (f : Nat → β) (K : Nat) (hK : 2 < K) :
    (((List.range K).map f).take (((List.range K).map f).length - 1)).drop 1
      = (List.range (K - 2)).map fun i => f (1 + i) := by
  obtain ⟨n, rfl⟩ : ∃ n, K = n + 2 := ⟨K - 2, by omega⟩
  simp only [List.length_map, List.length_range, Nat.add_sub_cancel]
  rw [← List.map_take, List.take_range, Nat.min_eq_left (by omega),
    show n + 2 - 1 = n + 1 by omega, List.range_succ_eq_map]
  simp only [List.map_cons, List.drop_one, List.tail_cons, List.map_map]
  apply List.map_congr_left
  intro i _
  simp only [Function.comp, Nat.succ_eq_add_one]
  congr 1
  omega

/-! ## The pool built by `NewIpamService` -/

theorem Mask_net (a b c d ones : Nat) (ha : a < 256) (hb : b < 256) (hc : c < 256)
    (hd : d < 256) (h : ones ≤ 32) :
    Mask (ipv4Net a b c d ones).IP (ipv4Net a b c d ones).Mask
      = addr (networkOf a b c d ones) := by
  simp only [ipv4Net, Mask_ipv4 a b c d ones ha hb hc hd h]
  rw [Mask_addr _ ones (networkOf_lt a b c d ones ha hb hc hd) h, networkOf_aligned]

theorem collectIPs_mono (ipnet : IPNet) : ∀ (fuel : Nat) (ip : List Nat) (acc r : List String),
    collectIPs ipnet fuel ip acc = some r →
    ∀ fuel', fuel ≤ fuel' → collectIPs ipnet fuel' ip acc = some r := by
  intro fuel
  induction fuel with
  | zero => intro ip acc r h; simp [collectIPs] at h
  | succ f ih =>
    intro ip acc r h fuel' hle
    obtain ⟨f', rfl⟩ : ∃ f', fuel' = f' + 1 := ⟨fuel' - 1, by omega⟩
    simp only [collectIPs] at h ⊢
    split
    · rename_i hc
      rw [if_pos hc] at h
      exact ih _ _ _ h f' (by omega)
    · rename_i hc
      rw [if_neg hc] at h
      exact h

theorem collectIPs_slash0 (a b c d : Nat) (ha : a < 256) (hb : b < 256) (hc : c < 256)
    (hd : d < 256) : ∀ (fuel v : Nat) (acc : List String), v < 2 ^ 32 →
    collectIPs (ipv4Net a b c d 0) fuel (addr v) acc = none := by
  intro fuel
  induction fuel with
  | zero => intro v acc _; rfl
  | succ f ih =>
    intro v acc hv
    have hin : Contains (ipv4Net a b c d 0) (addr v) = true := by
      rw [Contains_addr a b c d 0 v ha hb hc hd (by norm_num) hv]
      have hV := ipValue_lt a b c d ha hb hc hd
      simp only [networkOf, Nat.sub_zero, Nat.div_eq_of_lt hv, Nat.div_eq_of_lt hV]
    simp only [collectIPs, hin, if_true]
    rw [inc_addr v hv]
    exact ih _ _ (Nat.mod_lt _ (by norm_num))

/-- On a `/0` block the loop of `NewIpamService` never ends: after
`255.255.255.255` the address wraps to `0.0.0.0`, which the block contains. -/
theorem NewIpamService_slash0 (a b c d fuel : Nat) (ha : a < 256) (hb : b < 256)
    (hc : c < 256) (hd : d < 256) :
    NewIpamService fuel (some (ipv4Net a b c d 0)) = none := by
  simp only [NewIpamService, Mask_net a b c d 0 ha hb hc hd (by norm_num),
    collectIPs_slash0 a b c d ha hb hc hd fuel _ [] (networkOf_lt a b c d 0 ha hb hc hd)]

theorem NewIpamService_eq (a b c d ones fuel : Nat) (ha : a < 256) (hb : b < 256)
    (hc : c < 256) (hd : d < 256) (h1 : 1 ≤ ones) (h : ones ≤ 32)
    (hfuel : 2 ^ (32 - ones) < fuel) :
    NewIpamService fuel (some (ipv4Net a b c d ones))
      = some (some { availableIPs := poolOf a b c d ones, allocated := [], ipToUser := [] }) := by
  have hloop := collectIPs_block a b c d ones ha hb hc hd h1 h (2 ^ (32 - ones)) 0 fuel []
    (by omega) hfuel
  rw [Nat.add_zero, Nat.mod_eq_of_lt (networkOf_lt a b c d ones ha hb hc hd)] at hloop
  simp only [NewIpamService, Mask_net a b c d ones ha hb hc hd h, hloop, List.nil_append,
    poolOf]
  congr 3
  by_cases hK : 2 < 2 ^ (32 - ones)
  · have hlen : ((List.range (2 ^ (32 - ones))).map
        fun i => ipString (addr (networkOf a b c d ones + i))).length > 2 := by
      simpa using hK
    rw [if_pos hlen, if_pos hK, trim_range _ _ hK]
    apply List.map_congr_left
    intro i _
    rw [Nat.add_assoc]
  · have hlen : ¬ ((List.range (2 ^ (32 - ones))).map
        fun i => ipString (addr (networkOf a b c d ones + i))).length > 2 := by
      simpa using hK
    rw [if_neg hlen, if_neg hK]


theorem pool_small (ones : Nat) (h : ones ≤ 32) : 2 < 2 ^ (32 - ones) ↔ ones ≤ 30 := by
  constructor
  · intro h2
    by_contra hc
    have : ones = 31 ∨ ones = 32 := by omega
    rcases this with rfl | rfl <;> simp at h2
  · intro h30
    calc 2 < 2 ^ 2 := by norm_num
      _ ≤ 2 ^ (32 - ones) := Nat.pow_le_pow_right (by norm_num) (by omega)

/-- C7 (amended): for an IPv4 block `a.b.c.d/ones` with `1 ≤ ones ≤ 32` the
constructor returns an allocator with empty maps. For `ones ≤ 30` its free list
is, in ascending order, the addresses of the block strictly between the network
address and the broadcast address, and contains neither of the two; for
`ones = 31` and `ones = 32` it is the whole block, network address first. -/
theorem NewIpamService_pool (a b c d ones fuel : Nat) (ha : a < 256) (hb : b < 256)
    (hc : c < 256) (hd : d < 256) (h1 : 1 ≤ ones) (h : ones ≤ 32)
    (hfuel : 2 ^ (32 - ones) < fuel) :
    ∃ al, NewIpamService fuel (some (ipv4Net a b c d ones)) = some (some al) ∧
      al.allocated = [] ∧ al.ipToUser = [] ∧
      (ones ≤ 30 →
        al.availableIPs = (List.range (2 ^ (32 - ones) - 2)).map
          (fun i => ipString (addr (networkOf a b c d ones + 1 + i))) ∧
        ipString (addr (networkOf a b c d ones)) ∉ al.availableIPs ∧
        ipString (addr (networkOf a b c d ones + 2 ^ (32 - ones) - 1)) ∉ al.availableIPs) ∧
      (30 < ones →
        al.availableIPs = (List.range (2 ^ (32 - ones))).map
          (fun i => ipString (addr (networkOf a b c d ones + i)))) := by
  refine ⟨_, NewIpamService_eq a b c d ones fuel ha hb hc hd h1 h hfuel, rfl, rfl, ?_, ?_⟩
  · intro h30
    have hK := (pool_small ones h).2 h30
    obtain ⟨_, hNK, _, _⟩ := block_arith (ipValue [a, b, c, d]) ones
      (ipValue_lt a b c d ha hb hc hd) h
    change networkOf a b c d ones + 2 ^ (32 - ones) ≤ 2 ^ 32 at hNK
    simp only [poolOf, if_pos hK, List.mem_map, List.mem_range, not_exists, not_and, true_and]
    constructor
    · intro i hi heq
      have := ipString_addr_injective (by omega) (by omega) heq
      omega
    · intro i hi heq
      have := ipString_addr_injective (by omega) (by omega) heq
      omega
  · intro h30
    have hK : ¬ 2 < 2 ^ (32 - ones) := fun hh => by
      have := (pool_small ones h).1 hh
      omega
    simp only [poolOf, if_neg hK]

/-- Witness of C7 (amended): the pool of `10.0.0.5/30` is `10.0.0.5`, `10.0.0.6`. -/
theorem NewIpamService_pool_witness :
    ∃ al, NewIpamService 5 (some (ipv4Net 10 0 0 5 30)) = some (some al) ∧
      al.availableIPs = ["10.0.0.5", "10.0.0.6"] := by
  obtain ⟨al, hal, _, _, h30, _⟩ := NewIpamService_pool 10 0 0 5 30 5 (by decide) (by decide)
    (by decide) (by decide) (by decide) (by decide) (by decide)
  refine ⟨al, hal, ?_⟩
  rw [(h30 (by decide)).1]
  decide

/-- C7 fails on a `/31` block: the free list of `10.0.0.0/31` holds the network
address `10.0.0.0` and the broadcast address `10.0.0.1` of the block. -/
theorem NewIpamService_slash31_keeps_network :
    NewIpamService 3 (some (ipv4Net 10 0 0 0 31))
      = some (some { availableIPs := ["10.0.0.0", "10.0.0.1"], allocated := [], ipToUser := [] }) ∧
    ipString (addr (networkOf 10 0 0 0 31)) = "10.0.0.0" ∧
    ipString (addr (networkOf 10 0 0 0 31 + 2 ^ (32 - 31) - 1)) = "10.0.0.1" ∧
    ipString (addr (networkOf 10 0 0 0 31)) ∈ ["10.0.0.0", "10.0.0.1"] ∧
    ipString (addr (networkOf 10 0 0 0 31 + 2 ^ (32 - 31) - 1)) ∈ ["10.0.0.0", "10.0.0.1"] := by
  refine ⟨by decide, by decide, by decide, by decide, by decide⟩

/-! ## Reachable states of the allocator -/

theorem NewIpamService_mono (fuel fuel' : Nat) (p : Option IPNet) (r : Option IPAllocator)
    (h : NewIpamService fuel p = some r) (hle : fuel ≤ fuel') :
    NewIpamService fuel' p = some r := by
  cases p with
  | none => simpa [NewIpamService] using h
  | some ipnet =>
    simp only [NewIpamService] at h ⊢
    cases hc : collectIPs ipnet fuel (Mask ipnet.IP ipnet.Mask) [] with
    | none => simp [hc] at h
    | some ips =>
      rw [collectIPs_mono ipnet fuel _ _ ips hc fuel' hle]
      simpa [hc] using h

theorem poolOf_nodup (a b c d ones : Nat) (ha : a < 256) (hb : b < 256) (hc : c < 256)
    (hd : d < 256) (h : ones ≤ 32) : (poolOf a b c d ones).Nodup := by
  obtain ⟨_, hNK, _, _⟩ := block_arith (ipValue [a, b, c, d]) ones
    (ipValue_lt a b c d ha hb hc hd) h
  change networkOf a b c d ones + 2 ^ (32 - ones) ≤ 2 ^ 32 at hNK
  unfold poolOf
  split
  · refine List.Nodup.map_on ?_ (List.nodup_range _)
    intro x hx y hy hxy
    rw [List.mem_range] at hx hy
    have := ipString_addr_injective (by omega) (by omega) hxy
    omega
  · refine List.Nodup.map_on ?_ (List.nodup_range _)
    intro x hx y hy hxy
    rw [List.mem_range] at hx hy
    have := ipString_addr_injective (by omega) (by omega) hxy
    omega

theorem Reachable_init_eq (fuel a b c d ones : Nat) (al : IPAllocator)
    (ha : a < 256) (hb : b < 256) (hc : c < 256) (hd : d < 256) (hones : ones ≤ 32)
    (h : NewIpamService fuel (some (ipv4Net a b c d ones)) = some (some al)) :
    1 ≤ ones ∧ al = { availableIPs := poolOf a b c d ones, allocated := [], ipToUser := [] } := by
  rcases Nat.eq_zero_or_pos ones with rfl | hpos
  · rw [NewIpamService_slash0 a b c d fuel ha hb hc hd] at h
    cases h
  · refine ⟨hpos, ?_⟩
    have h' := NewIpamService_mono fuel (max fuel (2 ^ (32 - ones) + 1)) _ _ h (le_max_left _ _)
    rw [NewIpamService_eq a b c d ones _ ha hb hc hd hpos hones
      (lt_of_lt_of_le (Nat.lt_succ_self _) (le_max_right _ _))] at h'
    injection h' with h'
    injection h' with h'
    exact h'.symm

theorem Inv_AllocateIP (al : IPAllocator) (supi : String) (pduSessId : Int) (hI : Inv al) :
    Inv (AllocateIP al supi pduSessId).2 := by
  unfold AllocateIP
  cases hl : al.allocated.lookup (userString supi pduSessId) with
  | some x => simpa [hl] using hI
  | none =>
    cases hf : al.availableIPs with
    | nil => simpa [hl, hf] using hI
    | cons ip rest =>
      simp only [hl, hf]
      have hnd := hI.nodup
      rw [hf] at hnd
      have hipfree : al.ipToUser.lookup ip = none := hI.free ip (by rw [hf]; simp)
      refine ⟨(List.nodup_cons.1 hnd).2, ?_, ?_, ?_⟩
      · intro k x hk
        by_cases hkk : k = userString supi pduSessId
        · subst hkk
          rw [GoMap.lookup_store_self] at hk
          injection hk with hk
          subst hk
          exact GoMap.lookup_store_self _ _ _
        · rw [GoMap.lookup_store_ne _ _ hkk] at hk
          have hx := hI.fwd k x hk
          have hne : x ≠ ip := by
            intro e
            rw [e, hipfree] at hx
            cases hx
          rw [GoMap.lookup_store_ne _ _ hne]
          exact hx
      · intro x k hx
        by_cases hxx : x = ip
        · subst hxx
          rw [GoMap.lookup_store_self] at hx
          injection hx with hx
          subst hx
          exact GoMap.lookup_store_self _ _ _
        · rw [GoMap.lookup_store_ne _ _ hxx] at hx
          have hk := hI.bwd x k hx
          have hne : k ≠ userString supi pduSessId := by
            intro e
            rw [e, hl] at hk
            cases hk
          rw [GoMap.lookup_store_ne _ _ hne]
          exact hk
      · intro x hx
        have hne : x ≠ ip := by
          intro e
          subst e
          exact (List.nodup_cons.1 hnd).1 hx
        rw [GoMap.lookup_store_ne _ _ hne]
        exact hI.free x (by rw [hf]; exact List.mem_cons_of_mem _ hx)

theorem Inv_ReleaseIP (al : IPAllocator) (supi : String) (pduSessId : Int) (hI : Inv al) :
    Inv (ReleaseIP al supi pduSessId).2 := by
  unfold ReleaseIP
  cases hl : al.allocated.lookup (userString supi pduSessId) with
  | none => simpa [hl] using hI
  | some ip =>
    simp only [hl]
    have hip := hI.fwd _ _ hl
    refine ⟨?_, ?_, ?_, ?_⟩
    · simp only [List.singleton_append, List.nodup_cons]
      refine ⟨?_, hI.nodup⟩
      intro hm
      rw [hI.free ip hm] at hip
      cases hip
    · intro k x hk
      have hkk : k ≠ userString supi pduSessId := by
        intro e
        rw [e, GoMap.lookup_delete_self] at hk
        cases hk
      rw [GoMap.lookup_delete_ne _ hkk] at hk
      have hx := hI.fwd k x hk
      have hne : x ≠ ip := by
        intro e
        rw [e, hip] at hx
        injection hx with hx
        exact hkk hx.symm
      rw [GoMap.lookup_delete_ne _ hne]
      exact hx
    · intro x k hx
      have hxx : x ≠ ip := by
        intro e
        rw [e, GoMap.lookup_delete_self] at hx
        cases hx
      rw [GoMap.lookup_delete_ne _ hxx] at hx
      have hk := hI.bwd x k hx
      have hne : k ≠ userString supi pduSessId := by
        intro e
        rw [e, hl] at hk
        injection hk with hk
        exact hxx hk.symm
      rw [GoMap.lookup_delete_ne _ hne]
      exact hk
    · intro x hx
      simp only [List.singleton_append, List.mem_cons] at hx
      rcases hx with rfl | hx
      · exact GoMap.lookup_delete_self _ _
      · by_cases hxx : x = ip
        · subst hxx
          exact GoMap.lookup_delete_self _ _
        · rw [GoMap.lookup_delete_ne _ hxx]
          exact hI.free x hx

theorem Reachable_Inv (al : IPAllocator) (h : Reachable al) : Inv al := by
  induction h with
  | init fuel a b c d ones al ha hb hc hd hones h =>
    obtain ⟨_, rfl⟩ := Reachable_init_eq fuel a b c d ones al ha hb hc hd hones h
    refine ⟨poolOf_nodup a b c d ones ha hb hc hd hones, ?_, ?_, ?_⟩
    · intro k ip hk
      cases hk
    · intro k ip hk
      cases hk
    · intro ip _
      rfl
  | allocate al supi pduSessId _ ih => exact Inv_AllocateIP al supi pduSessId ih
  | release al supi pduSessId _ ih => exact Inv_ReleaseIP al supi pduSessId ih


/-! ## Keys -/

theorem repr_no_hyphen (n : Nat) : '-' ∉ (Nat.repr n).data := by
  intro hm
  have := repr_isDigit n _ hm
  exact absurd this (by decide)

theorem formatInt_ofNat (m : Nat) : formatInt (m : Int) = Nat.repr m := rfl

theorem formatInt_nonneg (i : Int) (h : 0 ≤ i) : formatInt i = Nat.repr i.toNat := by
  cases i with
  | ofNat m => rfl
  | negSucc m => exact absurd h (by simp)

theorem userString_data (supi : String) (pduSessId : Int) :
    (userString supi pduSessId).data = supi.data ++ '-' :: (formatInt pduSessId).data := by
  simp [userString, String.data_append]

/-- With session ids that are not negative, the key determines the pair. -/
theorem userString_injective (s₁ s₂ : String) (i₁ i₂ : Int) (h₁ : 0 ≤ i₁) (h₂ : 0 ≤ i₂)
    (h : userString s₁ i₁ = userString s₂ i₂) : s₁ = s₂ ∧ i₁ = i₂ := by
  have hd := congrArg (fun s => s.data.reverse) h
  simp only [userString_data, formatInt_nonneg _ h₁, formatInt_nonneg _ h₂, List.reverse_append,
    List.reverse_cons, List.append_assoc, List.singleton_append] at hd
  obtain ⟨e1, e2⟩ := append_sep_inj _ _ _ _ _
    (by rw [List.mem_reverse]; exact repr_no_hyphen _)
    (by rw [List.mem_reverse]; exact repr_no_hyphen _) hd
  have e1' := repr_injective (String.ext (List.reverse_injective e1))
  refine ⟨String.ext (List.reverse_injective e2), ?_⟩
  omega

theorem Split_userString (supi : String) (pduSessId : Int) (hs : '-' ∉ supi.data)
    (h : 0 ≤ pduSessId) :
    Split (userString supi pduSessId) '-' = [supi, formatInt pduSessId] := by
  have h1 : ∀ x ∈ supi.data, ¬ (x == '-') = true := by
    intro x hx hxe
    have : x = '-' := by simpa using hxe
    exact hs (this ▸ hx)
  have h2 : ∀ x ∈ (formatInt pduSessId).data, ¬ (x == '-') = true := by
    intro x hx hxe
    have : x = '-' := by simpa using hxe
    rw [formatInt_nonneg _ h] at hx
    exact repr_no_hyphen _ (this ▸ hx)
  unfold Split List.splitOn
  rw [userString_data, List.splitOnP_first _ _ h1 _ (by simp), List.splitOnP_eq_single _ _ h2]
  rfl

theorem Atoi_repr (m : Nat) (h : m < 2 ^ 63) : Atoi (Nat.repr m) = some (m : Int) := by
  have hdig := repr_isDigit m
  have hne := repr_ne_nil m
  have hval := digitsValue_repr m
  unfold Atoi
  generalize (Nat.repr m).data = l at hdig hne hval
  subst hval
  cases l with
  | nil => exact absurd rfl hne
  | cons c r =>
    have hc : c.isDigit = true := hdig c (by simp)
    have h1 : c ≠ '-' := fun e => absurd (e ▸ hc) (by decide)
    have h2 : c ≠ '+' := fun e => absurd (e ▸ hc) (by decide)
    have hbody : stripSign (c :: r) = c :: r := by
      unfold stripSign
      split
      · rename_i heq
        injection heq with heq _
        exact absurd heq h1
      · rename_i heq
        injection heq with heq _
        exact absurd heq h2
      · rfl
    have hall : (c :: r).all Char.isDigit = true := by
      rw [List.all_eq_true]
      exact hdig
    have hneg : (List.head? (c :: r) == some '-') = false := by
      simp [h1]
    simp only [hbody, hall, hneg]
    simp
    omega

theorem toInt32_id (i : Int) (h0 : -(2 : Int) ^ 31 ≤ i) (h1 : i < 2 ^ 31) : toInt32 i = i := by
  unfold toInt32
  omega


/-! ## Reachable states -/

theorem AllocateIP_ok_lookup (al : IPAllocator) (supi : String) (pduSessId : Int) (x : String)
    (h : (AllocateIP al supi pduSessId).1 = Except.ok x) :
    (AllocateIP al supi pduSessId).2.allocated.lookup (userString supi pduSessId) = some x := by
  unfold AllocateIP at h ⊢
  cases hl : al.allocated.lookup (userString supi pduSessId) with
  | some y =>
    simp only [hl] at h ⊢
    injection h with h
    rw [← h]
  | none =>
    cases hf : al.availableIPs with
    | nil => simp [hl, hf] at h
    | cons y rest =>
      simp only [hl, hf] at h ⊢
      injection h with h
      rw [← h]
      exact GoMap.lookup_store_self _ _ _

/-- The pool of `10.0.0.0/30`, the start of the concrete runs below. -/
theorem Reachable_slash30 : Reachable ⟨["10.0.0.1", "10.0.0.2"], [], []⟩ :=
  Reachable.init 5 10 0 0 0 30 _ (by decide) (by decide) (by decide) (by decide) (by decide)
    (by decide)

/-- C6 (amended): in every reachable state, two distinct pairs whose session
ids are not negative and that are both bound hold different addresses. -/
theorem bound_pairs_distinct_addresses (al : IPAllocator) (hR : Reachable al)
    (s₁ s₂ : String) (i₁ i₂ : Int) (x y : String) (h₁ : 0 ≤ i₁) (h₂ : 0 ≤ i₂)
    (hne : (s₁, i₁) ≠ (s₂, i₂))
    (hx : GetIP al s₁ i₁ = (x, true)) (hy : GetIP al s₂ i₂ = (y, true)) : x ≠ y := by
  rw [GetIP_eq_true_iff] at hx hy
  have hI := Reachable_Inv al hR
  intro hxy
  subst hxy
  have e1 := hI.fwd _ _ hx
  have e2 := hI.fwd _ _ hy
  rw [e1] at e2
  injection e2 with e2
  obtain ⟨rfl, rfl⟩ := userString_injective s₁ s₂ i₁ i₂ h₁ h₂ e2
  exact hne rfl

/-- Witness of C6 (amended): two subscribers on the pool of `10.0.0.0/30`. -/
theorem bound_pairs_distinct_addresses_witness :
    GetIP (AllocateIP (AllocateIP ⟨["10.0.0.1", "10.0.0.2"], [], []⟩ "7" 1).2 "8" 1).2 "7" 1
      = ("10.0.0.1", true) ∧
    GetIP (AllocateIP (AllocateIP ⟨["10.0.0.1", "10.0.0.2"], [], []⟩ "7" 1).2 "8" 1).2 "8" 1
      = ("10.0.0.2", true) ∧
    "10.0.0.1" ≠ "10.0.0.2" :=
  ⟨rfl, rfl, bound_pairs_distinct_addresses _
    (Reachable.allocate _ "8" 1 (Reachable.allocate _ "7" 1 Reachable_slash30))
    "7" "8" 1 1 "10.0.0.1" "10.0.0.2" (by decide) (by decide) (by decide) rfl rfl⟩

/-- C6 fails for keys that collide: the distinct pairs `("a", -5)` and
`("a-", 5)` have the same key `a--5`; both calls of `AllocateIP` succeed and
both pairs hold `10.0.0.1`. -/
theorem colliding_keys_share_address :
    Reachable (AllocateIP (AllocateIP ⟨["10.0.0.1", "10.0.0.2"], [], []⟩ "a" (-5)).2 "a-" 5).2 ∧
    (("a", -5) : String × Int) ≠ ("a-", 5) ∧
    (AllocateIP ⟨["10.0.0.1", "10.0.0.2"], [], []⟩ "a" (-5)).1 = Except.ok "10.0.0.1" ∧
    (AllocateIP (AllocateIP ⟨["10.0.0.1", "10.0.0.2"], [], []⟩ "a" (-5)).2 "a-" 5).1
      = Except.ok "10.0.0.1" ∧
    GetIP (AllocateIP (AllocateIP ⟨["10.0.0.1", "10.0.0.2"], [], []⟩ "a" (-5)).2 "a-" 5).2
      "a" (-5) = ("10.0.0.1", true) ∧
    GetIP (AllocateIP (AllocateIP ⟨["10.0.0.1", "10.0.0.2"], [], []⟩ "a" (-5)).2 "a-" 5).2
      "a-" 5 = ("10.0.0.1", true) :=
  ⟨Reachable.allocate _ "a-" 5 (Reachable.allocate _ "a" (-5) Reachable_slash30),
    by decide, rfl, rfl, rfl, rfl⟩

/-- C4 (amended): in a reachable state, for a SUPI without hyphen and a session
id in `[0, 2^31)`, the address returned by a successful `AllocateIP` is looked
up by `GetUserStringOk` as `(supi, sessionId, true)`; and an address that no key
is bound to is reported not-found. -/
theorem GetUserStringOk_inverts_AllocateIP (al : IPAllocator) (hR : Reachable al) :
    (∀ (supi : String) (pduSessId : Int) (x : String),
      '-' ∉ supi.data → 0 ≤ pduSessId → pduSessId < 2 ^ 31 →
      (AllocateIP al supi pduSessId).1 = Except.ok x →
      GetUserStringOk (AllocateIP al supi pduSessId).2 x = some (supi, pduSessId, true)) ∧
    (∀ ip : String, (∀ k, al.allocated.lookup k ≠ some ip) →
      GetUserStringOk al ip = some ("", 0, false)) := by
  constructor
  · intro supi pduSessId x hs h0 h31 hok
    have hI := Reachable_Inv _ (Reachable.allocate al supi pduSessId hR)
    have hinv := hI.fwd _ _ (AllocateIP_ok_lookup al supi pduSessId x hok)
    have hat : Atoi (formatInt pduSessId) = some pduSessId := by
      rw [formatInt_nonneg _ h0, Atoi_repr _ (by omega)]
      congr 1
      omega
    unfold GetUserStringOk
    simp only [hinv, Split_userString supi pduSessId hs h0, hat,
      toInt32_id pduSessId (by omega) h31]
  · intro ip hip
    have hI := Reachable_Inv al hR
    unfold GetUserStringOk
    cases hl : al.ipToUser.lookup ip with
    | none => rfl
    | some k => exact absurd (hI.bwd ip k hl) (hip k)

/-- Witness of C4 (amended): a first allocation on the pool of `10.0.0.0/30`. -/
theorem GetUserStringOk_inverts_AllocateIP_witness :
    GetUserStringOk (AllocateIP ⟨["10.0.0.1", "10.0.0.2"], [], []⟩ "208950000000001" 1).2
      "10.0.0.1" = some ("208950000000001", 1, true) :=
  (GetUserStringOk_inverts_AllocateIP _ Reachable_slash30).1 "208950000000001" 1 "10.0.0.1"
    (by decide) (by decide) (by decide) rfl

/-- C4 fails for a SUPI with a hyphen: after `AllocateIP("a-b", 1)` returned
`10.0.0.1` in a reachable state, `GetUserStringOk("10.0.0.1")` is not-found. -/
theorem hyphen_supi_lookup_fails :
    Reachable (⟨["10.0.0.1", "10.0.0.2"], [], []⟩ : IPAllocator) ∧
    (AllocateIP ⟨["10.0.0.1", "10.0.0.2"], [], []⟩ "a-b" 1).1 = Except.ok "10.0.0.1" ∧
    GetUserStringOk (AllocateIP ⟨["10.0.0.1", "10.0.0.2"], [], []⟩ "a-b" 1).2 "10.0.0.1"
      = some ("", 0, false) :=
  ⟨Reachable_slash30, rfl, rfl⟩


/-- The run on a `/30` block, stated on the map keys: the pool has exactly two
addresses; for three keys `"{supi}-{id}"` that are pairwise distinct the first
two calls of `AllocateIP` succeed with different addresses and the third fails;
after the release of either bound key the third call succeeds and returns the
released address. -/
theorem slash30_scenario_keys (a b c d fuel : Nat) (ha : a < 256) (hb : b < 256) (hc : c < 256)
    (hd : d < 256) (hfuel : 4 < fuel) (s₁ s₂ s₃ : String) (i₁ i₂ i₃ : Int)
    (h₁₂ : userString s₁ i₁ ≠ userString s₂ i₂) (h₁₃ : userString s₁ i₁ ≠ userString s₃ i₃)
    (h₂₃ : userString s₂ i₂ ≠ userString s₃ i₃) :
    ∃ al ip₁ ip₂,
      NewIpamService fuel (some (ipv4Net a b c d 30)) = some (some al) ∧
      al.availableIPs.length = 2 ∧
      (AllocateIP al s₁ i₁).1 = Except.ok ip₁ ∧
      (AllocateIP (AllocateIP al s₁ i₁).2 s₂ i₂).1 = Except.ok ip₂ ∧
      ip₁ ≠ ip₂ ∧
      (∃ e, (AllocateIP (AllocateIP (AllocateIP al s₁ i₁).2 s₂ i₂).2 s₃ i₃).1
        = Except.error e) ∧
      (ReleaseIP (AllocateIP (AllocateIP (AllocateIP al s₁ i₁).2 s₂ i₂).2 s₃ i₃).2
        s₁ i₁).1 = Except.ok () ∧
      (AllocateIP (ReleaseIP (AllocateIP (AllocateIP (AllocateIP al s₁ i₁).2 s₂ i₂).2
        s₃ i₃).2 s₁ i₁).2 s₃ i₃).1 = Except.ok ip₁ ∧
      (ReleaseIP (AllocateIP (AllocateIP (AllocateIP al s₁ i₁).2 s₂ i₂).2 s₃ i₃).2
        s₂ i₂).1 = Except.ok () ∧
      (AllocateIP (ReleaseIP (AllocateIP (AllocateIP (AllocateIP al s₁ i₁).2 s₂ i₂).2
        s₃ i₃).2 s₂ i₂).2 s₃ i₃).1 = Except.ok ip₂ := by
  have hpool : poolOf a b c d 30 = [ipString (addr (networkOf a b c d 30 + 1 + 0)),
      ipString (addr (networkOf a b c d 30 + 1 + 1))] := by
    simp [poolOf, List.range_succ]
  have hnd := poolOf_nodup a b c d 30 ha hb hc hd (by norm_num)
  rw [hpool] at hnd
  have hpq : ipString (addr (networkOf a b c d 30 + 1 + 0))
      ≠ ipString (addr (networkOf a b c d 30 + 1 + 1)) := by
    intro e
    simp [e] at hnd
  generalize ipString (addr (networkOf a b c d 30 + 1 + 0)) = p at hpool hpq
  generalize ipString (addr (networkOf a b c d 30 + 1 + 1)) = q at hpool hpq
  refine ⟨_, p, q,
    NewIpamService_eq a b c d 30 fuel ha hb hc hd (by norm_num) (by norm_num) (by simpa using hfuel),
    ?_⟩
  rw [hpool]
  have h₂₁ := Ne.symm h₁₂
  have h₃₁ := Ne.symm h₁₃
  have h₃₂ := Ne.symm h₂₃
  have hqp := Ne.symm hpq
  simp [AllocateIP, ReleaseIP, GoMap.lookup, GoMap.store, GoMap.delete, h₁₂, h₁₃, h₂₃, h₂₁, h₃₁,
    h₃₂, hpq, hqp]

/-- C8 (amended): on any `/30` block the pool has exactly two addresses; for
three pairs `(supi, id)` that are pairwise distinct and whose session ids are
not negative, the first two calls of `AllocateIP` succeed with different
addresses and the third fails; after the release of either bound pair the third
call succeeds and returns the released address. -/
theorem slash30_scenario_pairs (a b c d fuel : Nat) (ha : a < 256) (hb : b < 256)
    (hc : c < 256) (hd : d < 256) (hfuel : 4 < fuel) (s₁ s₂ s₃ : String) (i₁ i₂ i₃ : Int)
    (hi₁ : 0 ≤ i₁) (hi₂ : 0 ≤ i₂) (hi₃ : 0 ≤ i₃)
    (h₁₂ : (s₁, i₁) ≠ (s₂, i₂)) (h₁₃ : (s₁, i₁) ≠ (s₃, i₃)) (h₂₃ : (s₂, i₂) ≠ (s₃, i₃)) :
    ∃ al ip₁ ip₂,
      NewIpamService fuel (some (ipv4Net a b c d 30)) = some (some al) ∧
      al.availableIPs.length = 2 ∧
      (AllocateIP al s₁ i₁).1 = Except.ok ip₁ ∧
      (AllocateIP (AllocateIP al s₁ i₁).2 s₂ i₂).1 = Except.ok ip₂ ∧
      ip₁ ≠ ip₂ ∧
      (∃ e, (AllocateIP (AllocateIP (AllocateIP al s₁ i₁).2 s₂ i₂).2 s₃ i₃).1
        = Except.error e) ∧
      (ReleaseIP (AllocateIP (AllocateIP (AllocateIP al s₁ i₁).2 s₂ i₂).2 s₃ i₃).2
        s₁ i₁).1 = Except.ok () ∧
      (AllocateIP (ReleaseIP (AllocateIP (AllocateIP (AllocateIP al s₁ i₁).2 s₂ i₂).2
        s₃ i₃).2 s₁ i₁).2 s₃ i₃).1 = Except.ok ip₁ ∧
      (ReleaseIP (AllocateIP (AllocateIP (AllocateIP al s₁ i₁).2 s₂ i₂).2 s₃ i₃).2
        s₂ i₂).1 = Except.ok () ∧
      (AllocateIP (ReleaseIP (AllocateIP (AllocateIP (AllocateIP al s₁ i₁).2 s₂ i₂).2
        s₃ i₃).2 s₂ i₂).2 s₃ i₃).1 = Except.ok ip₂ := by
  have k₁₂ : userString s₁ i₁ ≠ userString s₂ i₂ := by
    intro e
    obtain ⟨e₁, e₂⟩ := userString_injective s₁ s₂ i₁ i₂ hi₁ hi₂ e
    exact h₁₂ (by rw [e₁, e₂])
  have k₁₃ : userString s₁ i₁ ≠ userString s₃ i₃ := by
    intro e
    obtain ⟨e₁, e₂⟩ := userString_injective s₁ s₃ i₁ i₃ hi₁ hi₃ e
    exact h₁₃ (by rw [e₁, e₂])
  have k₂₃ : userString s₂ i₂ ≠ userString s₃ i₃ := by
    intro e
    obtain ⟨e₁, e₂⟩ := userString_injective s₂ s₃ i₂ i₃ hi₂ hi₃ e
    exact h₂₃ (by rw [e₁, e₂])
  exact slash30_scenario_keys a b c d fuel ha hb hc hd hfuel s₁ s₂ s₃ i₁ i₂ i₃ k₁₂ k₁₃ k₂₃

/-- Witness of C8 (amended) on the block `10.0.0.0/30` with three subscribers. -/
theorem slash30_scenario_pairs_witness :
    ∃ al ip₁ ip₂,
      NewIpamService 5 (some (ipv4Net 10 0 0 0 30)) = some (some al) ∧
      al.availableIPs.length = 2 ∧
      (AllocateIP al "7" 1).1 = Except.ok ip₁ ∧
      (AllocateIP (AllocateIP al "7" 1).2 "8" 1).1 = Except.ok ip₂ ∧
      ip₁ ≠ ip₂ ∧
      (∃ e, (AllocateIP (AllocateIP (AllocateIP al "7" 1).2 "8" 1).2 "9" 1).1
        = Except.error e) ∧
      (ReleaseIP (AllocateIP (AllocateIP (AllocateIP al "7" 1).2 "8" 1).2 "9" 1).2
        "7" 1).1 = Except.ok () ∧
      (AllocateIP (ReleaseIP (AllocateIP (AllocateIP (AllocateIP al "7" 1).2 "8" 1).2
        "9" 1).2 "7" 1).2 "9" 1).1 = Except.ok ip₁ ∧
      (ReleaseIP (AllocateIP (AllocateIP (AllocateIP al "7" 1).2 "8" 1).2 "9" 1).2
        "8" 1).1 = Except.ok () ∧
      (AllocateIP (ReleaseIP (AllocateIP (AllocateIP (AllocateIP al "7" 1).2 "8" 1).2
        "9" 1).2 "8" 1).2 "9" 1).1 = Except.ok ip₂ :=
  slash30_scenario_pairs 10 0 0 0 5 (by decide) (by decide) (by decide) (by decide) (by decide)
    "7" "8" "9" 1 1 1 (by decide) (by decide) (by decide) (by decide) (by decide) (by decide)

/-- C8 fails for pairs whose keys collide: on the block `10.0.0.0/30` the
pairs `("a", -5)`, `("a-", 5)` and `("b", 1)` are pairwise distinct, but the
first two have the same key `a--5`: the first two calls of `AllocateIP` both
return `10.0.0.1`, and the third call succeeds with `10.0.0.2`. -/
theorem slash30_colliding_pairs :
    NewIpamService 5 (some (ipv4Net 10 0 0 0 30))
      = some (some { availableIPs := ["10.0.0.1", "10.0.0.2"], allocated := [], ipToUser := [] }) ∧
    (("a", -5) : String × Int) ≠ ("a-", 5) ∧
    (("a", -5) : String × Int) ≠ ("b", 1) ∧
    (("a-", 5) : String × Int) ≠ ("b", 1) ∧
    (AllocateIP ⟨["10.0.0.1", "10.0.0.2"], [], []⟩ "a" (-5)).1 = Except.ok "10.0.0.1" ∧
    (AllocateIP (AllocateIP ⟨["10.0.0.1", "10.0.0.2"], [], []⟩ "a" (-5)).2 "a-" 5).1
      = Except.ok "10.0.0.1" ∧
    (AllocateIP (AllocateIP (AllocateIP ⟨["10.0.0.1", "10.0.0.2"], [], []⟩ "a" (-5)).2
      "a-" 5).2 "b" 1).1 = Except.ok "10.0.0.2" := by
  refine ⟨by decide, by decide, by decide, by decide, rfl, rfl, rfl⟩

end utils

/-! ## The Markov engine -/

namespace ran

open models

theorem cumulative_cons_succ (t : Transition) (rest : List Transition) (k : Nat) :
    cumulative (t :: rest) (k + 1) = t.Probability + cumulative rest k := by
  simp [cumulative]

theorem NextStateLoop_spec (rnd : ℚ) (current : UeState) :
    ∀ (row : List Transition) (c : ℚ),
      (∃ i, ∃ hi : i < row.length,
        rnd < c + cumulative row (i + 1) ∧ (∀ j, j < i → c + cumulative row (j + 1) ≤ rnd) ∧
        NextStateLoop rnd current row c = ((row.get ⟨i, hi⟩).To, (row.get ⟨i, hi⟩).Procedure)) ∨
      ((∀ j, j < row.length → c + cumulative row (j + 1) ≤ rnd) ∧
        NextStateLoop rnd current row c = (current, NoProcedure)) := by
  intro row
  induction row with
  | nil =>
    intro c
    right
    exact ⟨fun j hj => absurd hj (by simp), rfl⟩
  | cons t rest ih =>
    intro c
    by_cases h : rnd < c + t.Probability
    · left
      refine ⟨0, by simp, ?_, ?_, ?_⟩
      · simpa [cumulative] using h
      · intro j hj
        exact absurd hj (by simp)
      · simp [NextStateLoop, h]
    · have hle : c + t.Probability ≤ rnd := not_lt.1 h
      rcases ih (c + t.Probability) with ⟨i, hi, h1, h2, h3⟩ | ⟨h1, h2⟩
      · left
        refine ⟨i + 1, by simpa using hi, ?_, ?_, ?_⟩
        · rw [cumulative_cons_succ, ← add_assoc]
          exact h1
        · intro j hj
          cases j with
          | zero => simpa [cumulative] using hle
          | succ j =>
            rw [cumulative_cons_succ, ← add_assoc]
            exact h2 j (by omega)
        · simp only [NextStateLoop, h, if_false, List.get_cons_succ]
          exact h3
      · right
        refine ⟨?_, ?_⟩
        · intro j hj
          cases j with
          | zero => simpa [cumulative] using hle
          | succ j =>
            rw [cumulative_cons_succ, ← add_assoc]
            exact h1 j (by simpa using hj)
        · simp only [NextStateLoop, h, if_false]
          exact h2

/-- C9: with the draw `rnd` explicit, `NextState` returns the target and the
procedure of the first transition of the row of `current`, in listing order,
whose cumulative probability is greater than `rnd`, and `(current, NoProcedure)`
when there is none; so every result is an entry of the row or the fallback. -/
theorem NextState_spec (rnd : ℚ) (current : UeState) :
    ((∃ i, ∃ hi : i < (transitionsAt current).length,
        rnd < cumulative (transitionsAt current) (i + 1) ∧
        (∀ j, j < i → cumulative (transitionsAt current) (j + 1) ≤ rnd) ∧
        NextState rnd current = (((transitionsAt current).get ⟨i, hi⟩).To,
          ((transitionsAt current).get ⟨i, hi⟩).Procedure)) ∨
      ((∀ j, j < (transitionsAt current).length →
          cumulative (transitionsAt current) (j + 1) ≤ rnd) ∧
        NextState rnd current = (current, NoProcedure))) ∧
    (NextState rnd current ∈ (transitionsAt current).map (fun t => (t.To, t.Procedure)) ∨
      NextState rnd current = (current, NoProcedure)) := by
  have key := NextStateLoop_spec rnd current (transitionsAt current) 0
  simp only [zero_add] at key
  refine ⟨key, ?_⟩
  rcases key with ⟨i, hi, _, _, h3⟩ | ⟨_, h2⟩
  · left
    rw [List.mem_map]
    exact ⟨(transitionsAt current).get ⟨i, hi⟩, List.get_mem _ _ _, h3.symm⟩
  · right
    exact h2

/-- C10: each of the six UE states has a row in the table, every probability
of the row is positive, and the probabilities of the row sum to at least 0.999
and at most 1. -/
theorem transitions_rows_stochastic :
    ∀ s ∈ allStates, ∃ row, transitionsRow s = some row ∧
      (∀ t ∈ row, 0 < t.Probability) ∧
      (0.999 : ℚ) ≤ (row.map fun t => t.Probability).sum ∧
      (row.map fun t => t.Probability).sum ≤ 1 := by
  intro s hs
  simp only [allStates, List.mem_cons, List.mem_singleton, List.not_mem_nil, or_false] at hs
  rcases hs with rfl | rfl | rfl | rfl | rfl | rfl
  all_goals
    refine ⟨_, rfl, ?_, ?_, ?_⟩
    · intro t ht
      simp only [List.mem_cons, List.mem_singleton, List.not_mem_nil, or_false] at ht
      rcases ht with rfl | rfl | rfl | rfl | rfl <;> norm_num
    · norm_num
    · norm_num

/-- Witness of C10: the row of `Idle`. -/
theorem transitions_rows_stochastic_witness :
    ∃ row, transitionsRow Idle = some row ∧
      (∀ t ∈ row, 0 < t.Probability) ∧
      (0.999 : ℚ) ≤ (row.map fun t => t.Probability).sum ∧
      (row.map fun t => t.Probability).sum ≤ 1 :=
  transitions_rows_stochastic Idle (by decide)

end ran

/-! ## The transition table against the specification -/

namespace ran

open models

/-- C11: the table of the code, read as (next state, probability) pairs row by
row, is the table of the specification, rows and entries in the same order. -/
theorem transitions_eq_specTransitions :
    transitions.map (fun r => (r.1, r.2.map fun t => (t.To, t.Probability)))
      = specTransitions := by
  rfl

/-- C12 fails on the code: the second transition of the row of `Registered` is
written without a procedure, so for a draw in `[0.99, 0.995)` `NextState`
returns the empty procedure, which is none of the nine named ones. -/
theorem NextState_Registered_unnamed_procedure :
    NextState 0.992 Registered = (Registered, "") ∧
    ("" : UeProcedure) ∉ namedProcedures ∧
    (∃ t ∈ transitionsAt Registered, t.Procedure ∉ namedProcedures) := by
  refine ⟨?_, by decide, ?_⟩
  · norm_num [NextState, NextStateLoop, transitionsAt, transitionsRow, transitions]
  · refine ⟨{ To := Registered, Probability := 0.005 }, ?_, by decide⟩
    have h : transitionsAt Registered =
        [ { To := Attached, Probability := 0.99, Procedure := Attach },
          { To := Registered, Probability := 0.005 },
          { To := Deregistered, Probability := 0.005, Procedure := LossOfConnection } ] := rfl
    rw [h]
    exact List.mem_cons_of_mem _ (List.mem_cons_self _ _)

end ran

/-! ## IMEI and cell identifiers -/

namespace simulator

theorem Atoi_digit (c : Char) (hc : c.isDigit = true) :
    ((utils.Atoi (String.mk [c])).getD 0).toNat = c.toNat - 48 := by
  have h1 : c ≠ '-' := fun e => absurd (e ▸ hc) (by decide)
  have h2 : c ≠ '+' := fun e => absurd (e ▸ hc) (by decide)
  have hbody : utils.stripSign [c] = [c] := by
    unfold utils.stripSign
    split
    · rename_i heq
      injection heq with heq _
      exact absurd heq h1
    · rename_i heq
      injection heq with heq _
      exact absurd heq h2
    · rfl
  have hneg : (List.head? [c] == some '-') = false := by simp [h1]
  have hlt : c.toNat - 48 < 10 := by
    have := hc
    simp only [Char.isDigit, Bool.and_eq_true, decide_eq_true_eq] at this
    have h57 : c.val ≤ 57 := this.2
    have : c.toNat ≤ 57 := by
      have := UInt32.le_def.1 h57
      simpa [Char.toNat] using this
    omega
  unfold utils.Atoi
  simp only [hbody, hneg, utils.digitsValue, List.foldl_cons, List.foldl_nil, List.all_cons,
    List.all_nil, hc]
  simp
  split
  · simp
  · omega


theorem luhnSum_cons (d : Nat) (l : List Nat) : luhnSum (d :: l) = d + luhnSum (0 :: l) := by
  cases l with
  | nil => simp [luhnSum]
  | cons e rest => simp [luhnSum, Nat.add_assoc]

theorem luhnLoop_eq_luhnSum : ∀ (r : List Char), (∀ c ∈ r, c.isDigit = true) → ∀ sum,
    luhnLoop r true sum = sum + luhnSum (0 :: r.map fun c => c.toNat - 48) ∧
    luhnLoop r false sum = sum + luhnSum (r.map fun c => c.toNat - 48) := by
  intro r
  induction r with
  | nil => intro _ sum; simp [luhnLoop, luhnSum]
  | cons c rest ih =>
    intro h sum
    have hc := Atoi_digit c (h c (by simp))
    have ih' := ih (fun x hx => h x (List.mem_cons_of_mem _ hx))
    constructor
    · simp only [luhnLoop]
      simp only [hc, if_true, Bool.not_true, (ih' _).2, List.map_cons, luhnSum]
      rw [Nat.mul_comm (c.toNat - 48) 2]
      omega
    · simp only [luhnLoop]
      simp only [hc, Bool.not_false, (ih' _).1, List.map_cons, Bool.false_eq_true, if_false]
      rw [luhnSum_cons (c.toNat - 48)]
      omega

theorem digitsValue_zeros (k : Nat) (ds : List Char) :
    utils.digitsValue (List.replicate k '0' ++ ds) = utils.digitsValue ds := by
  unfold utils.digitsValue
  induction k with
  | zero => simp
  | succ k ih =>
    rw [List.replicate_succ, List.cons_append, List.foldl_cons]
    simpa using ih

theorem SprintfZeroPadD_spec (w n : Nat) (hw : 0 < w) (h : n < 10 ^ w) :
    (SprintfZeroPadD w n).data.length = w ∧
    (∀ c ∈ (SprintfZeroPadD w n).data, c.isDigit = true) ∧
    utils.digitsValue (SprintfZeroPadD w n).data = n := by
  have hlen : (Nat.repr n).data.length ≤ w := Nat.repr_length n w hw h
  refine ⟨?_, ?_, ?_⟩
  · simp only [SprintfZeroPadD, padZero, List.length_append, List.length_replicate]
    omega
  · intro c hc
    simp only [SprintfZeroPadD, padZero, List.mem_append, List.mem_replicate] at hc
    rcases hc with ⟨_, rfl⟩ | hc
    · decide
    · exact utils.repr_isDigit n c hc
  · simp only [SprintfZeroPadD, padZero, digitsValue_zeros, utils.digitsValue_repr]

theorem repr_digit : ∀ k, k < 10 → (Nat.repr k).data = [Nat.digitChar k] := by decide


theorem digitChar_val : ∀ k, k < 10 →
    (Nat.digitChar k).isDigit = true ∧ (Nat.digitChar k).toNat - 48 = k := by decide

/-- C15: for a TAC draw below `10^8` and a serial draw below `10^6` the IMEI is
15 decimal digits, the first 8 being the TAC and the next 6 the serial number,
both zero padded, and the Luhn sum over the 15 digits is 0 modulo 10. -/
theorem generateIMEI_spec (r₁ r₂ : Nat) (h₁ : r₁ < 10 ^ 8) (h₂ : r₂ < 10 ^ 6) :
    (generateIMEI r₁ r₂).data.length = 15 ∧
    (∀ c ∈ (generateIMEI r₁ r₂).data, c.isDigit = true) ∧
    (generateIMEI r₁ r₂).data.take 14
      = (SprintfZeroPadD 8 r₁).data ++ (SprintfZeroPadD 6 r₂).data ∧
    utils.digitsValue ((generateIMEI r₁ r₂).data.take 8) = r₁ ∧
    utils.digitsValue (((generateIMEI r₁ r₂).data.drop 8).take 6) = r₂ ∧
    luhnValid (generateIMEI r₁ r₂) = true := by
  obtain ⟨hT, hTd, hTv⟩ := SprintfZeroPadD_spec 8 r₁ (by norm_num) h₁
  obtain ⟨hS, hSd, hSv⟩ := SprintfZeroPadD_spec 6 r₂ (by norm_num) h₂
  have hP : ∀ c ∈ ((SprintfZeroPadD 8 r₁).data ++ (SprintfZeroPadD 6 r₂).data).reverse,
      c.isDigit = true := by
    intro c hc
    rw [List.mem_reverse, List.mem_append] at hc
    rcases hc with hc | hc
    · exact hTd c hc
    · exact hSd c hc
  have hsum := (luhnLoop_eq_luhnSum _ hP 0).1
  have hk : (10 - luhnLoop ((SprintfZeroPadD 8 r₁).data ++ (SprintfZeroPadD 6 r₂).data).reverse
      true 0 % 10) % 10 < 10 := Nat.mod_lt _ (by norm_num)
  have hdata : (generateIMEI r₁ r₂).data = (SprintfZeroPadD 8 r₁).data ++
      ((SprintfZeroPadD 6 r₂).data ++ [Nat.digitChar ((10 - luhnLoop
        ((SprintfZeroPadD 8 r₁).data ++ (SprintfZeroPadD 6 r₂).data).reverse true 0 % 10)
          % 10)]) := by
    simp only [generateIMEI, luhnCheckDigit, String.data_append, repr_digit _ hk,
      List.append_assoc]
  generalize hkdef : (10 - luhnLoop ((SprintfZeroPadD 8 r₁).data ++
    (SprintfZeroPadD 6 r₂).data).reverse true 0 % 10) % 10 = k at hk hdata
  obtain ⟨hkd, hkv⟩ := digitChar_val k hk
  generalize (SprintfZeroPadD 8 r₁).data = T at *
  generalize (SprintfZeroPadD 6 r₂).data = S at *
  refine ⟨?_, ?_, ?_, ?_, ?_, ?_⟩
  · rw [hdata]
    simp [hT, hS]
  · intro c hc
    rw [hdata] at hc
    simp only [List.mem_append, List.mem_singleton] at hc
    rcases hc with hc | hc | rfl
    · exact hTd c hc
    · exact hSd c hc
    · exact hkd
  · rw [hdata, ← List.append_assoc, List.take_left' (by simp [hT, hS])]
  · rw [hdata, List.take_left' hT, hTv]
  · rw [hdata, List.drop_left' hT, List.take_left' hS, hSv]
  · unfold luhnValid
    rw [Bool.and_eq_true]
    constructor
    · rw [List.all_eq_true]
      intro c hc
      rw [hdata] at hc
      simp only [List.mem_append, List.mem_singleton] at hc
      rcases hc with hc | hc | rfl
      · exact hTd c hc
      · exact hSd c hc
      · exact hkd
    · rw [hdata, ← List.append_assoc, List.reverse_append, List.reverse_singleton,
        List.singleton_append, List.map_cons, luhnSum_cons, hkv]
      simp only [Nat.zero_add] at hsum
      rw [← hsum]
      simp only [beq_iff_eq]
      omega

set_option maxRecDepth 100000 in
/-- Witness of C15: TAC 35209900 and serial number 176148 give the IMEI
`352099001761481`. -/
theorem generateIMEI_spec_witness :
    generateIMEI 35209900 176148 = "352099001761481" ∧
    luhnValid (generateIMEI 35209900 176148) = true :=
  ⟨by decide, (generateIMEI_spec 35209900 176148 (by norm_num) (by norm_num)).2.2.2.2.2⟩


theorem hexDigitChar : ∀ k, k < 16 → Nat.digitChar k ∈ hexChars ∧
    hexDigitValue (Nat.digitChar k) = k := by
  decide

theorem toDigitsCore_hexChars (fuel : Nat) : ∀ (n : Nat) (ds : List Char),
    (∀ c ∈ ds, c ∈ hexChars) → ∀ c ∈ Nat.toDigitsCore 16 fuel n ds, c ∈ hexChars := by
  induction fuel with
  | zero => intro n ds h; simpa [Nat.toDigitsCore] using h
  | succ f ih =>
    intro n ds h
    have hd : Nat.digitChar (n % 16) ∈ hexChars :=
      (hexDigitChar _ (Nat.mod_lt _ (by norm_num))).1
    have h' : ∀ c ∈ Nat.digitChar (n % 16) :: ds, c ∈ hexChars := by
      intro c hc
      rcases List.mem_cons.1 hc with rfl | hc
      · exact hd
      · exact h c hc
    simp only [Nat.toDigitsCore]
    split
    · exact h'
    · exact ih _ _ h'

theorem toDigitsCore_hexValue (fuel : Nat) : ∀ (n : Nat) (ds : List Char), n < fuel →
    (Nat.toDigitsCore 16 fuel n ds).foldl (fun acc c => acc * 16 + hexDigitValue c) 0
      = ds.foldl (fun acc c => acc * 16 + hexDigitValue c) n := by
  induction fuel with
  | zero => intro n ds h; omega
  | succ f ih =>
    intro n ds h
    have hd := (hexDigitChar (n % 16) (Nat.mod_lt _ (by norm_num))).2
    simp only [Nat.toDigitsCore]
    split
    · rename_i h0
      simp only [List.foldl_cons, hd]
      congr 1
      omega
    · rename_i h0
      rw [ih (n / 16) _ (by omega)]
      simp only [List.foldl_cons, hd]
      congr 1
      omega

theorem hexValue_zeros (k : Nat) (ds : List Char) :
    hexValue (List.replicate k '0' ++ ds) = hexValue ds := by
  unfold hexValue
  induction k with
  | zero => simp
  | succ k ih =>
    rw [List.replicate_succ, List.cons_append, List.foldl_cons]
    simpa using ih

theorem Sprintf09x_spec (i : Nat) (h : i < 2 ^ 36) :
    (Sprintf09x i).data.length = 9 ∧ (∀ c ∈ (Sprintf09x i).data, c ∈ hexChars) ∧
    hexValue (Sprintf09x i).data = i := by
  have hlen : (Nat.toDigits 16 i).length ≤ 9 :=
    Nat.toDigitsCore_length 16 (by norm_num) (i + 1) i 9 (by norm_num; omega) (by norm_num)
  refine ⟨?_, ?_, ?_⟩
  · simp only [Sprintf09x, padZero, List.length_append, List.length_replicate]
    omega
  · intro c hc
    simp only [Sprintf09x, padZero, List.mem_append, List.mem_replicate] at hc
    rcases hc with ⟨_, rfl⟩ | hc
    · decide
    · exact toDigitsCore_hexChars _ _ _ (by simp) c hc
  · simp only [Sprintf09x, padZero, hexValue_zeros]
    exact toDigitsCore_hexValue (i + 1) i [] (by omega)

theorem generateNRCellIDsHex_length (N : Nat) :
    (generateNRCellIDsHex N).length = min N (2 ^ 36 - 1) := by
  have hm : maxNCI = 2 ^ 36 - 1 := by decide
  simp only [generateNRCellIDsHex, List.length_map, List.length_range, hm]
  split <;> omega

/-- C16 (amended): for every input `N` the result has `min N (2^36 - 1)`
strings, so exactly `N` for `N ≤ 2^36 - 1`; they are pairwise distinct, and the
string at index `i` has 9 characters out of `0-9a-f` and is the hexadecimal
numeral of `i`, zero padded. -/
theorem generateNRCellIDsHex_spec (N : Nat) :
    (generateNRCellIDsHex N).length = min N (2 ^ 36 - 1) ∧
    (generateNRCellIDsHex N).Nodup ∧
    ∀ i, i < min N (2 ^ 36 - 1) → ∃ s, (generateNRCellIDsHex N)[i]? = some s ∧
      s.data.length = 9 ∧ (∀ c ∈ s.data, c ∈ hexChars) ∧ hexValue s.data = i := by
  have hm : maxNCI = 2 ^ 36 - 1 := by decide
  have hgen : generateNRCellIDsHex N = (List.range (min N (2 ^ 36 - 1))).map Sprintf09x := by
    simp only [generateNRCellIDsHex, hm]
    congr 2
    split <;> omega
  refine ⟨generateNRCellIDsHex_length N, ?_, ?_⟩
  · rw [hgen]
    refine List.Nodup.map_on ?_ (List.nodup_range _)
    intro x hx y hy hxy
    rw [List.mem_range] at hx hy
    have hx' := (Sprintf09x_spec x (by omega)).2.2
    have hy' := (Sprintf09x_spec y (by omega)).2.2
    rw [← hx', ← hy', hxy]
  · intro i hi
    refine ⟨Sprintf09x i, ?_, Sprintf09x_spec i (by omega)⟩
    rw [hgen, List.getElem?_map, List.getElem?_range hi]
    rfl

/-- C16 fails at `N = 2^36`: the count is capped at `maxNCI = 2^36 - 1`, so one
string fewer than `N` is returned. -/
theorem generateNRCellIDsHex_cap :
    (generateNRCellIDsHex (2 ^ 36)).length = 2 ^ 36 - 1 ∧
    (generateNRCellIDsHex (2 ^ 36)).length ≠ 2 ^ 36 := by
  rw [generateNRCellIDsHex_length]
  norm_num

end simulator

/-! ## The UE actor -/

namespace ran

open models

/-! ### Cell selection -/

theorem pickLoop_mem (gnbList : List String) (current : String) (h : 2 ≤ gnbList.length) :
    ∀ (draws : List Nat) (v : String), pickLoop gnbList current draws = some v →
      v ∈ gnbList ∧ v ≠ current := by
  intro draws
  induction draws with
  | nil => intro v hv; simp [pickLoop] at hv
  | cons d rest ih =>
    intro v hv
    simp only [pickLoop] at hv
    split at hv
    · rename_i hne
      injection hv with hv
      subst hv
      have hlt : d % gnbList.length < gnbList.length := Nat.mod_lt _ (by omega)
      refine ⟨?_, hne⟩
      rw [List.getD_eq_getElem _ _ hlt]
      exact List.getElem_mem _
    · exact ih v hv

theorem pickLoop_returns (gnbList : List String) (current : String) :
    ∀ (draws : List Nat), (∃ d ∈ draws, gnbList.getD (d % gnbList.length) "" ≠ current) →
      ∃ v, pickLoop gnbList current draws = some v := by
  intro draws
  induction draws with
  | nil => rintro ⟨d, hd, _⟩; simp at hd
  | cons d rest ih =>
    rintro ⟨e, he, hne⟩
    simp only [pickLoop]
    split
    · exact ⟨_, rfl⟩
    · rename_i hcur
      rcases List.mem_cons.1 he with rfl | he
      · exact absurd hne hcur
      · exact ih ⟨e, he, hne⟩

/-- C18: `pickRandomNRCellID` returns the empty string when the list has at
most one cell. With at least two cells every value it returns is in the list
and is not the current cell, and it returns as soon as a draw selects such a
cell. With two distinct cells and the UE on one of them the result, which is
the target of a successful handover, is the other cell. -/
theorem pickRandomNRCellID_spec (ue : Ue) (draws : List Nat) :
    (ue.gnbList.length ≤ 1 → ue.pickRandomNRCellID draws = some "") ∧
    (2 ≤ ue.gnbList.length → ∀ v, ue.pickRandomNRCellID draws = some v →
      v ∈ ue.gnbList ∧ v ≠ ue.CurrentCellId) ∧
    (2 ≤ ue.gnbList.length →
      (∃ d ∈ draws, ue.gnbList.getD (d % ue.gnbList.length) "" ≠ ue.CurrentCellId) →
      ∃ v, ue.pickRandomNRCellID draws = some v) ∧
    (∀ a b : String, a ≠ b → ue.gnbList = [a, b] →
      (ue.CurrentCellId = a →
        (∀ v, ue.pickRandomNRCellID draws = some v → v = b) ∧
        ((∃ d ∈ draws, d % 2 = 1) → ue.pickRandomNRCellID draws = some b)) ∧
      (ue.CurrentCellId = b →
        (∀ v, ue.pickRandomNRCellID draws = some v → v = a) ∧
        ((∃ d ∈ draws, d % 2 = 0) → ue.pickRandomNRCellID draws = some a))) := by
  have hmem : 2 ≤ ue.gnbList.length → ∀ v, ue.pickRandomNRCellID draws = some v →
      v ∈ ue.gnbList ∧ v ≠ ue.CurrentCellId := by
    intro h v hv
    unfold Ue.pickRandomNRCellID at hv
    rw [if_neg (by omega)] at hv
    exact pickLoop_mem _ _ h draws v hv
  have hret : 2 ≤ ue.gnbList.length →
      (∃ d ∈ draws, ue.gnbList.getD (d % ue.gnbList.length) "" ≠ ue.CurrentCellId) →
      ∃ v, ue.pickRandomNRCellID draws = some v := by
    intro h hd
    unfold Ue.pickRandomNRCellID
    rw [if_neg (by omega)]
    exact pickLoop_returns _ _ draws hd
  refine ⟨?_, hmem, hret, ?_⟩
  · intro h
    unfold Ue.pickRandomNRCellID
    rw [if_pos h]
  · intro a b hab hl
    have h2 : 2 ≤ ue.gnbList.length := by rw [hl]; simp
    constructor
    · intro hcur
      have hother : ∀ v, ue.pickRandomNRCellID draws = some v → v = b := by
        intro v hv
        obtain ⟨hm, hne⟩ := hmem h2 v hv
        rw [hl] at hm
        rw [hcur] at hne
        simp only [List.mem_cons, List.mem_singleton, List.not_mem_nil, or_false] at hm
        rcases hm with rfl | rfl
        · exact absurd rfl hne
        · rfl
      refine ⟨hother, ?_⟩
      rintro ⟨d, hd, hd1⟩
      obtain ⟨v, hv⟩ := hret h2 ⟨d, hd, by
        rw [hl, hcur]
        simp only [List.length_cons, List.length_singleton, List.length_nil]
        rw [show (0 + 1 + 1) = 2 by rfl, hd1]
        simpa using hab.symm⟩
      rw [hv, hother v hv]
    · intro hcur
      have hother : ∀ v, ue.pickRandomNRCellID draws = some v → v = a := by
        intro v hv
        obtain ⟨hm, hne⟩ := hmem h2 v hv
        rw [hl] at hm
        rw [hcur] at hne
        simp only [List.mem_cons, List.mem_singleton, List.not_mem_nil, or_false] at hm
        rcases hm with rfl | rfl
        · rfl
        · exact absurd rfl hne
      refine ⟨hother, ?_⟩
      rintro ⟨d, hd, hd0⟩
      obtain ⟨v, hv⟩ := hret h2 ⟨d, hd, by
        rw [hl, hcur]
        simp only [List.length_cons, List.length_singleton, List.length_nil]
        rw [show (0 + 1 + 1) = 2 by rfl, hd0]
        simpa using hab⟩
      rw [hv, hother v hv]

namespace Map32

theorem delete_lookup_self {β : Type} (m : Map32 β) (k : Int) : (delete m k).lookup k = none := by
  induction m with
  | nil => rfl
  | cons p rest ih =>
    obtain ⟨k', v⟩ := p
    unfold delete at ih ⊢
    by_cases h : k' = k
    · subst h
      simpa [List.filter_cons] using ih
    · simpa [List.filter_cons, h, lookup] using ih

theorem delete_lookup_ne {β : Type} (m : Map32 β) {k k' : Int} (hne : k' ≠ k) :
    (delete m k).lookup k' = m.lookup k' := by
  induction m with
  | nil => rfl
  | cons p rest ih =>
    obtain ⟨k₀, v⟩ := p
    unfold delete at ih ⊢
    by_cases h : k₀ = k
    · subst h
      have h' : ¬ k₀ = k' := fun e => hne e.symm
      simpa [List.filter_cons, lookup, h'] using ih
    · by_cases h2 : k₀ = k'
      · subst h2
        simp [List.filter_cons, h, lookup]
      · simpa [List.filter_cons, h, lookup, h2] using ih

theorem store_lookup_self {β : Type} (m : Map32 β) (k : Int) (v : β) :
    (store m k v).lookup k = some v := by
  simp [store, lookup]

theorem store_lookup_ne {β : Type} (m : Map32 β) {k k' : Int} (v : β) (hne : k' ≠ k) :
    (store m k v).lookup k' = m.lookup k' := by
  have h : k ≠ k' := fun e => hne e.symm
  simp [store, lookup, h, delete_lookup_ne m hne]

theorem eq_nil_of_lookup_none {β : Type} (m : Map32 β) (h : ∀ k, m.lookup k = none) : m = [] := by
  cases m with
  | nil => rfl
  | cons p rest =>
    obtain ⟨k, v⟩ := p
    have := h k
    simp [lookup] at this

end Map32

/-! ### Single operations of a UE -/

theorem idle_ne_connected : CmStateIdle ≠ CmStateConnected := by decide

theorem ReleasePduSession_frame (ue ue' : Ue) (al al' : utils.IPAllocator) (sessionId now : Int)
    (msgs : List SendCall) (h : ue.ReleasePduSession al sessionId now = some (ue', al', msgs)) :
    al' = (utils.ReleaseIP al ue.Imsi sessionId).2 ∧
    (ue' = ue ∨ ue' = { ue with PduSessions := ue.PduSessions.delete sessionId }) := by
  unfold Ue.ReleasePduSession at h
  split at h
  · rename_i e al₁ heq
    injection h with h
    injection h with h1 h2
    injection h2 with h2 h3
    rw [heq]
    exact ⟨h2.symm, Or.inl h1.symm⟩
  · rename_i u al₁ heq
    split at h
    · cases h
    · injection h with h
      injection h with h1 h2
      injection h2 with h2 h3
      rw [heq]
      exact ⟨h2.symm, Or.inr h1.symm⟩

theorem releaseLoop_status (now : Int) : ∀ (is : List Nat) (ue ue' : Ue)
    (al al' : utils.IPAllocator) (sent msgs : List SendCall),
    releaseLoop now is (ue, al, sent) = some (ue', al', msgs) →
    ue'.RmStatus = ue.RmStatus ∧ ue'.CmStatus = ue.CmStatus ∧ ue'.Imsi = ue.Imsi ∧
    ue'.ctxDone = ue.ctxDone ∧ ue'.UpStats = ue.UpStats := by
  intro is
  induction is with
  | nil =>
    intro ue ue' al al' sent msgs h
    simp only [releaseLoop, Option.some.injEq, Prod.mk.injEq] at h
    rw [← h.1]
    exact ⟨rfl, rfl, rfl, rfl, rfl⟩
  | cons i rest ih =>
    intro ue ue' al al' sent msgs h
    simp only [releaseLoop] at h
    split at h
    · cases h
    · rename_i ue₁ al₁ msgs₁ heq
      obtain ⟨_, hue⟩ := ReleasePduSession_frame _ _ _ _ _ _ _ heq
      have := ih _ _ _ _ _ _ h
      rcases hue with rfl | rfl
      · exact this
      · exact this

/-- C13: `CM = Connected` implies `RM = Registered` holds for a UE returned by
`NewUserEquipment` and, for all arguments, after each operation of a UE on
which it held before: `Register`, `Attach`, `LossOfConnection`, `NewPduSession`,
`ReleasePduSession`, `Sleep`, `WakeUp`, `DoHandover`, `TurnOff`, a firing of the
inactivity monitor and a traffic packet. -/
theorem connected_implies_registered :
    (∀ (parentDone : Bool) (cfg : UeConfig) (simulationId : String) (gnbs : List String)
        (now : Int),
      (NewUserEquipment parentDone cfg simulationId gnbs now).CmStatus = CmStateConnected →
      (NewUserEquipment parentDone cfg simulationId gnbs now).RmStatus = RmStateRegistered) ∧
    (∀ (op : Op) (ue ue' : Ue) (al al' : utils.IPAllocator) (now : Int) (msgs : List SendCall),
      (ue.CmStatus = CmStateConnected → ue.RmStatus = RmStateRegistered) →
      applyOp op ue al now = some (ue', al', msgs) →
      (ue'.CmStatus = CmStateConnected → ue'.RmStatus = RmStateRegistered)) := by
  constructor
  · intro parentDone cfg simulationId gnbs now h
    exact absurd h idle_ne_connected
  · intro op ue ue' al al' now msgs hinv h
    cases op with
    | Register draws =>
      simp only [applyOp, Ue.Register] at h
      split at h
      · simp at h
      · simp only [Option.map_some', Option.some.injEq, Prod.mk.injEq] at h
        rw [← h.1]
        intro _
        rfl
    | Attach inactivityTimer =>
      simp only [applyOp, Ue.Attach, Option.some.injEq, Prod.mk.injEq] at h
      rw [← h.1]
      split
      · exact hinv
      · rename_i hreg
        intro _
        exact not_not.1 hreg
    | LossOfConnection isGracefully =>
      simp only [applyOp, Ue.LossOfConnection] at h
      obtain ⟨h1, h2, _⟩ := releaseLoop_status _ _ _ _ _ _ _ _ h
      intro hc
      rw [h2] at hc
      exact absurd hc idle_ne_connected
    | NewPduSession sessionId dnn snssai enableReport =>
      simp only [applyOp, Ue.NewPduSession, Option.some.injEq] at h
      split at h
      · simp only [Prod.mk.injEq] at h
        rw [← h.1]
        exact hinv
      · split at h
        · simp only [Prod.mk.injEq] at h
          rw [← h.1]
          exact hinv
        · simp only [Prod.mk.injEq] at h
          rw [← h.1]
          split <;> exact hinv
    | ReleasePduSession sessionId =>
      simp only [applyOp] at h
      obtain ⟨_, hue⟩ := ReleasePduSession_frame _ _ _ _ _ _ _ h
      rcases hue with rfl | rfl <;> exact hinv
    | Sleep force =>
      simp only [applyOp, Ue.Sleep, Option.some.injEq, Prod.mk.injEq] at h
      rw [← h.1]
      intro hc
      exact absurd hc idle_ne_connected
    | WakeUp isPaging =>
      simp only [applyOp, Ue.WakeUp, Option.some.injEq, Prod.mk.injEq] at h
      rw [← h.1]
      split
      · exact hinv
      · rename_i hreg
        split
        · intro _
          exact not_not.1 hreg
        · exact hinv
    | DoHandover targetCellId =>
      simp only [applyOp, Ue.DoHandover, Option.some.injEq, Prod.mk.injEq] at h
      rw [← h.1]
      exact hinv
    | TurnOff isGracefully =>
      simp only [applyOp, Ue.TurnOff, Ue.LossOfConnection] at h
      obtain ⟨h1, h2, _⟩ := releaseLoop_status _ _ _ _ _ _ _ _ h
      intro hc
      rw [h2] at hc
      exact absurd hc idle_ne_connected
    | inactivityMonitorFire inactivityTimer =>
      simp only [applyOp, Ue.inactivityMonitorFire, Option.some.injEq, Prod.mk.injEq] at h
      rw [← h.1]
      split
      · intro hc
        exact absurd hc idle_ne_connected
      · exact hinv
    | trafficPacket sessionId ul size =>
      simp only [applyOp, Ue.trafficPacket, Option.some.injEq, Prod.mk.injEq] at h
      rw [← h.1]
      have hw : ((ue.WakeUp false now).1.CmStatus = CmStateConnected →
          (ue.WakeUp false now).1.RmStatus = RmStateRegistered) := by
        simp only [Ue.WakeUp]
        split
        · exact hinv
        · rename_i hreg
          split
          · intro _
            exact not_not.1 hreg
          · exact hinv
      split <;> exact hw


theorem pickRandomNRCellID_returns (ue : Ue) (draws : List Nat)
    (h : ue.gnbList.length ≤ 1 ∨
      ∃ d ∈ draws, ue.gnbList.getD (d % ue.gnbList.length) "" ≠ ue.CurrentCellId) :
    ∃ cell, ue.pickRandomNRCellID draws = some cell := by
  unfold Ue.pickRandomNRCellID
  by_cases hl : ue.gnbList.length ≤ 1
  · rw [if_pos hl]
    exact ⟨_, rfl⟩
  · rw [if_neg hl]
    rcases h with h | h
    · exact absurd h hl
    · exact pickLoop_returns _ _ draws h

/-- C19: in every UE state, with draws that let the cell selection end (at most
one cell in the list, or a draw that selects a cell other than the current
one), `Register` returns, sets `RM = Registered`, leaves CM and the PDU
sessions as they were and sends exactly two messages to the AMF, a
REGISTRATION_STATE_REPORT and then a LOCATION_REPORT, both with
`RM = Registered` and the newly selected cell id. -/
theorem Register_spec (ue : Ue) (draws : List Nat) (now : Int)
    (h : ue.gnbList.length ≤ 1 ∨
      ∃ d ∈ draws, ue.gnbList.getD (d % ue.gnbList.length) "" ≠ ue.CurrentCellId) :
    ∃ (ue' : Ue) (cell : String) (m₁ m₂ : UeToAmfMsg),
      ue.pickRandomNRCellID draws = some cell ∧
      ue.Register draws now = some (ue',
        [ { sender := ue.Imsi, recipient := "AMF", msgType := UeToAmfType,
            payload := Payload.UeToAmf m₁ },
          { sender := ue.Imsi, recipient := "AMF", msgType := UeToAmfType,
            payload := Payload.UeToAmf m₂ } ]) ∧
      ue'.RmStatus = RmStateRegistered ∧ ue'.CmStatus = ue.CmStatus ∧
      ue'.PduSessions = ue.PduSessions ∧ ue'.CurrentCellId = cell ∧
      m₁.EventType = AMFEVENTTYPEANYOF_REGISTRATION_STATE_REPORT ∧
      m₁.RmState = RmStateRegistered ∧ m₁.CurrentCellId = cell ∧
      m₂.EventType = AMFEVENTTYPEANYOF_LOCATION_REPORT ∧
      m₂.RmState = RmStateRegistered ∧ m₂.CurrentCellId = cell := by
  obtain ⟨cell, hcell⟩ := pickRandomNRCellID_returns ue draws h
  refine ⟨{ ue with CurrentCellId := cell, RmStatus := RmStateRegistered }, cell,
    ⟨AMFEVENTTYPEANYOF_REGISTRATION_STATE_REPORT, now, RmStateRegistered, ue.CmStatus, ue.Imsi,
      ue.Msidn, ue.PlmnId, cell, ue.accessType⟩,
    ⟨AMFEVENTTYPEANYOF_LOCATION_REPORT, now, RmStateRegistered, ue.CmStatus, ue.Imsi,
      ue.Msidn, ue.PlmnId, cell, ue.accessType⟩, hcell, ?_, rfl, rfl, rfl, rfl, rfl, rfl, rfl,
    rfl, rfl, rfl⟩
  simp only [Ue.Register, hcell, amfMsg]


/-- Witness of C19: a fresh UE with two cells; the draw 1 selects the second. -/
theorem Register_spec_witness :
    ∃ (ue' : Ue) (cell : String) (m₁ m₂ : UeToAmfMsg),
      (NewUserEquipment false
        ⟨"208950000000001", "+33612345678", "352099001761481", "internet", ⟨1, "000001"⟩,
          "Smartphone", ⟨"208", "95"⟩⟩ "sim" ["000000000", "000000001"] 0).pickRandomNRCellID [1]
        = some cell ∧
      (NewUserEquipment false
        ⟨"208950000000001", "+33612345678", "352099001761481", "internet", ⟨1, "000001"⟩,
          "Smartphone", ⟨"208", "95"⟩⟩ "sim" ["000000000", "000000001"] 0).Register [1] 5
        = some (ue',
          [ { sender := "208950000000001", recipient := "AMF", msgType := UeToAmfType,
              payload := Payload.UeToAmf m₁ },
            { sender := "208950000000001", recipient := "AMF", msgType := UeToAmfType,
              payload := Payload.UeToAmf m₂ } ]) ∧
      ue'.RmStatus = RmStateRegistered ∧ ue'.CmStatus = CmStateIdle ∧
      ue'.PduSessions = [] ∧ ue'.CurrentCellId = cell ∧
      m₁.EventType = AMFEVENTTYPEANYOF_REGISTRATION_STATE_REPORT ∧
      m₁.RmState = RmStateRegistered ∧ m₁.CurrentCellId = cell ∧
      m₂.EventType = AMFEVENTTYPEANYOF_LOCATION_REPORT ∧
      m₂.RmState = RmStateRegistered ∧ m₂.CurrentCellId = cell :=
  Register_spec (NewUserEquipment false
    ⟨"208950000000001", "+33612345678", "352099001761481", "internet", ⟨1, "000001"⟩,
      "Smartphone", ⟨"208", "95"⟩⟩ "sim" ["000000000", "000000001"] 0) [1] 5
    (Or.inr ⟨1, by decide, by decide⟩)

/-- C20: `NewPduSession` establishes a session only when the UE is connected and
the allocator succeeds. If CM is not Connected or `AllocateIP` fails, the PDU
sessions, the UpStats map and the allocator are unchanged and nothing is sent.
Otherwise entry `sessionId` of the session map is the session with the address
that the allocator returned, the other entries are unchanged, and exactly one
message is sent, to the SMF, a PDU_SES_EST with that address, the session id
and the session type IPV4. -/
theorem NewPduSession_spec (ue : Ue) (al : utils.IPAllocator) (sessionId : Int) (dnn : String)
    (snssai : Snssai) (enableReport : Bool) (now : Int) :
    ((ue.CmStatus ≠ CmStateConnected ∨
        ∃ e, (utils.AllocateIP al ue.Imsi sessionId).1 = Except.error e) →
      (ue.NewPduSession al sessionId dnn snssai enableReport now).1.PduSessions
        = ue.PduSessions ∧
      (ue.NewPduSession al sessionId dnn snssai enableReport now).1.UpStats = ue.UpStats ∧
      (ue.NewPduSession al sessionId dnn snssai enableReport now).2.1 = al ∧
      (ue.NewPduSession al sessionId dnn snssai enableReport now).2.2 = []) ∧
    (ue.CmStatus = CmStateConnected →
      ∀ ip, (utils.AllocateIP al ue.Imsi sessionId).1 = Except.ok ip →
        (ue.NewPduSession al sessionId dnn snssai enableReport now).1.PduSessions.lookup
          sessionId = some { Id := sessionId, Ipv4 := ip, Snssai := snssai, Dnn := dnn } ∧
        (∀ k, k ≠ sessionId →
          (ue.NewPduSession al sessionId dnn snssai enableReport now).1.PduSessions.lookup k
            = ue.PduSessions.lookup k) ∧
        (ue.NewPduSession al sessionId dnn snssai enableReport now).2.1
          = (utils.AllocateIP al ue.Imsi sessionId).2 ∧
        ∃ m : UeToSmfMsg,
          (ue.NewPduSession al sessionId dnn snssai enableReport now).2.2
            = [ { sender := ue.Imsi, recipient := "SMF", msgType := UeToSmfType,
                  payload := Payload.UeToSmf m } ] ∧
          m.EventType = SMFEVENTANYOF_PDU_SES_EST ∧ m.UeAddress = ip ∧
          m.PduSessId = sessionId ∧ m.PduSessType = PDUSESSIONTYPEANYOF_IPV4) := by
  constructor
  · intro h
    unfold Ue.NewPduSession
    by_cases hc : ue.CmStatus = CmStateConnected
    · rcases h with h | ⟨e, he⟩
      · exact absurd hc h
      · have hal : (utils.AllocateIP al ue.Imsi sessionId).2 = al := by
          unfold utils.AllocateIP at he ⊢
          cases hl : al.allocated.lookup (utils.userString ue.Imsi sessionId) with
          | some x => simp [hl] at he ⊢
          | none =>
            cases hf : al.availableIPs with
            | nil => simp [hl, hf]
            | cons x rest => simp [hl, hf] at he
        simp only [hc, ne_eq, not_true_eq_false, if_false]
        split
        · rename_i e' al' heq
          have : al' = al := by rw [← hal, heq]
          subst this
          exact ⟨rfl, rfl, rfl, rfl⟩
        · rename_i ip al' heq
          rw [heq] at he
          cases he
    · simp [hc]
  · intro hc ip hip
    unfold Ue.NewPduSession
    simp only [hc, ne_eq, not_true_eq_false, if_false]
    split
    · rename_i e al' heq
      rw [heq] at hip
      cases hip
    · rename_i ip' al' heq
      rw [heq] at hip
      injection hip with hip
      subst hip
      refine ⟨?_, ?_, ?_, ?_⟩
      · cases enableReport <;> exact Map32.store_lookup_self _ _ _
      · intro k hk
        cases enableReport <;> exact Map32.store_lookup_ne _ _ hk
      · rw [heq]
      · exact ⟨_, rfl, rfl, rfl, rfl, rfl⟩

end ran

/-! ## Sessions and the allocator -/

namespace utils

theorem formatInt_injective {i j : Int} (h : formatInt i = formatInt j) : i = j := by
  cases i with
  | ofNat m =>
    cases j with
    | ofNat n =>
      have := repr_injective (m := m) (n := n) h
      rw [this]
    | negSucc n =>
      exfalso
      have hd := congrArg String.data h
      simp only [formatInt, String.data_append] at hd
      have hm : '-' ∈ (Nat.repr m).data := by rw [hd]; simp
      exact repr_no_hyphen m hm
  | negSucc m =>
    cases j with
    | ofNat n =>
      exfalso
      have hd := congrArg String.data h
      simp only [formatInt, String.data_append] at hd
      have hm : '-' ∈ (Nat.repr n).data := by rw [← hd]; simp
      exact repr_no_hyphen n hm
    | negSucc n =>
      have hd := congrArg String.data h
      simp only [formatInt, String.data_append] at hd
      have hd' : (Nat.repr (m + 1)).data = (Nat.repr (n + 1)).data := by
        simpa using hd
      have := repr_injective (String.ext hd')
      have hmn : m = n := by omega
      rw [hmn]

theorem userString_id_injective (supi : String) {i j : Int}
    (h : userString supi i = userString supi j) : i = j := by
  have hd := congrArg String.data h
  simp only [userString_data] at hd
  have := List.append_cancel_left hd
  injection this with _ this
  exact formatInt_injective (String.ext this)

theorem userString_supi_injective {s₁ s₂ : String} (h₁ : '-' ∉ s₁.data) (h₂ : '-' ∉ s₂.data)
    {i j : Int} (h : userString s₁ i = userString s₂ j) : s₁ = s₂ := by
  have hd := congrArg String.data h
  simp only [userString_data] at hd
  exact String.ext (append_sep_inj _ _ _ _ _ h₁ h₂ hd).1

end utils

namespace ran
open models

theorem ReleasePduSession_cases (ue : Ue) (al : utils.IPAllocator) (sessionId now : Int) :
    (al.allocated.lookup (utils.userString ue.Imsi sessionId) = none ∧
      ue.ReleasePduSession al sessionId now = some (ue, al, [])) ∨
    (∃ ip, al.allocated.lookup (utils.userString ue.Imsi sessionId) = some ip ∧
      ue.PduSessions.lookup sessionId = none ∧
      ue.ReleasePduSession al sessionId now = none) ∨
    (∃ ip sess, al.allocated.lookup (utils.userString ue.Imsi sessionId) = some ip ∧
      ue.PduSessions.lookup sessionId = some sess ∧
      ue.ReleasePduSession al sessionId now
        = some ({ ue with PduSessions := ue.PduSessions.delete sessionId },
            { availableIPs := ip :: al.availableIPs
              allocated := al.allocated.delete (utils.userString ue.Imsi sessionId)
              ipToUser := al.ipToUser.delete ip },
            [smfMsg ue SMFEVENTANYOF_PDU_SES_REL sess.Dnn sess.Snssai sess.Ipv4 sessionId
              now])) := by
  unfold Ue.ReleasePduSession utils.ReleaseIP
  cases hl : al.allocated.lookup (utils.userString ue.Imsi sessionId) with
  | none =>
    left
    simp [hl]
  | some ip =>
    right
    cases hs : ue.PduSessions.lookup sessionId with
    | none =>
      left
      exact ⟨ip, rfl, rfl, by simp [hl, hs]⟩
    | some sess =>
      right
      refine ⟨ip, sess, rfl, rfl, ?_⟩
      simp only [hl, hs, List.singleton_append]

theorem ReleasePduSession_bound (ue ue' : Ue) (al al' : utils.IPAllocator)
    (sessionId now : Int) (msgs : List SendCall)
    (h : ue.ReleasePduSession al sessionId now = some (ue', al', msgs))
    (hc : ue.sessionsBound al) :
    ue'.sessionsBound al' ∧ ue'.Imsi = ue.Imsi ∧
    (∀ k, k ≠ utils.userString ue.Imsi sessionId →
      al'.allocated.lookup k = al.allocated.lookup k) := by
  rcases ReleasePduSession_cases ue al sessionId now with
    ⟨_, hr⟩ | ⟨ip, _, _, hr⟩ | ⟨ip, sess, hl, hs, hr⟩
  · rw [hr] at h
    simp only [Option.some.injEq, Prod.mk.injEq] at h
    obtain ⟨rfl, rfl, _⟩ := h
    exact ⟨hc, rfl, fun _ _ => rfl⟩
  · rw [hr] at h
    cases h
  · rw [hr] at h
    simp only [Option.some.injEq, Prod.mk.injEq] at h
    obtain ⟨rfl, rfl, _⟩ := h
    refine ⟨⟨?_, ?_⟩, rfl, ?_⟩
    · intro id s hid
      have hne : id ≠ sessionId := by
        intro e
        rw [e] at hid
        simp only [Map32.delete_lookup_self] at hid
        cases hid
      simp only [Map32.delete_lookup_ne _ hne] at hid
      obtain ⟨h0, h31, hb⟩ := hc.1 id s hid
      refine ⟨h0, h31, ?_⟩
      have hk : utils.userString ue.Imsi id ≠ utils.userString ue.Imsi sessionId :=
        fun e => hne (utils.userString_id_injective _ e)
      simp only [utils.GoMap.lookup_delete_ne _ hk]
      exact hb
    · intro id hid
      by_cases hne : id = sessionId
      · subst hne
        exact utils.GoMap.lookup_delete_self _ _
      · simp only [Map32.delete_lookup_ne _ hne] at hid
        have hk : utils.userString ue.Imsi id ≠ utils.userString ue.Imsi sessionId :=
          fun e => hne (utils.userString_id_injective _ e)
        simp only [utils.GoMap.lookup_delete_ne _ hk]
        exact hc.2 id hid
    · intro k hk
      exact utils.GoMap.lookup_delete_ne _ hk

theorem ReleasePduSession_Inv (ue ue' : Ue) (al al' : utils.IPAllocator)
    (sessionId now : Int) (msgs : List SendCall)
    (h : ue.ReleasePduSession al sessionId now = some (ue', al', msgs))
    (hI : utils.Inv al) : utils.Inv al' := by
  have := (ReleasePduSession_frame ue ue' al al' sessionId now msgs h).1
  rw [this]
  exact utils.Inv_ReleaseIP al ue.Imsi sessionId hI


theorem NewPduSession_cases (ue : Ue) (al : utils.IPAllocator) (sessionId : Int) (dnn : String)
    (snssai : Snssai) (enableReport : Bool) (now : Int) :
    ((ue.NewPduSession al sessionId dnn snssai enableReport now).1.PduSessions = ue.PduSessions ∧
      (ue.NewPduSession al sessionId dnn snssai enableReport now).2.1 = al) ∨
    (∃ ip, (utils.AllocateIP al ue.Imsi sessionId).1 = Except.ok ip ∧
      (ue.NewPduSession al sessionId dnn snssai enableReport now).1.PduSessions
        = ue.PduSessions.store sessionId
            { Id := sessionId, Ipv4 := ip, Snssai := snssai, Dnn := dnn } ∧
      (ue.NewPduSession al sessionId dnn snssai enableReport now).2.1
        = (utils.AllocateIP al ue.Imsi sessionId).2) := by
  unfold Ue.NewPduSession
  by_cases hc : ue.CmStatus = CmStateConnected
  · simp only [hc, ne_eq, not_true_eq_false, if_false]
    split
    · rename_i e al' heq
      left
      refine ⟨rfl, ?_⟩
      have hal : (utils.AllocateIP al ue.Imsi sessionId).2 = al := by
        have he : (utils.AllocateIP al ue.Imsi sessionId).1 = Except.error e := by rw [heq]
        unfold utils.AllocateIP at he ⊢
        cases hl : al.allocated.lookup (utils.userString ue.Imsi sessionId) with
        | some x => simp [hl] at he ⊢
        | none =>
          cases hf : al.availableIPs with
          | nil => simp [hl, hf]
          | cons x rest => simp [hl, hf] at he
      rw [← hal, heq]
    · rename_i ip al' heq
      right
      refine ⟨ip, by rw [heq], ?_, by rw [heq]⟩
      cases enableReport <;> rfl
  · left
    simp [hc]

theorem NewPduSession_Imsi (ue : Ue) (al : utils.IPAllocator) (sessionId : Int) (dnn : String)
    (snssai : Snssai) (enableReport : Bool) (now : Int) :
    (ue.NewPduSession al sessionId dnn snssai enableReport now).1.Imsi = ue.Imsi := by
  unfold Ue.NewPduSession
  by_cases hc : ue.CmStatus = CmStateConnected
  · simp only [hc, ne_eq, not_true_eq_false, if_false]
    cases utils.AllocateIP al ue.Imsi sessionId with
    | mk r al' =>
      cases r with
      | error e => rfl
      | ok ip => cases enableReport <;> rfl
  · simp [hc]

theorem AllocateIP_allocated (al : utils.IPAllocator) (supi : String) (pduSessId : Int)
    (ip : String) (h : (utils.AllocateIP al supi pduSessId).1 = Except.ok ip) :
    (utils.AllocateIP al supi pduSessId).2.allocated.lookup (utils.userString supi pduSessId)
      = some ip ∧
    ∀ k, k ≠ utils.userString supi pduSessId →
      (utils.AllocateIP al supi pduSessId).2.allocated.lookup k = al.allocated.lookup k := by
  refine ⟨utils.AllocateIP_ok_lookup al supi pduSessId ip h, ?_⟩
  intro k hk
  unfold utils.AllocateIP
  cases hl : al.allocated.lookup (utils.userString supi pduSessId) with
  | some x => simp [hl]
  | none =>
    cases hf : al.availableIPs with
    | nil => simp [hl]
    | cons x rest =>
      simp only [hl]
      exact utils.GoMap.lookup_store_ne _ _ hk

theorem NewPduSession_bound (ue : Ue) (al : utils.IPAllocator) (sessionId : Int) (dnn : String)
    (snssai : Snssai) (enableReport : Bool) (now : Int)
    (hid : 0 < sessionId ∧ sessionId < 2 ^ 31) (hc : ue.sessionsBound al) :
    (ue.NewPduSession al sessionId dnn snssai enableReport now).1.sessionsBound
      (ue.NewPduSession al sessionId dnn snssai enableReport now).2.1 ∧
    (∀ k, k ≠ utils.userString ue.Imsi sessionId →
      (ue.NewPduSession al sessionId dnn snssai enableReport now).2.1.allocated.lookup k
        = al.allocated.lookup k) := by
  have hImsi := NewPduSession_Imsi ue al sessionId dnn snssai enableReport now
  rcases NewPduSession_cases ue al sessionId dnn snssai enableReport now with
    ⟨h1, h2⟩ | ⟨ip, hip, h1, h2⟩
  · unfold Ue.sessionsBound
    rw [h1, h2, hImsi]
    exact ⟨hc, fun _ _ => rfl⟩
  · obtain ⟨hself, hother⟩ := AllocateIP_allocated al ue.Imsi sessionId ip hip
    unfold Ue.sessionsBound
    rw [h1, h2, hImsi]
    refine ⟨⟨?_, ?_⟩, hother⟩
    · intro id s hs
      by_cases hne : id = sessionId
      · subst hne
        rw [Map32.store_lookup_self] at hs
        injection hs with hs
        subst hs
        exact ⟨hid.1, hid.2, hself⟩
      · rw [Map32.store_lookup_ne _ _ hne] at hs
        obtain ⟨h0, h31, hb⟩ := hc.1 id s hs
        refine ⟨h0, h31, ?_⟩
        rw [hother _ (fun e => hne (utils.userString_id_injective _ e))]
        exact hb
    · intro id hs
      by_cases hne : id = sessionId
      · subst hne
        rw [Map32.store_lookup_self] at hs
        cases hs
      · rw [Map32.store_lookup_ne _ _ hne] at hs
        rw [hother _ (fun e => hne (utils.userString_id_injective _ e))]
        exact hc.2 id hs


theorem sessionsBound_congr {ue₁ ue₂ : Ue} (al : utils.IPAllocator)
    (hs : ue₂.PduSessions = ue₁.PduSessions) (hi : ue₂.Imsi = ue₁.Imsi)
    (h : ue₁.sessionsBound al) : ue₂.sessionsBound al := by
  unfold Ue.sessionsBound at h ⊢
  rw [hs, hi]
  exact h

theorem releaseLoop_bound (now : Int) : ∀ (is : List Nat) (ue ue' : Ue)
    (al al' : utils.IPAllocator) (sent msgs : List SendCall),
    releaseLoop now is (ue, al, sent) = some (ue', al', msgs) →
    ue.sessionsBound al → utils.Inv al →
    ue'.sessionsBound al' ∧ utils.Inv al' ∧ ue'.Imsi = ue.Imsi ∧
    (∀ k, (∀ id, k ≠ utils.userString ue.Imsi id) →
      al'.allocated.lookup k = al.allocated.lookup k) := by
  intro is
  induction is with
  | nil =>
    intro ue ue' al al' sent msgs h hc hI
    simp only [releaseLoop, Option.some.injEq, Prod.mk.injEq] at h
    obtain ⟨rfl, rfl, _⟩ := h
    exact ⟨hc, hI, rfl, fun _ _ => rfl⟩
  | cons i rest ih =>
    intro ue ue' al al' sent msgs h hc hI
    simp only [releaseLoop] at h
    split at h
    · cases h
    · rename_i ue₁ al₁ msgs₁ heq
      obtain ⟨hc₁, hImsi₁, hfr₁⟩ := ReleasePduSession_bound _ _ _ _ _ _ _ heq hc
      have hI₁ := ReleasePduSession_Inv _ _ _ _ _ _ _ heq hI
      obtain ⟨hc', hI', hImsi', hfr'⟩ := ih _ _ _ _ _ _ h hc₁ hI₁
      refine ⟨hc', hI', by rw [hImsi', hImsi₁], ?_⟩
      intro k hk
      rw [hfr' k (by rw [hImsi₁]; exact hk), hfr₁ k (hk _)]

theorem LossOfConnection_bound (ue ue' : Ue) (al al' : utils.IPAllocator) (isGracefully : Bool)
    (now : Int) (msgs : List SendCall)
    (h : ue.LossOfConnection al isGracefully now = some (ue', al', msgs))
    (hc : ue.sessionsBound al) (hI : utils.Inv al) :
    ue'.sessionsBound al' ∧ utils.Inv al' ∧ ue'.Imsi = ue.Imsi ∧
    (∀ k, (∀ id, k ≠ utils.userString ue.Imsi id) →
      al'.allocated.lookup k = al.allocated.lookup k) := by
  simp only [Ue.LossOfConnection] at h
  have key := releaseLoop_bound now _ _ _ _ _ _ _ h (sessionsBound_congr al rfl rfl hc) hI
  exact key

/-- Every operation keeps the sessions of its UE consistent with the allocator,
keeps the allocator consistent and touches only keys of its own SUPI. -/
theorem applyOp_bound (op : Op) (ue ue' : Ue) (al al' : utils.IPAllocator) (now : Int)
    (msgs : List SendCall) (hop : op.positiveIds)
    (h : applyOp op ue al now = some (ue', al', msgs))
    (hc : ue.sessionsBound al) (hI : utils.Inv al) :
    ue'.sessionsBound al' ∧ utils.Inv al' ∧ ue'.Imsi = ue.Imsi ∧
    (∀ k, (∀ id, k ≠ utils.userString ue.Imsi id) →
      al'.allocated.lookup k = al.allocated.lookup k) := by
  cases op with
  | Register draws =>
    simp only [applyOp, Ue.Register] at h
    split at h
    · simp at h
    · simp only [Option.map_some', Option.some.injEq, Prod.mk.injEq] at h
      obtain ⟨rfl, rfl, _⟩ := h
      exact ⟨sessionsBound_congr al rfl rfl hc, hI, rfl, fun _ _ => rfl⟩
  | Attach inactivityTimer =>
    simp only [applyOp, Ue.Attach, Option.some.injEq, Prod.mk.injEq] at h
    obtain ⟨rfl, rfl, _⟩ := h
    refine ⟨?_, hI, ?_, fun _ _ => rfl⟩
    · split
      · exact hc
      · exact sessionsBound_congr al rfl rfl hc
    · split <;> rfl
  | LossOfConnection isGracefully =>
    exact LossOfConnection_bound ue ue' al al' isGracefully now msgs h hc hI
  | NewPduSession sessionId dnn snssai enableReport =>
    simp only [applyOp, Option.some.injEq] at h
    have hb := NewPduSession_bound ue al sessionId dnn snssai enableReport now hop hc
    have hImsi := NewPduSession_Imsi ue al sessionId dnn snssai enableReport now
    have hInv : utils.Inv (ue.NewPduSession al sessionId dnn snssai enableReport now).2.1 := by
      rcases NewPduSession_cases ue al sessionId dnn snssai enableReport now with
        ⟨_, h2⟩ | ⟨ip, _, _, h2⟩
      · rw [h2]
        exact hI
      · rw [h2]
        exact utils.Inv_AllocateIP al ue.Imsi sessionId hI
    rw [h] at hb hImsi hInv
    exact ⟨hb.1, hInv, hImsi, fun k hk => hb.2 k (hk _)⟩
  | ReleasePduSession sessionId =>
    simp only [applyOp] at h
    obtain ⟨hc', hImsi, hfr⟩ := ReleasePduSession_bound _ _ _ _ _ _ _ h hc
    exact ⟨hc', ReleasePduSession_Inv _ _ _ _ _ _ _ h hI, hImsi, fun k hk => hfr k (hk _)⟩
  | Sleep force =>
    simp only [applyOp, Ue.Sleep, Option.some.injEq, Prod.mk.injEq] at h
    obtain ⟨rfl, rfl, _⟩ := h
    exact ⟨sessionsBound_congr al rfl rfl hc, hI, rfl, fun _ _ => rfl⟩
  | WakeUp isPaging =>
    simp only [applyOp, Ue.WakeUp, Option.some.injEq, Prod.mk.injEq] at h
    obtain ⟨rfl, rfl, _⟩ := h
    refine ⟨?_, hI, ?_, fun _ _ => rfl⟩
    · split
      · exact hc
      · split
        · exact sessionsBound_congr al rfl rfl hc
        · exact hc
    · split
      · rfl
      · split <;> rfl
  | DoHandover targetCellId =>
    simp only [applyOp, Ue.DoHandover, Option.some.injEq, Prod.mk.injEq] at h
    obtain ⟨rfl, rfl, _⟩ := h
    exact ⟨sessionsBound_congr al rfl rfl hc, hI, rfl, fun _ _ => rfl⟩
  | TurnOff isGracefully =>
    simp only [applyOp, Ue.TurnOff] at h
    have key := LossOfConnection_bound _ _ _ _ _ _ _ h (sessionsBound_congr al rfl rfl hc) hI
    exact key
  | inactivityMonitorFire inactivityTimer =>
    simp only [applyOp, Ue.inactivityMonitorFire, Option.some.injEq, Prod.mk.injEq] at h
    obtain ⟨rfl, rfl, _⟩ := h
    refine ⟨?_, hI, ?_, fun _ _ => rfl⟩
    · split
      · exact sessionsBound_congr al rfl rfl hc
      · exact hc
    · split <;> rfl
  | trafficPacket sessionId ul size =>
    simp only [applyOp, Ue.trafficPacket, Option.some.injEq, Prod.mk.injEq] at h
    obtain ⟨rfl, rfl, _⟩ := h
    have hw : (ue.WakeUp false now).1.PduSessions = ue.PduSessions ∧
        (ue.WakeUp false now).1.Imsi = ue.Imsi := by
      simp only [Ue.WakeUp]
      split
      · exact ⟨rfl, rfl⟩
      · split <;> exact ⟨rfl, rfl⟩
    refine ⟨?_, hI, ?_, fun _ _ => rfl⟩
    · split <;> exact sessionsBound_congr al hw.1 hw.2 hc
    · split <;> exact hw.2


/-! ### UEs on a shared allocator -/

theorem sessionsBound_of_frame (u : Ue) (al al' : utils.IPAllocator)
    (hfr : ∀ id, al'.allocated.lookup (utils.userString u.Imsi id)
      = al.allocated.lookup (utils.userString u.Imsi id))
    (h : u.sessionsBound al) : u.sessionsBound al' := by
  unfold Ue.sessionsBound at h ⊢
  refine ⟨?_, ?_⟩
  · intro id s hs
    rw [hfr]
    exact h.1 id s hs
  · intro id hs
    rw [hfr]
    exact h.2 id hs

theorem Reachable_consistent (p : Population) (h : Population.Reachable p) :
    utils.Inv p.ipam ∧
    (∀ (i j : Nat) (u₁ u₂ : Ue), p.UeList[i]? = some u₁ → p.UeList[j]? = some u₂ →
      u₁.Imsi = u₂.Imsi → i = j) ∧
    (∀ (i : Nat) (u : Ue), p.UeList[i]? = some u →
      '-' ∉ u.Imsi.data ∧ u.sessionsBound p.ipam) := by
  induction h with
  | init fuel a b c d ones al cfgs simulationId gnbs now ha hb hc hd hones hal hdistinct
      hhyphen =>
    obtain ⟨_, hal'⟩ := utils.Reachable_init_eq fuel a b c d ones al ha hb hc hd hones hal
    refine ⟨utils.Reachable_Inv al (utils.Reachable.init fuel a b c d ones al ha hb hc hd hones
      hal), ?_, ?_⟩
    · intro i j u₁ u₂ h₁ h₂ he
      simp only [List.getElem?_map, Option.map_eq_some'] at h₁ h₂
      obtain ⟨c₁, hc₁, rfl⟩ := h₁
      obtain ⟨c₂, hc₂, rfl⟩ := h₂
      have hi : i < (cfgs.map fun cfg => cfg.Imsi).length := by
        rw [List.length_map]
        exact (List.getElem?_eq_some.1 hc₁).1
      refine List.getElem?_inj hi hdistinct ?_
      simp only [List.getElem?_map, hc₁, hc₂, Option.map_some']
      exact congrArg some he
    · intro i u hu
      simp only [List.getElem?_map, Option.map_eq_some'] at hu
      obtain ⟨cfg, hcfg, rfl⟩ := hu
      have hmem : cfg ∈ cfgs := by
        obtain ⟨hlt, he⟩ := List.getElem?_eq_some.1 hcfg
        rw [← he]
        exact List.getElem_mem _
      refine ⟨hhyphen cfg hmem, ?_, ?_⟩
      · intro id s hs
        cases hs
      · intro id _
        rw [hal']
        rfl
  | step p p' i op now _ hop hstep ih =>
    obtain ⟨hI, hdist, hall⟩ := ih
    unfold Population.step at hstep
    rw [List.get?_eq_getElem?] at hstep
    cases hu : p.UeList[i]? with
    | none => simp [hu] at hstep
    | some ue =>
      simp only [hu] at hstep
      cases ha : applyOp op ue p.ipam now with
      | none => simp [ha] at hstep
      | some r =>
        obtain ⟨ue', al', msgs⟩ := r
        simp only [ha, Option.some.injEq] at hstep
        subst hstep
        obtain ⟨hhy, hc⟩ := hall i ue hu
        obtain ⟨hc', hI', hImsi, hfr⟩ := applyOp_bound op ue ue' p.ipam al' now msgs hop ha hc hI
        have hget : ∀ j u, (p.UeList.set i ue')[j]? = some u →
            (j = i ∧ u = ue') ∨ (j ≠ i ∧ p.UeList[j]? = some u) := by
          intro j u hj
          rw [List.getElem?_set] at hj
          by_cases hij : i = j
          · subst hij
            rw [if_pos rfl] at hj
            split at hj
            · injection hj with hj
              exact Or.inl ⟨rfl, hj.symm⟩
            · cases hj
          · rw [if_neg hij] at hj
            exact Or.inr ⟨fun e => hij e.symm, hj⟩
        refine ⟨hI', ?_, ?_⟩
        · intro j k u₁ u₂ h₁ h₂ he
          rcases hget j u₁ h₁ with ⟨rfl, rfl⟩ | ⟨hj, h₁'⟩
          · rcases hget k u₂ h₂ with ⟨rfl, rfl⟩ | ⟨hk, h₂'⟩
            · rfl
            · exact hdist _ _ ue u₂ hu h₂' (by rw [← hImsi, he])
          · rcases hget k u₂ h₂ with ⟨rfl, rfl⟩ | ⟨hk, h₂'⟩
            · exact hdist _ _ u₁ ue h₁' hu (by rw [he, hImsi])
            · exact hdist _ _ u₁ u₂ h₁' h₂' he
        · intro j u hj
          rcases hget j u hj with ⟨rfl, rfl⟩ | ⟨hji, hj'⟩
          · exact ⟨by rw [hImsi]; exact hhy, hc'⟩
          · obtain ⟨hhy', hcu⟩ := hall j u hj'
            refine ⟨hhy', sessionsBound_of_frame u p.ipam al' ?_ hcu⟩
            intro id
            apply hfr
            intro id' e
            have := utils.userString_supi_injective hhy' hhy e
            exact hji (hdist _ _ u ue hj' hu this)

/-- C17: in every population reachable from a fresh pool and fresh UEs with
pairwise distinct SUPIs without hyphen, by operations that name positive
session ids, a session `(id, ip)` in the map of a UE has the binding
`(supi, id) -> ip` in the allocator and the inverse binding, which the lookup
of `ip` reads back as `(supi, id)`; and the allocator has no binding for a
`(supi, id)` without session in the map of that UE. -/
theorem sessions_allocator_consistent (p : Population) (h : Population.Reachable p) :
    ∀ ue ∈ p.UeList, ∀ id,
      (∀ sess, ue.PduSessions.lookup id = some sess →
        utils.GetIP p.ipam ue.Imsi id = (sess.Ipv4, true) ∧
        p.ipam.ipToUser.lookup sess.Ipv4 = some (utils.userString ue.Imsi id) ∧
        utils.GetUserStringOk p.ipam sess.Ipv4 = some (ue.Imsi, id, true)) ∧
      (ue.PduSessions.lookup id = none → utils.GetIP p.ipam ue.Imsi id = ("", false)) := by
  obtain ⟨hI, _, hall⟩ := Reachable_consistent p h
  intro ue hue id
  obtain ⟨i, hi⟩ := List.getElem?_of_mem hue
  obtain ⟨hhy, hc⟩ := hall i ue hi
  constructor
  · intro sess hs
    obtain ⟨h0, h31, hb⟩ := hc.1 id sess hs
    have hinv := hI.fwd _ _ hb
    refine ⟨?_, hinv, ?_⟩
    · simp only [utils.GetIP, hb]
    · have hat : utils.Atoi (utils.formatInt id) = some id := by
        rw [utils.formatInt_nonneg _ (le_of_lt h0), utils.Atoi_repr _ (by omega)]
        congr 1
        omega
      unfold utils.GetUserStringOk
      simp only [hinv, utils.Split_userString ue.Imsi id hhy (le_of_lt h0), hat,
        utils.toInt32_id id (by omega) h31]
  · intro hs
    simp only [utils.GetIP, hc.2 id hs]


/-! ### Turning a UE off -/

theorem example_reachable (sessionId : Int) (h0 : 0 < sessionId) (h31 : sessionId < 2 ^ 31) :
    Population.Reachable
      { ipam := exampleAllocator sessionId, UeList := [exampleUeWithSession sessionId] } := by
  have h₀ : Population.Reachable
      { ipam := ⟨["10.0.0.1", "10.0.0.2"], [], []⟩, UeList := [exampleUe] } :=
    Population.Reachable.init 5 10 0 0 0 30 _
      [{ Imsi := "208950000000001"
         Msidn := "33600000001"
         Imei := "356938035643809"
         Dnn := "internet"
         Snssai := { Sst := 1, Sd := "010203" }
         Kind := "smartphone"
         Plmn := { Mcc := "208", Mnc := "95" } }] "sim" [] 0
      (by decide) (by decide) (by decide) (by decide) (by decide) (by decide) (by decide)
      (by decide)
  have h₁ := Population.Reachable.step _
    { ipam := ⟨["10.0.0.1", "10.0.0.2"], [], []⟩
      UeList := [{ exampleUe with RmStatus := RmStateRegistered }] } 0 (Op.Register []) 0 h₀
    trivial rfl
  have h₂ := Population.Reachable.step _
    { ipam := ⟨["10.0.0.1", "10.0.0.2"], [], []⟩
      UeList := [{ exampleUe with RmStatus := RmStateRegistered,
                                  CmStatus := CmStateConnected }] } 0 (Op.Attach 0) 0 h₁
    trivial rfl
  exact Population.Reachable.step _ _ 0
    (Op.NewPduSession sessionId "internet" { Sst := 1, Sd := "010203" } false) 0 h₂
    ⟨h0, h31⟩ rfl

theorem releaseLoop_all (now : Int) : ∀ (n k : Nat) (ue : Ue) (al : utils.IPAllocator)
    (sent : List SendCall),
    k + n < 2 ^ 31 →
    (∀ i : Nat, k ≤ i → i < k + n →
      (ue.PduSessions.lookup ((i : Int) + 1)).isSome ∧
      (al.allocated.lookup (utils.userString ue.Imsi ((i : Int) + 1))).isSome) →
    ∃ ue' al' msgs,
      releaseLoop now (List.range' k n) (ue, al, sent) = some (ue', al', sent ++ msgs) ∧
      (∀ m ∈ msgs, m.recipient = "SMF") ∧ msgs.length = n ∧
      ue'.RmStatus = ue.RmStatus ∧ ue'.CmStatus = ue.CmStatus ∧ ue'.ctxDone = ue.ctxDone ∧
      ∀ id : Int, ue'.PduSessions.lookup id =
        if (k : Int) < id ∧ id ≤ (k : Int) + n then none else ue.PduSessions.lookup id := by
  intro n
  induction n with
  | zero =>
    intro k ue al sent _ _
    refine ⟨ue, al, [], ?_, ?_, rfl, rfl, rfl, rfl, ?_⟩
    · simp [releaseLoop]
    · intro m hm
      cases hm
    · intro id
      have : ¬ ((k : Int) < id ∧ id ≤ (k : Int) + (0 : Nat)) := by omega
      rw [if_neg this]
  | succ n ih =>
    intro k ue al sent hlt hpres
    obtain ⟨hs, hb⟩ := hpres k (le_refl k) (by omega)
    have hid : utils.toInt32 ((k : Int) + 1) = (k : Int) + 1 :=
      utils.toInt32_id _ (by omega) (by
        have : ((k + (n + 1) : Nat) : Int) < 2 ^ 31 := by exact_mod_cast hlt
        push_cast at this
        omega)
    rw [List.range'_succ]
    simp only [releaseLoop, hid]
    rcases ReleasePduSession_cases ue al ((k : Int) + 1) now with
      ⟨hl, _⟩ | ⟨ip, _, hn, _⟩ | ⟨ip, sess, hl, hsess, hr⟩
    · rw [hl] at hb
      cases hb
    · rw [hn] at hs
      cases hs
    · rw [hr]
      simp only
      have hpres' : ∀ i : Nat, k + 1 ≤ i → i < k + 1 + n →
          (({ ue with PduSessions := ue.PduSessions.delete ((k : Int) + 1) } : Ue).PduSessions.lookup
            ((i : Int) + 1)).isSome ∧
          ((utils.GoMap.delete al.allocated
              (utils.userString ue.Imsi ((k : Int) + 1))).lookup
            (utils.userString ue.Imsi ((i : Int) + 1))).isSome := by
        intro i hki hin
        obtain ⟨hs', hb'⟩ := hpres i (by omega) (by omega)
        have hne : ((i : Int) + 1) ≠ (k : Int) + 1 := by omega
        have hk : utils.userString ue.Imsi ((i : Int) + 1)
            ≠ utils.userString ue.Imsi ((k : Int) + 1) :=
          fun e => hne (utils.userString_id_injective _ e)
        simp only [Map32.delete_lookup_ne _ hne, utils.GoMap.lookup_delete_ne _ hk]
        exact ⟨hs', hb'⟩
      obtain ⟨ue', al', msgs, hrun, hsmf, hlen, hrm, hcm, hctx, hmap⟩ :=
        ih (k + 1) { ue with PduSessions := ue.PduSessions.delete ((k : Int) + 1) }
          { availableIPs := ip :: al.availableIPs
            allocated := al.allocated.delete (utils.userString ue.Imsi ((k : Int) + 1))
            ipToUser := al.ipToUser.delete ip }
          (sent ++ [smfMsg ue SMFEVENTANYOF_PDU_SES_REL sess.Dnn sess.Snssai sess.Ipv4
            ((k : Int) + 1) now]) (by omega) hpres'
      refine ⟨ue', al',
        smfMsg ue SMFEVENTANYOF_PDU_SES_REL sess.Dnn sess.Snssai sess.Ipv4 ((k : Int) + 1) now
          :: msgs, ?_, ?_, ?_, hrm, hcm, hctx, ?_⟩
      · rw [hrun]
        simp
      · intro m hm
        rcases List.mem_cons.1 hm with rfl | hm
        · rfl
        · exact hsmf m hm
      · simp [hlen]
      · intro id
        rw [hmap id]
        by_cases h1 : id = (k : Int) + 1
        · subst h1
          have c1 : ¬ (((k + 1 : Nat) : Int) < (k : Int) + 1 ∧
              (k : Int) + 1 ≤ ((k + 1 : Nat) : Int) + (n : Int)) := by
            push_cast
            omega
          have c2 : ((k : Int) < (k : Int) + 1 ∧
              (k : Int) + 1 ≤ (k : Int) + ((n + 1 : Nat) : Int)) := by
            push_cast
            omega
          rw [if_neg c1, if_pos c2]
          exact Map32.delete_lookup_self _ _
        · by_cases h2 : ((k + 1 : Nat) : Int) < id ∧ id ≤ ((k + 1 : Nat) : Int) + (n : Int)
          · have c2 : ((k : Int) < id ∧ id ≤ (k : Int) + ((n + 1 : Nat) : Int)) := by
              push_cast at h2 ⊢
              omega
            rw [if_pos h2, if_pos c2]
          · have c2 : ¬ ((k : Int) < id ∧ id ≤ (k : Int) + ((n + 1 : Nat) : Int)) := by
              push_cast at h2 ⊢
              omega
            rw [if_neg h2, if_neg c2]
            exact Map32.delete_lookup_ne _ h1

/-- C14 (amended): for every UE whose PDU sessions have the ids `1..N`, `N` the
number of sessions, each bound in the allocator (as `NewPduSession` leaves
them), `TurnOff(true)` returns; the messages it sends are one AMF
`LOSS_OF_CONNECTIVITY`, then one AMF `REGISTRATION_STATE_REPORT`, then `N`
messages to the SMF; it leaves RM=Deregistered, CM=Idle, the scope cancelled
and the PDU-session map empty. -/
theorem TurnOff_graceful_spec (ue : Ue) (al : utils.IPAllocator) (now : Int)
    (hlen : ue.PduSessions.len < 2 ^ 31)
    (hids : ∀ id : Int, (ue.PduSessions.lookup id).isSome ↔ 0 < id ∧ id ≤ ue.PduSessions.len)
    (hbound : ∀ id : Int, (ue.PduSessions.lookup id).isSome →
      (al.allocated.lookup (utils.userString ue.Imsi id)).isSome) :
    ∃ ue' al' rel,
      ue.TurnOff al true now
        = some (ue', al',
            [amfMsg ue AMFEVENTTYPEANYOF_LOSS_OF_CONNECTIVITY now,
             amfMsg { ue with CmStatus := CmStateIdle, RmStatus := RmStateDeregistered }
               AMFEVENTTYPEANYOF_REGISTRATION_STATE_REPORT now] ++ rel) ∧
      (∀ m ∈ rel, m.recipient = "SMF") ∧ rel.length = ue.PduSessions.len ∧
      ue'.RmStatus = RmStateDeregistered ∧ ue'.CmStatus = CmStateIdle ∧
      ue'.ctxDone = true ∧ ue'.PduSessions = [] := by
  have hpres : ∀ i : Nat, 0 ≤ i → i < 0 + ue.PduSessions.len →
      (ue.PduSessions.lookup ((i : Int) + 1)).isSome ∧
      (al.allocated.lookup (utils.userString ue.Imsi ((i : Int) + 1))).isSome := by
    intro i _ hi
    have : (ue.PduSessions.lookup ((i : Int) + 1)).isSome := (hids _).2 ⟨by omega, by omega⟩
    exact ⟨this, hbound _ this⟩
  obtain ⟨ue', al', msgs, hrun, hsmf, hl, hrm, hcm, hctx, hmap⟩ :=
    releaseLoop_all now ue.PduSessions.len 0
      { ue with ctxDone := true, CmStatus := CmStateIdle, RmStatus := RmStateDeregistered } al
      [amfMsg ue AMFEVENTTYPEANYOF_LOSS_OF_CONNECTIVITY now,
       amfMsg { ue with CmStatus := CmStateIdle, RmStatus := RmStateDeregistered }
         AMFEVENTTYPEANYOF_REGISTRATION_STATE_REPORT now]
      (by omega) hpres
  refine ⟨ue', al', msgs, ?_, hsmf, hl, hrm, hcm, hctx, ?_⟩
  · unfold Ue.TurnOff Ue.LossOfConnection
    simp only [List.range_eq_range', if_true]
    exact hrun
  · apply Map32.eq_nil_of_lookup_none
    intro id
    rw [hmap id]
    split
    · rfl
    · rename_i hout
      cases hlk : ue.PduSessions.lookup id with
      | none => rfl
      | some sess =>
        exfalso
        have : (ue.PduSessions.lookup id).isSome := by rw [hlk]; rfl
        have := (hids id).1 this
        apply hout
        push_cast
        omega


/-- Witness of C17: the UE of SUPI `208950000000001` that registered, attached
and opened the session 1 on the pool of `10.0.0.0/30`. -/
theorem sessions_allocator_consistent_witness :
    Population.Reachable { ipam := exampleAllocator 1, UeList := [exampleUeWithSession 1] } ∧
    utils.GetIP (exampleAllocator 1) "208950000000001" 1 = ("10.0.0.1", true) ∧
    (exampleAllocator 1).ipToUser.lookup "10.0.0.1" = some "208950000000001-1" ∧
    utils.GetUserStringOk (exampleAllocator 1) "10.0.0.1" = some ("208950000000001", 1, true) :=
  ⟨example_reachable 1 (by decide) (by decide),
   (sessions_allocator_consistent _ (example_reachable 1 (by decide) (by decide))
      (exampleUeWithSession 1) (List.mem_cons_self _ _) 1).1 _ rfl⟩

/-- Witness of C14 (amended): the UE of the examples with the session 1. -/
theorem TurnOff_graceful_spec_witness :
    (exampleUeWithSession 1).PduSessions.len = 1 ∧
    ∃ ue' al' rel,
      (exampleUeWithSession 1).TurnOff (exampleAllocator 1) true 1
        = some (ue', al',
            [amfMsg (exampleUeWithSession 1) AMFEVENTTYPEANYOF_LOSS_OF_CONNECTIVITY 1,
             amfMsg { exampleUeWithSession 1 with
                 CmStatus := CmStateIdle, RmStatus := RmStateDeregistered }
               AMFEVENTTYPEANYOF_REGISTRATION_STATE_REPORT 1] ++ rel) ∧
      (∀ m ∈ rel, m.recipient = "SMF") ∧ rel.length = (exampleUeWithSession 1).PduSessions.len ∧
      ue'.RmStatus = RmStateDeregistered ∧ ue'.CmStatus = CmStateIdle ∧
      ue'.ctxDone = true ∧ ue'.PduSessions = [] :=
  ⟨by decide,
   TurnOff_graceful_spec (exampleUeWithSession 1) (exampleAllocator 1) 1 (by decide)
    (by
      intro id
      have hl : (exampleUeWithSession 1).PduSessions.len = 1 := by decide
      rw [hl]
      by_cases h : (1 : Int) = id
      · subst h
        exact ⟨fun _ => by decide, fun _ => by decide⟩
      · have hn : (exampleUeWithSession 1).PduSessions.lookup id = none := by
          simp [exampleUeWithSession, Map32.lookup, h]
        rw [hn]
        constructor
        · intro hf
          cases hf
        · intro hid
          exfalso
          push_cast at hid
          omega)
    (by
      intro id hid
      by_cases h : (1 : Int) = id
      · subst h
        decide
      · have hn : (exampleUeWithSession 1).PduSessions.lookup id = none := by
          simp [exampleUeWithSession, Map32.lookup, h]
        rw [hn] at hid
        cases hid)⟩

/-- C14 fails for a session set that is not `1..N`: the UE of the examples
registered, attached and opened the session 2 only, which got `10.0.0.1`;
`TurnOff(true)` then releases the id 1 only (`len(ue.PduSessions)` is 1), which
is unknown to the allocator, so the session 2 stays in the map and keeps its
address. -/
theorem TurnOff_keeps_session_two :
    Population.Reachable { ipam := exampleAllocator 2, UeList := [exampleUeWithSession 2] } ∧
    ((exampleUeWithSession 2).TurnOff (exampleAllocator 2) true 1).map
        (fun r => (r.1.PduSessions, r.2.1, r.2.2.map fun m => m.recipient))
      = some ([(2, { Id := 2
                     Ipv4 := "10.0.0.1"
                     Snssai := { Sst := 1, Sd := "010203" }
                     Dnn := "internet" })],
          exampleAllocator 2, ["AMF", "AMF"]) :=
  ⟨example_reachable 2 (by decide) (by decide), by decide⟩

end ran

/-! ## Wake-up, handover and the inactivity monitor -/

namespace ran
open models

/-- C21: `WakeUp` changes nothing and sends nothing when RM is not Registered or
CM is already Connected; otherwise it sets `CM = Connected`, stamps the
last-activity time and sends exactly one message, an AMF
CONNECTIVITY_STATE_REPORT with `CmState = Connected`. A second call right after
a first one changes nothing and sends nothing, so RM and CM are those of the
first call. -/
theorem WakeUp_spec (ue : Ue) (isPaging isPaging₂ : Bool) (now now₂ : Int) :
    ((ue.RmStatus ≠ RmStateRegistered ∨ ue.CmStatus = CmStateConnected) →
      ue.WakeUp isPaging now = (ue, [])) ∧
    (ue.RmStatus = RmStateRegistered → ue.CmStatus ≠ CmStateConnected →
      ue.WakeUp isPaging now
        = ({ ue with LastActivityTime := now, CmStatus := CmStateConnected },
           [{ sender := ue.Imsi
              recipient := "AMF"
              msgType := UeToAmfType
              payload := Payload.UeToAmf
                { EventType := AMFEVENTTYPEANYOF_CONNECTIVITY_STATE_REPORT
                  TimeStamp := now
                  RmState := ue.RmStatus
                  CmState := CmStateConnected
                  Supi := ue.Imsi
                  Gpsi := ue.Msidn
                  PlmnId := ue.PlmnId
                  CurrentCellId := ue.CurrentCellId
                  AccessType := ue.accessType } }])) ∧
    (ue.WakeUp isPaging now).1.WakeUp isPaging₂ now₂ = ((ue.WakeUp isPaging now).1, []) ∧
    ((ue.WakeUp isPaging now).1.WakeUp isPaging₂ now₂).1.RmStatus
      = (ue.WakeUp isPaging now).1.RmStatus ∧
    ((ue.WakeUp isPaging now).1.WakeUp isPaging₂ now₂).1.CmStatus
      = (ue.WakeUp isPaging now).1.CmStatus := by
  have idem : (ue.WakeUp isPaging now).1.WakeUp isPaging₂ now₂
      = ((ue.WakeUp isPaging now).1, []) := by
    unfold Ue.WakeUp
    by_cases hr : ue.RmStatus ≠ RmStateRegistered
    · simp [hr]
    · by_cases hc : ue.CmStatus ≠ CmStateConnected
      · simp [hr, hc]
      · simp [hr, hc]
  refine ⟨?_, ?_, idem, ?_, ?_⟩
  · intro h
    unfold Ue.WakeUp
    rcases h with h | h
    · simp [h]
    · simp [h]
  · intro hr hc
    unfold Ue.WakeUp
    simp [hr, hc, amfMsg]
  · rw [idem]
  · rw [idem]

/-- C22: `DoHandover(target)` sends exactly one message, an AMF LOCATION_REPORT
whose cell id is the cell id of the UE before the call; afterwards the current
cell id is `target`, and RM, CM and the PDU sessions are as before. -/
theorem DoHandover_spec (ue : Ue) (targetCellId : String) (now : Int) :
    (ue.DoHandover targetCellId now).2
      = [{ sender := ue.Imsi
           recipient := "AMF"
           msgType := UeToAmfType
           payload := Payload.UeToAmf
             { EventType := AMFEVENTTYPEANYOF_LOCATION_REPORT
               TimeStamp := now
               RmState := ue.RmStatus
               CmState := ue.CmStatus
               Supi := ue.Imsi
               Gpsi := ue.Msidn
               PlmnId := ue.PlmnId
               CurrentCellId := ue.CurrentCellId
               AccessType := ue.accessType } }] ∧
    (ue.DoHandover targetCellId now).1.CurrentCellId = targetCellId ∧
    (ue.DoHandover targetCellId now).1.RmStatus = ue.RmStatus ∧
    (ue.DoHandover targetCellId now).1.CmStatus = ue.CmStatus ∧
    (ue.DoHandover targetCellId now).1.PduSessions = ue.PduSessions :=
  ⟨rfl, rfl, rfl, rfl, rfl⟩

/-- C23 (amended): when the inactivity monitor fires at the instant `now`, it
sets `CM = Idle` and the Markov state to `Idle` and sends one AMF
CONNECTIVITY_STATE_REPORT if and only if `CM = Connected` and
`now - lastActivity > inactivityTimer`; in every other case it changes nothing
and sends nothing. -/
theorem inactivityMonitorFire_spec (ue : Ue) (inactivityTimer now : Int) :
    (ue.CmStatus = CmStateConnected ∧ inactivityTimer < now - ue.LastActivityTime →
      ue.inactivityMonitorFire inactivityTimer now
        = ({ ue with CmStatus := CmStateIdle, ueState := Idle },
           [{ sender := ue.Imsi
              recipient := "AMF"
              msgType := UeToAmfType
              payload := Payload.UeToAmf
                { EventType := AMFEVENTTYPEANYOF_CONNECTIVITY_STATE_REPORT
                  TimeStamp := now
                  RmState := ue.RmStatus
                  CmState := CmStateIdle
                  Supi := ue.Imsi
                  Gpsi := ue.Msidn
                  PlmnId := ue.PlmnId
                  CurrentCellId := ue.CurrentCellId
                  AccessType := ue.accessType } }])) ∧
    (¬ (ue.CmStatus = CmStateConnected ∧ inactivityTimer < now - ue.LastActivityTime) →
      ue.inactivityMonitorFire inactivityTimer now = (ue, [])) ∧
    ((ue.inactivityMonitorFire inactivityTimer now).2 ≠ [] ↔
      ue.CmStatus = CmStateConnected ∧ inactivityTimer < now - ue.LastActivityTime) := by
  have hiff : (ue.CmStatus = CmStateConnected ∧ ue.LastActivityTime < now - inactivityTimer)
      ↔ (ue.CmStatus = CmStateConnected ∧ inactivityTimer < now - ue.LastActivityTime) := by
    constructor <;> rintro ⟨h₁, h₂⟩ <;> exact ⟨h₁, by omega⟩
  refine ⟨?_, ?_, ?_⟩
  · intro h
    unfold Ue.inactivityMonitorFire
    simp only [if_pos (hiff.2 h)]
    rfl
  · intro h
    unfold Ue.inactivityMonitorFire
    simp only [if_neg (fun h' => h (hiff.1 h'))]
  · unfold Ue.inactivityMonitorFire
    by_cases h : ue.CmStatus = CmStateConnected ∧ ue.LastActivityTime < now - inactivityTimer
    · simp only [if_pos h]
      exact ⟨fun _ => hiff.1 h, fun _ => by simp⟩
    · simp only [if_neg h]
      exact ⟨fun hne => absurd rfl hne, fun h' => absurd (hiff.2 h') h⟩

/-- C23 fails when the inactivity equals the timer: a connected UE last active
at the instant 0, with the timer 5, is left as it is by the firing at the
instant 5, although `now - lastActivity >= inactivityTimer`. -/
theorem inactivityMonitorFire_at_timer :
    (exampleUeWithSession 1).CmStatus = CmStateConnected ∧
    (5 : Int) - (exampleUeWithSession 1).LastActivityTime ≥ 5 ∧
    (exampleUeWithSession 1).inactivityMonitorFire 5 5 = (exampleUeWithSession 1, []) := by
  decide

end ran

/-! ## Traffic counters -/

namespace ran

open models

/-- C24 fails for downlink packets: for a DL packet of 100 bytes on a session
with UpStats the DL counters of `UpStats`, the per-UE DL packet counter and the
per-UE DL byte counter are updated, but the aggregate byte counter labelled
`DL` stays 0 and the one labelled `UL` grows by 100. -/
theorem trafficCounters_downlink_aggregate :
    ((exampleUeWithStats.trafficPacket 1 false 100 7).1.UpStats.lookup 1).map
        (fun s => (s.NumDlPackets, s.TotalDlBytes, s.NumUlPackets, s.TotalUlBytes))
      = some (1, 100, 0, 0) ∧
    (exampleUeWithStats.trafficCounters ⟨[], [], []⟩ 1 false 100).map
        (fun m =>
          (m.TrafficPackets.value ["sim", "208950000000001", "DL"],
           m.TrafficBytes.value ["sim", "208950000000001", "DL"],
           m.TotalTraffic.value ["sim", "DL"],
           m.TotalTraffic.value ["sim", "UL"]))
      = some (1, 100, 0, 100) := by
  decide

end ran

/-! ## Subscriptions of the AMF and the SMF -/

namespace core

open models

namespace StringMap

theorem lookup_delete_eq {β : Type} (m : StringMap β) (k : String) :
    (delete m k).lookup k = none := by
  induction m with
  | nil => rfl
  | cons p rest ih =>
    obtain ⟨k', v⟩ := p
    unfold delete at ih ⊢
    by_cases h : k' = k
    · subst h
      simpa [List.filter_cons] using ih
    · simpa [List.filter_cons, h, lookup] using ih

theorem lookup_delete_of_ne {β : Type} (m : StringMap β) {k k' : String} (hne : k' ≠ k) :
    (delete m k).lookup k' = m.lookup k' := by
  induction m with
  | nil => rfl
  | cons p rest ih =>
    obtain ⟨k₀, v⟩ := p
    unfold delete at ih ⊢
    by_cases h : k₀ = k
    · subst h
      have h' : ¬ k₀ = k' := fun e => hne e.symm
      simpa [List.filter_cons, lookup, h'] using ih
    · by_cases h' : k₀ = k'
      · subst h'
        simp [List.filter_cons, lookup, h]
      · simpa [List.filter_cons, lookup, h, h'] using ih

theorem lookup_store_eq {β : Type} (m : StringMap β) (k : String) (v : β) :
    (store m k v).lookup k = some v := by
  simp [store, lookup]

theorem lookup_store_of_ne {β : Type} (m : StringMap β) {k k' : String} (v : β)
    (hne : k' ≠ k) : (store m k v).lookup k' = m.lookup k' := by
  have h : ¬ k = k' := fun e => hne e.symm
  simp [store, lookup, h, lookup_delete_of_ne m hne]

end StringMap

theorem amfSubscribeLoop_step (callbackUrl : String) (event : AmfEvent) (rest : List AmfEvent)
    (subs : StringMap (List String)) :
    amfSubscribeLoop callbackUrl (event :: rest) subs
      = amfSubscribeLoop callbackUrl rest
          (subs.store event.Kind ((subs.lookup event.Kind).getD [] ++ [callbackUrl])) := by
  cases h : subs.lookup event.Kind with
  | none => simp [amfSubscribeLoop, h]
  | some l => simp [amfSubscribeLoop, h]

theorem amfSubscribeLoop_lookup (callbackUrl : String) : ∀ (L : List AmfEvent)
    (subs : StringMap (List String)) (t : String),
    ((amfSubscribeLoop callbackUrl L subs).lookup t).getD []
        = (subs.lookup t).getD [] ++ List.replicate ((L.map AmfEvent.Kind).count t) callbackUrl ∧
    (t ∉ L.map AmfEvent.Kind →
      (amfSubscribeLoop callbackUrl L subs).lookup t = subs.lookup t) := by
  intro L
  induction L with
  | nil =>
    intro subs t
    simp [amfSubscribeLoop]
  | cons event rest ih =>
    intro subs t
    rw [amfSubscribeLoop_step]
    obtain ⟨h₁, h₂⟩ := ih (subs.store event.Kind
      ((subs.lookup event.Kind).getD [] ++ [callbackUrl])) t
    by_cases he : event.Kind = t
    · subst he
      refine ⟨?_, ?_⟩
      · rw [h₁, StringMap.lookup_store_eq]
        simp [List.count_cons, List.replicate_succ]
      · intro hn
        exact absurd (List.mem_cons_self _ _) hn
    · have hne : t ≠ event.Kind := fun e => he e.symm
      refine ⟨?_, ?_⟩
      · rw [h₁, StringMap.lookup_store_of_ne _ _ hne]
        simp [List.count_cons, he]
      · intro hn
        rw [h₂ (fun hm => hn (List.mem_cons_of_mem _ hm)), StringMap.lookup_store_of_ne _ _ hne]

theorem smfSubscribeLoop_eq (callbackUrl : String) : ∀ (L : List EventSubscription)
    (subs : StringMap (List String)),
    smfSubscribeLoop callbackUrl L subs
      = amfSubscribeLoop callbackUrl (L.map fun e => { Kind := e.Event }) subs := by
  intro L
  induction L with
  | nil =>
    intro subs
    rfl
  | cons event rest ih =>
    intro subs
    cases h : subs.lookup event.Event with
    | none => simp [smfSubscribeLoop, amfSubscribeLoop, h, ih]
    | some l => simp [smfSubscribeLoop, amfSubscribeLoop, h, ih]

/-- C25: a subscription request with the event list `L` and the callback URL `u`
is answered 201 and, in the AMF as in the SMF, leaves for every event type `t`
its previous URL list followed by one copy of `u` per occurrence of `t` in `L`;
the entry of an event type that is not in `L` is as before. So two requests of
`u` for the one event `t` add `u` twice. A later message of type `t` is posted
once per entry of the list of `t`, in the order of the list. -/
theorem HandleNewSubscription_appends (amf : Amf) (smf : Smf) (w : http.ResponseWriter)
    (L : List AmfEvent) (Ls : List EventSubscription) (u : String) :
    (∀ t : String,
      (((amf.HandleNewSubscription w (some { Subscription := some ⟨L, some u⟩ })).1.Subscriptions.lookup t).getD []
        = (amf.Subscriptions.lookup t).getD []
            ++ List.replicate ((L.map AmfEvent.Kind).count t) u) ∧
      (t ∉ L.map AmfEvent.Kind →
        (amf.HandleNewSubscription w (some { Subscription := some ⟨L, some u⟩ })).1.Subscriptions.lookup t
          = amf.Subscriptions.lookup t) ∧
      (((amf.HandleNewSubscription w (some { Subscription := some ⟨[{ Kind := t }], some u⟩ })).1.HandleNewSubscription
          w (some { Subscription := some ⟨[{ Kind := t }], some u⟩ })).1.Subscriptions.lookup t
        = some ((amf.Subscriptions.lookup t).getD [] ++ [u, u]))) ∧
    (w.status = none →
      (amf.HandleNewSubscription w (some { Subscription := some ⟨L, some u⟩ })).2.statusCode = 201) ∧
    (∀ msg : UeToAmfMsg,
      (amf.handleUeToAmfEvent msg).map (fun p => p.url)
        = (amf.Subscriptions.lookup msg.EventType).getD [] ∧
      ∀ p ∈ amf.handleUeToAmfEvent msg,
        p.contentType = "application/json" ∧ p.body = amfNotification msg) ∧
    (∀ t : String,
      (((smf.HandleNewSubscription w
            (some { EventSubs := some Ls, NotifUri := some u })).1.Subscriptions.lookup t).getD []
        = (smf.Subscriptions.lookup t).getD []
            ++ List.replicate ((Ls.map EventSubscription.Event).count t) u) ∧
      (t ∉ Ls.map EventSubscription.Event →
        (smf.HandleNewSubscription w
            (some { EventSubs := some Ls, NotifUri := some u })).1.Subscriptions.lookup t
          = smf.Subscriptions.lookup t) ∧
      (((smf.HandleNewSubscription w
            (some { EventSubs := some [{ Event := t }], NotifUri := some u })).1.HandleNewSubscription
          w (some { EventSubs := some [{ Event := t }], NotifUri := some u })).1.Subscriptions.lookup t
        = some ((smf.Subscriptions.lookup t).getD [] ++ [u, u]))) ∧
    (w.status = none →
      (smf.HandleNewSubscription w
          (some { EventSubs := some Ls, NotifUri := some u })).2.statusCode = 201) ∧
    (∀ (msg : UeToSmfMsg) (body : NsmfEventExposureNotification),
      smfNotification msg = some body →
      ∃ posts, smf.handleUeToSmfEvent msg = some posts ∧
        posts.map (fun p => p.url) = (smf.Subscriptions.lookup msg.EventType).getD [] ∧
        ∀ p ∈ posts, p.contentType = "application/json" ∧ p.body = body) := by
  have hmap : ∀ Ls : List EventSubscription,
      (Ls.map fun e => ({ Kind := e.Event } : AmfEvent)).map AmfEvent.Kind
        = Ls.map EventSubscription.Event := by
    intro Ls
    simp [List.map_map, Function.comp_def]
  have twice : ∀ (subs : StringMap (List String)) (t : String),
      (amfSubscribeLoop u [{ Kind := t }] (amfSubscribeLoop u [{ Kind := t }] subs)).lookup t
        = some ((subs.lookup t).getD [] ++ [u, u]) := by
    intro subs t
    rw [amfSubscribeLoop_step, amfSubscribeLoop_step]
    simp [amfSubscribeLoop, StringMap.lookup_store_eq]
  have hstatus : ∀ w : http.ResponseWriter, w.status = none →
      (((w.HeaderSet "Content-Type" "application/json").WriteHeader
        http.StatusCreated).Write).statusCode = 201 := by
    intro w hw
    simp [http.ResponseWriter.HeaderSet, http.ResponseWriter.WriteHeader,
      http.ResponseWriter.Write, http.ResponseWriter.statusCode, hw, http.StatusCreated]
  refine ⟨?_, ?_, ?_, ?_, ?_, ?_⟩
  · intro t
    refine ⟨(amfSubscribeLoop_lookup u L amf.Subscriptions t).1,
      (amfSubscribeLoop_lookup u L amf.Subscriptions t).2, ?_⟩
    exact twice amf.Subscriptions t
  · intro hw
    exact hstatus w hw
  · intro msg
    refine ⟨?_, ?_⟩
    · simp [Amf.handleUeToAmfEvent, List.map_map, Function.comp_def]
    · intro p hp
      simp only [Amf.handleUeToAmfEvent, List.mem_map] at hp
      obtain ⟨url, _, rfl⟩ := hp
      exact ⟨rfl, rfl⟩
  · intro t
    simp only [Smf.HandleNewSubscription, smfSubscribeLoop_eq]
    refine ⟨?_, ?_, ?_⟩
    · have := (amfSubscribeLoop_lookup u (Ls.map fun e => { Kind := e.Event })
        smf.Subscriptions t).1
      rw [hmap] at this
      exact this
    · have := (amfSubscribeLoop_lookup u (Ls.map fun e => { Kind := e.Event })
        smf.Subscriptions t).2
      rw [hmap] at this
      exact this
    · exact twice smf.Subscriptions t
  · intro hw
    exact hstatus w hw
  · intro msg body hbody
    refine ⟨((smf.Subscriptions.lookup msg.EventType).getD []).map fun callbackUrl =>
      { url := callbackUrl, contentType := "application/json", body := body }, ?_, ?_, ?_⟩
    · simp only [Smf.handleUeToSmfEvent, hbody, Option.map_some']
    · simp [List.map_map, Function.comp_def]
    · intro p hp
      simp only [List.mem_map] at hp
      obtain ⟨url, _, rfl⟩ := hp
      exact ⟨rfl, rfl⟩

end core

/-! ## The PCF -/

namespace ran

open models

theorem GetUserStringOk_of_bound (al : utils.IPAllocator) (supi : String) (id : Int)
    (ip : String) (hhy : '-' ∉ supi.data) (h0 : 0 < id) (h31 : id < 2 ^ 31)
    (hinv : al.ipToUser.lookup ip = some (utils.userString supi id)) :
    utils.GetUserStringOk al ip = some (supi, id, true) := by
  have hat : utils.Atoi (utils.formatInt id) = some id := by
    rw [utils.formatInt_nonneg _ (le_of_lt h0), utils.Atoi_repr _ (by omega)]
    congr 1
    omega
  unfold utils.GetUserStringOk
  simp only [hinv, utils.Split_userString supi id hhy (le_of_lt h0), hat,
    utils.toInt32_id id (by omega) h31]

theorem Reachable_keys (p : Population) (h : Population.Reachable p) :
    ∀ (k ip : String), p.ipam.allocated.lookup k = some ip →
      ∃ (i : Nat) (ue : Ue) (id : Int), p.UeList[i]? = some ue ∧
        k = utils.userString ue.Imsi id := by
  induction h with
  | init fuel a b c d ones al cfgs simulationId gnbs now ha hb hc hd hones hal hdistinct
      hhyphen =>
    obtain ⟨_, hal'⟩ := utils.Reachable_init_eq fuel a b c d ones al ha hb hc hd hones hal
    intro k ip hk
    rw [hal'] at hk
    cases hk
  | step p p' i op now hp hop hstep ih =>
    obtain ⟨hI, _, hall⟩ := Reachable_consistent p hp
    unfold Population.step at hstep
    rw [List.get?_eq_getElem?] at hstep
    cases hu : p.UeList[i]? with
    | none => simp [hu] at hstep
    | some ue =>
      simp only [hu] at hstep
      cases ha : applyOp op ue p.ipam now with
      | none => simp [ha] at hstep
      | some r =>
        obtain ⟨ue', al', msgs⟩ := r
        simp only [ha, Option.some.injEq] at hstep
        subst hstep
        obtain ⟨_, hc⟩ := hall i ue hu
        obtain ⟨_, _, hImsi, hfr⟩ := applyOp_bound op ue ue' p.ipam al' now msgs hop ha hc hI
        have hi : i < p.UeList.length := (List.getElem?_eq_some.1 hu).1
        intro k ip hk
        by_cases hform : ∃ id, k = utils.userString ue.Imsi id
        · obtain ⟨id, rfl⟩ := hform
          refine ⟨i, ue', id, ?_, by rw [hImsi]⟩
          simp [List.getElem?_set, hi]
        · have hk' : p.ipam.allocated.lookup k = some ip := by
            rw [← hfr k (fun id e => hform ⟨id, e⟩)]
            exact hk
          obtain ⟨j, u, id, hj, rfl⟩ := ih k ip hk'
          have hji : i ≠ j := by
            intro e
            subst e
            rw [hu] at hj
            injection hj with hj
            subst hj
            exact hform ⟨id, rfl⟩
          refine ⟨j, u, id, ?_, rfl⟩
          simp only [List.getElem?_set, if_neg hji]
          exact hj

theorem Reachable_lookup (p : Population) (h : Population.Reachable p) (ip : String) :
    (p.ipam.ipToUser.lookup ip = none ∧ utils.GetUserStringOk p.ipam ip = some ("", 0, false)) ∨
    (∃ (ue : Ue) (id : Int), ue ∈ p.UeList ∧
      p.ipam.ipToUser.lookup ip = some (utils.userString ue.Imsi id) ∧
      utils.GetUserStringOk p.ipam ip = some (ue.Imsi, id, true)) := by
  obtain ⟨hI, _, hall⟩ := Reachable_consistent p h
  cases hl : p.ipam.ipToUser.lookup ip with
  | none =>
    left
    exact ⟨rfl, by simp [utils.GetUserStringOk, hl]⟩
  | some k =>
    right
    have hb := hI.bwd ip k hl
    obtain ⟨i, ue, id, hi, rfl⟩ := Reachable_keys p h k ip hb
    obtain ⟨hhy, hc⟩ := hall i ue hi
    have hmem : ue ∈ p.UeList := by
      obtain ⟨hlt, he⟩ := List.getElem?_eq_some.1 hi
      rw [← he]
      exact List.getElem_mem _
    cases hs : ue.PduSessions.lookup id with
    | none =>
      rw [hc.2 id hs] at hb
      cases hb
    | some sess =>
      obtain ⟨h0, h31, _⟩ := hc.1 id sess hs
      exact ⟨ue, id, hmem, rfl, GetUserStringOk_of_bound _ _ _ _ hhy h0 h31 hl⟩

end ran

namespace http

theorem Error_status (w : ResponseWriter) (error : String) (code : Nat) (hw : w.status = none) :
    (Error w error code).statusCode = code := by
  simp [Error, ResponseWriter.HeaderSet, ResponseWriter.WriteHeader, ResponseWriter.Write,
    ResponseWriter.statusCode, hw]

end http

namespace core

open models

/-- The status decisions of `Pcf.HandleNewSubscription`: with the allocator of
a reachable population, on a response
on which nothing has been written, the handler of a POST returns, and its
status is 400 if the body does not decode or `ascReqData` or `ueIpv4` is
missing; otherwise 404 if the allocator has no binding for `ueIpv4`; otherwise
400 if the request data has neither `medComponents` nor `afRoutReq`; otherwise
201 with the one Location header `/npcf-policyauthorization/v1/app-sessions/`
followed by the new id, and the context is stored under that id when the
response body was encoded without error (the registry is left as it was when
the encoding failed). The registry is unchanged by every request that is not
answered 201. -/
theorem Pcf_HandleNewSubscription_spec (p : ran.Population) (h : ran.Population.Reachable p)
    (pcf : Pcf) (w : http.ResponseWriter) (hw : w.status = none)
    (body : Option AppSessionContext) (subId : String) (encodeErr : Bool) :
    ∃ pcf' w',
      pcf.HandleNewSubscription p.ipam w "POST" body subId encodeErr = some (pcf', w') ∧
      ((body = none ∨ (∃ subData, body = some subData ∧ subData.AscReqData = none) ∨
          (∃ subData rData, body = some subData ∧ subData.AscReqData = some rData ∧
            rData.UeIpv4 = none)) →
        w'.statusCode = 400 ∧ pcf' = pcf) ∧
      (∀ subData rData ueAddr, body = some subData → subData.AscReqData = some rData →
        rData.UeIpv4 = some ueAddr →
        (p.ipam.ipToUser.lookup ueAddr = none → w'.statusCode = 404 ∧ pcf' = pcf) ∧
        (p.ipam.ipToUser.lookup ueAddr ≠ none →
          rData.MedComponents = none → rData.AfRoutReq = none →
          w'.statusCode = 400 ∧ pcf' = pcf) ∧
        (p.ipam.ipToUser.lookup ueAddr ≠ none →
          rData.MedComponents ≠ none ∨ rData.AfRoutReq ≠ none →
          w'.statusCode = 201 ∧
          w'.Values "Location" = w.Values "Location"
            ++ ["/npcf-policyauthorization/v1/app-sessions/" ++ subId] ∧
          (encodeErr = false →
            pcf'.Subscriptions.lookup subId = some subData ∧
            ∀ k, k ≠ subId → pcf'.Subscriptions.lookup k = pcf.Subscriptions.lookup k) ∧
          (encodeErr = true → pcf' = pcf))) ∧
      (w'.statusCode ≠ 201 → pcf' = pcf) := by
  have h400 : ∀ msg, (http.Error w msg http.StatusBadRequest).statusCode = 400 :=
    fun msg => http.Error_status w msg _ hw
  have h404 : ∀ msg, (http.Error w msg http.StatusNotFound).statusCode = 404 :=
    fun msg => http.Error_status w msg _ hw
  unfold Pcf.HandleNewSubscription
  simp only [if_true]
  cases body with
  | none =>
    refine ⟨pcf, _, rfl, fun _ => ⟨h400 _, rfl⟩, ?_, fun _ => rfl⟩
    intro subData rData ueAddr hb
    cases hb
  | some subData =>
    simp only []
    cases hreq : subData.AscReqData with
    | none =>
      simp only [hreq]
      refine ⟨pcf, _, rfl, fun _ => ⟨h400 _, rfl⟩, ?_, fun _ => rfl⟩
      intro subData' rData ueAddr hb hr
      injection hb with hb
      subst hb
      rw [hreq] at hr
      cases hr
    | some rData =>
      simp only [hreq]
      cases hip : rData.UeIpv4 with
      | none =>
        simp only [hip]
        refine ⟨pcf, _, rfl, fun _ => ⟨h400 _, rfl⟩, ?_, fun _ => rfl⟩
        intro subData' rData' ueAddr hb hr hu
        injection hb with hb
        subst hb
        rw [hreq] at hr
        injection hr with hr
        subst hr
        rw [hip] at hu
        cases hu
      | some ueAddr =>
        simp only [hip]
        have missing : ¬ (some subData = none ∨
            (∃ subData', some subData = some subData' ∧ subData'.AscReqData = none) ∨
            (∃ subData' rData', some subData = some subData' ∧
              subData'.AscReqData = some rData' ∧ rData'.UeIpv4 = none)) := by
          rintro (hn | ⟨s, hs, hr⟩ | ⟨s, r, hs, hr, hu⟩)
          · cases hn
          · injection hs with hs
            subst hs
            rw [hreq] at hr
            cases hr
          · injection hs with hs
            subst hs
            rw [hreq] at hr
            injection hr with hr
            subst hr
            rw [hip] at hu
            cases hu
        rcases ran.Reachable_lookup p h ueAddr with ⟨hl, hg⟩ | ⟨ue, id, _, hl, hg⟩
        · simp only [hg]
          refine ⟨pcf, _, rfl, fun hm => absurd hm missing, ?_, fun _ => rfl⟩
          intro subData' rData' ueAddr' hb hr hu
          injection hb with hb
          subst hb
          rw [hreq] at hr
          injection hr with hr
          subst hr
          rw [hip] at hu
          injection hu with hu
          subst hu
          exact ⟨fun _ => ⟨h404 _, rfl⟩, fun hne => absurd hl hne, fun hne => absurd hl hne⟩
        · simp only [hg]
          have hbound : p.ipam.ipToUser.lookup ueAddr ≠ none := by
            rw [hl]
            exact fun e => by cases e
          by_cases hkind : rData.MedComponents.isSome ∨ rData.AfRoutReq.isSome
          · simp only [if_pos hkind]
            have hst : ((w.HeaderAdd "Location"
                ("/npcf-policyauthorization/v1/app-sessions/" ++ subId)).HeaderAdd
                "Content-Type" "application/json").WriteHeader http.StatusCreated
                = { header := w.header
                      ++ [("Location", "/npcf-policyauthorization/v1/app-sessions/" ++ subId)]
                      ++ [("Content-Type", "application/json")]
                    status := some 201 } := by
              simp [http.ResponseWriter.HeaderAdd, http.ResponseWriter.WriteHeader, hw,
                http.StatusCreated]
            rw [hst]
            have hloc : ∀ w' : http.ResponseWriter,
                w'.header = w.header
                  ++ [("Location", "/npcf-policyauthorization/v1/app-sessions/" ++ subId)]
                  ++ [("Content-Type", "application/json")] →
                w'.Values "Location" = w.Values "Location"
                  ++ ["/npcf-policyauthorization/v1/app-sessions/" ++ subId] := by
              intro w' hh
              simp [http.ResponseWriter.Values, hh, List.filter_append, List.filter_cons]
            cases encodeErr with
            | true =>
              simp only [if_true]
              refine ⟨pcf, _, rfl, fun hm => absurd hm missing, ?_, fun _ => rfl⟩
              intro subData' rData' ueAddr' hb hr hu
              injection hb with hb
              subst hb
              rw [hreq] at hr
              injection hr with hr
              subst hr
              rw [hip] at hu
              injection hu with hu
              subst hu
              refine ⟨fun hn => absurd hn hbound, ?_, ?_⟩
              · intro _ hm ha
                rw [hm, ha] at hkind
                simp at hkind
              · intro _ _
                refine ⟨?_, hloc _ ?_, fun e => (by cases e), fun _ => rfl⟩
                · simp [http.Error, http.ResponseWriter.HeaderSet,
                    http.ResponseWriter.WriteHeader, http.ResponseWriter.Write,
                    http.ResponseWriter.statusCode]
                · simp [http.Error, http.ResponseWriter.HeaderSet,
                    http.ResponseWriter.WriteHeader, http.ResponseWriter.Write]
            | false =>
              simp only [Bool.false_eq_true, if_false]
              refine ⟨_, _, rfl, fun hm => absurd hm missing, ?_, ?_⟩
              · intro subData' rData' ueAddr' hb hr hu
                injection hb with hb
                subst hb
                rw [hreq] at hr
                injection hr with hr
                subst hr
                rw [hip] at hu
                injection hu with hu
                subst hu
                refine ⟨fun hn => absurd hn hbound, ?_, ?_⟩
                · intro _ hm ha
                  rw [hm, ha] at hkind
                  simp at hkind
                · intro _ _
                  refine ⟨?_, hloc _ ?_, fun _ => ⟨?_, ?_⟩, fun e => (by cases e)⟩
                  · simp [http.ResponseWriter.WriteHeader, http.ResponseWriter.Write,
                      http.ResponseWriter.statusCode]
                  · simp [http.ResponseWriter.WriteHeader, http.ResponseWriter.Write]
                  · exact StringMap.lookup_store_eq _ _ _
                  · intro k hk
                    exact StringMap.lookup_store_of_ne _ _ hk
              · intro hne
                exfalso
                apply hne
                simp [http.ResponseWriter.WriteHeader, http.ResponseWriter.Write,
                  http.ResponseWriter.statusCode]
          · simp only [if_neg hkind]
            refine ⟨pcf, _, rfl, fun hm => absurd hm missing, ?_, fun _ => rfl⟩
            intro subData' rData' ueAddr' hb hr hu
            injection hb with hb
            subst hb
            rw [hreq] at hr
            injection hr with hr
            subst hr
            rw [hip] at hu
            injection hu with hu
            subst hu
            refine ⟨fun hn => absurd hn hbound, fun _ _ _ => ⟨h400 _, rfl⟩, ?_⟩
            intro _ hor
            exfalso
            apply hkind
            rcases hor with hm | ha
            · left
              cases hmc : rData.MedComponents with
              | none => exact absurd hmc hm
              | some _ => rfl
            · right
              cases hac : rData.AfRoutReq with
              | none => exact absurd hac ha
              | some _ => rfl

end core

namespace core

open models

/-- The status decisions at a concrete request: a QoS request for the address
`10.0.0.1` of the session 1 of the UE of the examples, whose response body is
encoded without error, is answered 201 and stored. -/
theorem Pcf_HandleNewSubscription_spec_witness :
    ran.Population.Reachable
      { ipam := ran.exampleAllocator 1, UeList := [ran.exampleUeWithSession 1] } ∧
    ∃ pcf' w',
      (NewPcf { Mcc := "208", Mnc := "95" }).HandleNewSubscription (ran.exampleAllocator 1) {}
          "POST" (some ⟨some ⟨some "10.0.0.1", some "{}", none⟩⟩) "id-1" false
        = some (pcf', w') ∧
      w'.statusCode = 201 ∧
      w'.Values "Location" = ["/npcf-policyauthorization/v1/app-sessions/id-1"] ∧
      pcf'.Subscriptions.lookup "id-1"
        = some ⟨some ⟨some "10.0.0.1", some "{}", none⟩⟩ := by
  refine ⟨ran.example_reachable 1 (by decide) (by decide), ?_⟩
  obtain ⟨pcf', w', hr, _, hcase, _⟩ :=
    Pcf_HandleNewSubscription_spec _ (ran.example_reachable 1 (by decide) (by decide))
      (NewPcf { Mcc := "208", Mnc := "95" }) {} rfl
      (some ⟨some ⟨some "10.0.0.1", some "{}", none⟩⟩) "id-1" false
  obtain ⟨_, _, h201⟩ := hcase _ _ _ rfl rfl rfl
  obtain ⟨hs, hloc, hstore, _⟩ := h201 (by decide) (Or.inl (by decide))
  exact ⟨pcf', w', hr, hs, hloc, (hstore rfl).1⟩

/-- C26 fails on the code: when the response body cannot be encoded, the QoS
request for the bound address `10.0.0.1` is answered 201 with its Location
header (the status was written before the encoding, so the 500 of the error
branch has no effect), but the handler returns before it stores the context,
and the registry stays empty. -/
theorem Pcf_encode_error_not_stored :
    ran.Population.Reachable
      { ipam := ran.exampleAllocator 1, UeList := [ran.exampleUeWithSession 1] } ∧
    ((NewPcf { Mcc := "208", Mnc := "95" }).HandleNewSubscription (ran.exampleAllocator 1) {}
        "POST" (some ⟨some ⟨some "10.0.0.1", some "{}", none⟩⟩) "id-1" true).map
        (fun r => (r.1.Subscriptions, r.2.statusCode, r.2.Values "Location"))
      = some ([], 201, ["/npcf-policyauthorization/v1/app-sessions/id-1"]) :=
  ⟨ran.example_reachable 1 (by decide) (by decide), by decide⟩

theorem length_ne_zero_of_ne_empty (s : String) (h : s ≠ "") : s.length ≠ 0 := by
  intro h0
  apply h
  apply String.ext
  exact List.length_eq_zero.1 h0

/-- C27 (amended): on a response on which nothing has been written, for every
registry state and every id that is not empty, a delete POST for an id in the
registry removes that entry, leaves the other entries as they were and is
answered 200; a delete for an id that is not in the registry is answered 404
and leaves the registry unchanged. So after the context has been stored under
`id`, the first delete of `id` is answered 200 and the second 404. -/
theorem HandleDeleteSubscription_spec (pcf : Pcf) (w : http.ResponseWriter)
    (hw : w.status = none) (appSessId : String) (hid : appSessId ≠ "") :
    (pcf.Subscriptions.lookup appSessId ≠ none →
      (pcf.HandleDeleteSubscription w "POST" appSessId).1.Subscriptions.lookup appSessId = none ∧
      (∀ k, k ≠ appSessId →
        (pcf.HandleDeleteSubscription w "POST" appSessId).1.Subscriptions.lookup k
          = pcf.Subscriptions.lookup k) ∧
      (pcf.HandleDeleteSubscription w "POST" appSessId).2.statusCode = 200) ∧
    (pcf.Subscriptions.lookup appSessId = none →
      (pcf.HandleDeleteSubscription w "POST" appSessId).2.statusCode = 404 ∧
      (pcf.HandleDeleteSubscription w "POST" appSessId).1 = pcf) ∧
    (∀ ctx : AppSessionContext,
      (({ pcf with Subscriptions := pcf.Subscriptions.store appSessId ctx } :
          Pcf).HandleDeleteSubscription w "POST" appSessId).2.statusCode = 200 ∧
      ((({ pcf with Subscriptions := pcf.Subscriptions.store appSessId ctx } :
          Pcf).HandleDeleteSubscription w "POST" appSessId).1.HandleDeleteSubscription w "POST"
          appSessId).2.statusCode = 404) := by
  have hlen := length_ne_zero_of_ne_empty appSessId hid
  have hdel : ∀ q : Pcf, q.Subscriptions.lookup appSessId ≠ none →
      q.HandleDeleteSubscription w "POST" appSessId
        = ({ q with Subscriptions := q.Subscriptions.delete appSessId }, w) := by
    intro q hq
    unfold Pcf.HandleDeleteSubscription
    cases hl : q.Subscriptions.lookup appSessId with
    | none => exact absurd hl hq
    | some ctx => simp [hlen]
  have hmiss : ∀ q : Pcf, q.Subscriptions.lookup appSessId = none →
      q.HandleDeleteSubscription w "POST" appSessId
        = (q, http.Error w "app-session context is not found" http.StatusNotFound) := by
    intro q hq
    unfold Pcf.HandleDeleteSubscription
    simp [hlen, hq]
  have h200 : w.statusCode = 200 := by
    simp [http.ResponseWriter.statusCode, hw]
  refine ⟨?_, ?_, ?_⟩
  · intro hp
    rw [hdel pcf hp]
    exact ⟨StringMap.lookup_delete_eq _ _, fun k hk => StringMap.lookup_delete_of_ne _ hk, h200⟩
  · intro hn
    rw [hmiss pcf hn]
    exact ⟨http.Error_status w "app-session context is not found" http.StatusNotFound hw, rfl⟩
  · intro ctx
    have hp : ({ pcf with Subscriptions := pcf.Subscriptions.store appSessId ctx } :
        Pcf).Subscriptions.lookup appSessId ≠ none := by
      simp [StringMap.lookup_store_eq]
    rw [hdel _ hp]
    refine ⟨h200, ?_⟩
    rw [hmiss _ (StringMap.lookup_delete_eq _ _)]
    exact http.Error_status w "app-session context is not found" http.StatusNotFound hw

/-- Witness of C27 (amended): a registry with one context under `id-1`. -/
theorem HandleDeleteSubscription_spec_witness :
    (({ NewPcf { Mcc := "208", Mnc := "95" } with
          Subscriptions := [("id-1", ⟨none⟩)] } : Pcf).HandleDeleteSubscription {} "POST"
        "id-1").1.Subscriptions.lookup "id-1" = none ∧
    (({ NewPcf { Mcc := "208", Mnc := "95" } with
          Subscriptions := [("id-1", ⟨none⟩)] } : Pcf).HandleDeleteSubscription {} "POST"
        "id-1").2.statusCode = 200 ∧
    ((NewPcf { Mcc := "208", Mnc := "95" }).HandleDeleteSubscription {} "POST"
        "id-1").2.statusCode = 404 :=
  ⟨((HandleDeleteSubscription_spec
      { NewPcf { Mcc := "208", Mnc := "95" } with Subscriptions := [("id-1", ⟨none⟩)] } {} rfl
      "id-1" (by decide)).1 (by decide)).1,
   ((HandleDeleteSubscription_spec
      { NewPcf { Mcc := "208", Mnc := "95" } with Subscriptions := [("id-1", ⟨none⟩)] } {} rfl
      "id-1" (by decide)).1 (by decide)).2.2,
   ((HandleDeleteSubscription_spec (NewPcf { Mcc := "208", Mnc := "95" }) {} rfl
      "id-1" (by decide)).2.1 rfl).1⟩

/-- C27 fails for the empty id: the handler answers 400 and goes on, so a
delete of the id `""`, which is not in the registry, has the status 400 and not
404. -/
theorem HandleDeleteSubscription_empty_id :
    (NewPcf { Mcc := "208", Mnc := "95" }).Subscriptions.lookup "" = none ∧
    ((NewPcf { Mcc := "208", Mnc := "95" }).HandleDeleteSubscription {} "POST" "").2.statusCode
      = 400 := by
  decide

end core

/-! ## The controller and the network instance -/

namespace ran

open models

theorem releaseLoop_returns (now : Int) : ∀ (is : List Nat) (ue : Ue) (al : utils.IPAllocator)
    (sent : List SendCall), ue.sessionsBound al →
    ∃ r, releaseLoop now is (ue, al, sent) = some r := by
  intro is
  induction is with
  | nil =>
    intro ue al sent _
    exact ⟨_, rfl⟩
  | cons i rest ih =>
    intro ue al sent hc
    simp only [releaseLoop]
    rcases ReleasePduSession_cases ue al (utils.toInt32 ((i : Int) + 1)) now with
      ⟨_, hr⟩ | ⟨ip, hl, hn, _⟩ | ⟨ip, sess, _, _, hr⟩
    · rw [hr]
      exact ih ue al _ hc
    · rw [hc.2 _ hn] at hl
      cases hl
    · have hb := (ReleasePduSession_bound ue _ al _ _ now _ hr hc).1
      rw [hr]
      exact ih _ _ _ hb

theorem TurnOff_returns (ue : Ue) (al : utils.IPAllocator) (isGracefully : Bool) (now : Int)
    (hc : ue.sessionsBound al) : ∃ r, ue.TurnOff al isGracefully now = some r := by
  unfold Ue.TurnOff Ue.LossOfConnection
  exact releaseLoop_returns now _ _ al _ (sessionsBound_congr al rfl rfl hc)

end ran

namespace simulator

open models

theorem stopLoop_returns (now : Int) : ∀ (l : List (String × ran.Ue)) (al : utils.IPAllocator)
    (off : List ran.Ue) (sent : List SendCall),
    utils.Inv al → (l.map fun e => e.2.Imsi).Nodup →
    (∀ e ∈ l, '-' ∉ e.2.Imsi.data ∧ e.2.sessionsBound al) →
    ∃ al' off' sent',
      stopLoop now l (some al, off, sent) = some (some al', off ++ off', sent ++ sent') ∧
      utils.Inv al' ∧ off'.length = l.length := by
  intro l
  induction l with
  | nil =>
    intro al off sent hI _ _
    exact ⟨al, [], [], by simp [stopLoop], hI, rfl⟩
  | cons e rest ih =>
    intro al off sent hI hnd hall
    obtain ⟨k, ue⟩ := e
    obtain ⟨hhy, hc⟩ := hall (k, ue) (List.mem_cons_self _ _)
    obtain ⟨⟨ue', al', msgs⟩, hr⟩ := ran.TurnOff_returns ue al true now hc
    have hop : ran.applyOp (ran.Op.TurnOff true) ue al now = some (ue', al', msgs) := hr
    obtain ⟨_, hI', _, hfr⟩ := ran.applyOp_bound (ran.Op.TurnOff true) ue ue' al al' now msgs
      trivial hop hc hI
    simp only [List.map_cons, List.nodup_cons] at hnd
    have hall' : ∀ e ∈ rest, '-' ∉ e.2.Imsi.data ∧ e.2.sessionsBound al' := by
      intro e he
      obtain ⟨hhy', hc'⟩ := hall e (List.mem_cons_of_mem _ he)
      refine ⟨hhy', ran.sessionsBound_of_frame e.2 al al' ?_ hc'⟩
      intro id
      apply hfr
      intro id' heq
      have hsame := utils.userString_supi_injective hhy' hhy heq
      apply hnd.1
      rw [← hsame]
      exact List.mem_map_of_mem (fun e => e.2.Imsi) he
    obtain ⟨al'', off', sent', hrun, hI'', hlen⟩ := ih al' (off ++ [ue']) (sent ++ msgs) hI'
      hnd.2 hall'
    refine ⟨al'', ue' :: off', msgs ++ sent', ?_, hI'', by simp [hlen]⟩
    simp only [stopLoop, turnOffUe, hr, Option.map_some']
    rw [hrun]
    simp

theorem Stop_returns (n : NetworkInstance) (now : Int) (hs : n.ueGenContext ≠ none)
    (hc : n.Consistent) :
    ∃ n' trace, n.Stop now = some (Except.ok (), n', trace) ∧
      n'.UeList = [] ∧ n'.simId = n.simId ∧ n'.config = n.config ∧
      n'.ueGenContext = some true ∧ n'.Consistent ∧
      trace.turnedOff.length = n.UeList.length := by
  obtain ⟨al, hal, hI, hnd, hall⟩ := hc
  obtain ⟨al', off', sent', hrun, hI', hlen⟩ := stopLoop_returns now n.UeList al [] [] hI hnd hall
  cases hg : n.ueGenContext with
  | none => exact absurd hg hs
  | some b =>
    refine ⟨{ n with ueGenContext := some true, UeList := [], ipam := some al' },
      { turnedOff := [] ++ off', sent := [] ++ sent' }, ?_, ?_, ?_, ?_, ?_, ?_, ?_⟩
    · simp only [NetworkInstance.Stop, hg, hal, hrun]
    · rfl
    · rfl
    · rfl
    · rfl
    · exact ⟨al', rfl, hI', List.nodup_nil, fun e he => by cases he⟩
    · simpa using hlen

theorem Stop_ok (n n' : NetworkInstance) (now : Int) (r : Except String Unit) (trace : StopTrace)
    (h : n.Stop now = some (r, n', trace)) : r = Except.ok () := by
  unfold NetworkInstance.Stop at h
  cases hg : n.ueGenContext with
  | none => simp [hg] at h
  | some b =>
    simp only [hg] at h
    cases hl : stopLoop now n.UeList (n.ipam, [], []) with
    | none => simp [hl] at h
    | some st =>
      obtain ⟨ipam, off, sent⟩ := st
      simp only [hl, Option.some.injEq, Prod.mk.injEq] at h
      exact h.1.symm

theorem InitNetworkInstance_eq (n : NetworkInstance) (fuel : Nat) (hfuel : 2 ^ 16 < fuel) :
    n.InitNetworkInstance fuel
      = some (Except.ok (),
          { n with
            ipam := some
              { availableIPs := utils.poolOf 12 1 0 0 16, allocated := [], ipToUser := [] }
            Amf := some (core.NewAmf n.config.Plmn)
            Smf := some (core.NewSmf n.config.Plmn)
            Pcf := some (core.NewPcf n.config.Plmn)
            GnbList := generateNRCellIDsHex (n.config.NumOfGnb % 2 ^ 64).toNat }) := by
  unfold NetworkInstance.InitNetworkInstance
  rw [utils.NewIpamService_eq 12 1 0 0 16 fuel (by decide) (by decide) (by decide) (by decide)
    (by decide) (by decide) (by simpa using hfuel)]

theorem pool16_Inv :
    utils.Inv { availableIPs := utils.poolOf 12 1 0 0 16, allocated := [], ipToUser := [] } :=
  utils.Reachable_Inv _ (utils.Reachable.init (2 ^ 16 + 1) 12 1 0 0 16 _ (by decide) (by decide)
    (by decide) (by decide) (by decide)
    (utils.NewIpamService_eq 12 1 0 0 16 (2 ^ 16 + 1) (by decide) (by decide) (by decide)
      (by decide) (by decide) (by decide) (by norm_num)))

theorem InitNewSimulation_fresh (app : CoreSimulatorApp) (config : NetworkConfig)
    (simId : String) (fuel : Nat) (hfuel : 2 ^ 16 < fuel) (hnone : app.currentInstance = none) :
    ∃ inst,
      app.InitNewSimulation (some config) simId fuel
        = some (Except.ok (), { app with currentInstance := some inst, status := CONFIGURED }) ∧
      inst.simId = simId ∧ inst.config = config ∧ inst.UeList = [] ∧
      inst.ueGenContext = none ∧ inst.Consistent := by
  refine ⟨{ NewNetworkInstance app.config.SbiPort config simId with
      ipam := some
        { availableIPs := utils.poolOf 12 1 0 0 16, allocated := [], ipToUser := [] }
      Amf := some (core.NewAmf config.Plmn)
      Smf := some (core.NewSmf config.Plmn)
      Pcf := some (core.NewPcf config.Plmn)
      GnbList := generateNRCellIDsHex (config.NumOfGnb % 2 ^ 64).toNat }, ?_, ?_, ?_, ?_, ?_, ?_⟩
  · unfold CoreSimulatorApp.InitNewSimulation
    simp only [hnone, InitNetworkInstance_eq _ fuel hfuel]
    rfl
  · rfl
  · rfl
  · rfl
  · rfl
  · exact ⟨_, rfl, pool16_Inv, List.nodup_nil, fun e he => by cases he⟩

theorem StartSimulation_not_started (app : CoreSimulatorApp) (inst : NetworkInstance)
    (now : Int) (hi : app.currentInstance = some inst) (hs : app.status ≠ STARTED) :
    app.StartSimulation now
      = some (Except.ok (),
          { app with
            currentInstance := some
              { inst with
                ueGenContext := some false
                arrivalLoops := inst.arrivalLoops ++ [{ entered := false, i := 0 }] }
            status := STARTED }, none) := by
  unfold CoreSimulatorApp.StartSimulation
  simp [hi, hs, NetworkInstance.Start]

theorem StopSimulation_started (app : CoreSimulatorApp) (inst : NetworkInstance) (now : Int)
    (hi : app.currentInstance = some inst) (hs : app.status = STARTED)
    (hg : inst.ueGenContext ≠ none) (hc : inst.Consistent) :
    ∃ inst' trace,
      app.StopSimulation now
        = some (Except.ok (), { app with currentInstance := some inst', status := STOPPED },
            some trace) ∧
      inst.Stop now = some (Except.ok (), inst', trace) ∧
      inst'.UeList = [] ∧ inst'.simId = inst.simId ∧ inst'.config = inst.config ∧
      inst'.Consistent := by
  obtain ⟨inst', trace, hstop, hl, hid, hcfg, _, hc', _⟩ := Stop_returns inst now hg hc
  refine ⟨inst', trace, ?_, hstop, hl, hid, hcfg, hc'⟩
  unfold CoreSimulatorApp.StopSimulation
  have hne : ¬ app.status = STOPPED := by
    rw [hs]
    decide
  simp only [hi, hs, hstop, if_true]
  rw [if_neg (by decide)]

end simulator

namespace simulator

open models

theorem STOPPED_ne_STARTED : STOPPED ≠ STARTED := by decide

theorem CONFIGURED_ne_STARTED : CONFIGURED ≠ STARTED := by decide

/-- C28 (amended): `StopSimulation` returns the error "no running instance"
and leaves the controller as it is exactly when the status is STOPPED or there
is no instance. With an instance and a status other than STOPPED and STARTED
(CONFIGURED, ERROR) it succeeds at once with the status STOPPED and the
instance untouched. With the status STARTED and a consistent instance that has
been started it stops the instance, which keeps its identity and has an empty
registry afterwards, and succeeds with the status STOPPED. Whenever it
returns, it succeeds if and only if the status is not STOPPED and there is an
instance. -/
theorem StopSimulation_spec (app : CoreSimulatorApp) (now : Int) :
    ((app.status = STOPPED ∨ app.currentInstance = none) →
      app.StopSimulation now = some (Except.error "no running instance", app, none)) ∧
    (∀ inst, app.currentInstance = some inst → app.status ≠ STOPPED → app.status ≠ STARTED →
      app.StopSimulation now = some (Except.ok (), { app with status := STOPPED }, none)) ∧
    (∀ inst, app.currentInstance = some inst → app.status = STARTED →
      inst.ueGenContext ≠ none → inst.Consistent →
      ∃ inst' trace,
        app.StopSimulation now
          = some (Except.ok (), { app with currentInstance := some inst', status := STOPPED },
              some trace) ∧
        inst.Stop now = some (Except.ok (), inst', trace) ∧
        inst'.UeList = [] ∧ inst'.simId = inst.simId ∧ inst'.config = inst.config) ∧
    (∀ r app' trace, app.StopSimulation now = some (r, app', trace) →
      (r = Except.ok () ↔ app.status ≠ STOPPED ∧ app.currentInstance ≠ none)) := by
  refine ⟨?_, ?_, ?_, ?_⟩
  · intro h
    unfold CoreSimulatorApp.StopSimulation
    cases hi : app.currentInstance with
    | none => rfl
    | some inst =>
      rcases h with h | h
      · simp [h]
      · rw [hi] at h
        cases h
  · intro inst hi h₁ h₂
    unfold CoreSimulatorApp.StopSimulation
    simp [hi, h₁, h₂]
  · intro inst hi hs hg hc
    obtain ⟨inst', trace, h₁, h₂, h₃, h₄, h₅, _⟩ := StopSimulation_started app inst now hi hs hg hc
    exact ⟨inst', trace, h₁, h₂, h₃, h₄, h₅⟩
  · intro r app' trace h
    unfold CoreSimulatorApp.StopSimulation at h
    cases hi : app.currentInstance with
    | none =>
      simp only [hi, Option.some.injEq, Prod.mk.injEq] at h
      constructor
      · intro hr
        rw [hr] at h
        exact absurd h.1 (by simp)
      · intro hn
        exact absurd rfl hn.2
    | some inst =>
      simp only [hi] at h
      by_cases h₁ : app.status = STOPPED
      · simp only [h₁, if_true, Option.some.injEq, Prod.mk.injEq] at h
        constructor
        · intro hr
          rw [hr] at h
          exact absurd h.1 (by simp)
        · intro hn
          exact absurd h₁ hn.1
      · simp only [if_neg h₁] at h
        refine ⟨fun _ => ⟨h₁, by simp⟩, fun _ => ?_⟩
        by_cases h₂ : app.status = STARTED
        · simp only [h₂, if_true] at h
          cases hst : inst.Stop now with
          | none => simp [hst] at h
          | some res =>
            obtain ⟨r', inst', tr⟩ := res
            have hok := Stop_ok inst inst' now r' tr hst
            subst hok
            simp only [hst, Option.some.injEq, Prod.mk.injEq] at h
            exact h.1.symm
        · simp only [if_neg h₂, Option.some.injEq, Prod.mk.injEq] at h
          exact h.1.symm

/-- C28 fails from CONFIGURED: on the controller that `InitNewSimulation` has
configured (status CONFIGURED), `StopSimulation` succeeds and sets the status
STOPPED. -/
theorem StopSimulation_from_configured :
    ((NewCoreSimulatorApp exampleAppConfig).InitNewSimulation (some exampleNetworkConfig) "sim"
        65537).bind (fun r =>
          (r.2.StopSimulation 0).map fun s => (r.1, r.2.status, s.1, s.2.1.status))
      = some (Except.ok (), CONFIGURED, Except.ok (), STOPPED) := by
  obtain ⟨inst, h, _⟩ := InitNewSimulation_fresh (NewCoreSimulatorApp exampleAppConfig)
    exampleNetworkConfig "sim" 65537 (by norm_num) rfl
  rw [h]
  simp [CoreSimulatorApp.StopSimulation, CONFIGURED, STOPPED, STARTED]

/-- C29: with a network configuration, `InitNewSimulation` succeeds if and only
if the controller holds no instance; it then installs a new instance, which
has the drawn id, the configuration and an empty registry, and sets the status
CONFIGURED. With an instance, or without configuration, it returns an error and
leaves the controller as it is. `StopSimulation` never clears the instance, so
the error also comes after a Stop. -/
theorem InitNewSimulation_spec (app : CoreSimulatorApp) (config : NetworkConfig)
    (simId : String) (fuel : Nat) (hfuel : 2 ^ 16 < fuel) :
    (app.currentInstance = none →
      ∃ inst,
        app.InitNewSimulation (some config) simId fuel
          = some (Except.ok (), { app with currentInstance := some inst, status := CONFIGURED }) ∧
        inst.simId = simId ∧ inst.config = config ∧ inst.UeList = []) ∧
    (app.currentInstance ≠ none →
      app.InitNewSimulation (some config) simId fuel
        = some (Except.error
            "could not initialize the simulation instance, please stop or reset the current instance",
            app)) ∧
    app.InitNewSimulation none simId fuel
      = some (Except.error "no configuration provided, could not initialize", app) ∧
    (∀ r, app.InitNewSimulation (some config) simId fuel = some r →
      (r.1 = Except.ok () ↔ app.currentInstance = none)) ∧
    (∀ now r app' trace, app.currentInstance ≠ none →
      app.StopSimulation now = some (r, app', trace) →
      app'.currentInstance ≠ none ∧
      app'.InitNewSimulation (some config) simId fuel
        = some (Except.error
            "could not initialize the simulation instance, please stop or reset the current instance",
            app')) := by
  have hinst : ∀ a : CoreSimulatorApp, a.currentInstance ≠ none →
      a.InitNewSimulation (some config) simId fuel
        = some (Except.error
            "could not initialize the simulation instance, please stop or reset the current instance",
            a) := by
    intro a ha
    unfold CoreSimulatorApp.InitNewSimulation
    cases hi : a.currentInstance with
    | none => exact absurd hi ha
    | some inst => rfl
  refine ⟨?_, hinst app, rfl, ?_, ?_⟩
  · intro hnone
    obtain ⟨inst, h, h₁, h₂, h₃, _⟩ := InitNewSimulation_fresh app config simId fuel hfuel hnone
    exact ⟨inst, h, h₁, h₂, h₃⟩
  · intro r hr
    cases hi : app.currentInstance with
    | none =>
      obtain ⟨inst, h, _⟩ := InitNewSimulation_fresh app config simId fuel hfuel hi
      rw [h] at hr
      injection hr with hr
      subst hr
      simp
    | some inst =>
      rw [hinst app (by rw [hi]; simp)] at hr
      injection hr with hr
      subst hr
      simp
  · intro now r app' trace hne hstop
    have hkeep : app'.currentInstance ≠ none := by
      unfold CoreSimulatorApp.StopSimulation at hstop
      cases hi : app.currentInstance with
      | none => exact absurd hi hne
      | some inst =>
        simp only [hi] at hstop
        by_cases h₁ : app.status = STOPPED
        · simp only [h₁, if_true, Option.some.injEq, Prod.mk.injEq] at hstop
          rw [← hstop.2.1, hi]
          simp
        · simp only [if_neg h₁] at hstop
          by_cases h₂ : app.status = STARTED
          · simp only [h₂, if_true] at hstop
            cases hst : inst.Stop now with
            | none => simp [hst] at hstop
            | some res =>
              obtain ⟨r', inst', tr⟩ := res
              have hok := Stop_ok inst inst' now r' tr hst
              subst hok
              simp only [hst, Option.some.injEq, Prod.mk.injEq] at hstop
              rw [← hstop.2.1]
              simp
          · simp only [if_neg h₂, Option.some.injEq, Prod.mk.injEq] at hstop
            rw [← hstop.2.1]
            simp [hi]
    exact ⟨hkeep, hinst app' hkeep⟩

/-- Witness of C29: the first configuration of a fresh controller. -/
theorem InitNewSimulation_spec_witness :
    2 ^ 16 < 65537 ∧
    ∃ inst,
      (NewCoreSimulatorApp exampleAppConfig).InitNewSimulation (some exampleNetworkConfig) "sim"
          65537
        = some (Except.ok (),
            { NewCoreSimulatorApp exampleAppConfig with
              currentInstance := some inst, status := CONFIGURED }) ∧
      inst.simId = "sim" ∧ inst.config = exampleNetworkConfig ∧ inst.UeList = [] :=
  ⟨by norm_num,
   (InitNewSimulation_spec (NewCoreSimulatorApp exampleAppConfig) exampleNetworkConfig "sim" 65537
      (by norm_num)).1 rfl⟩

/-- C30: from a fresh controller the calls Configure, Start, Stop, Start all
succeed, the statuses after them are CONFIGURED, STARTED, STOPPED, STARTED, and
the instance held after each call, the final Start included, is the one that
Configure created: same id and configuration (Stop keeps the instance). The
same holds for the calls Stop, Start on any controller with the status STARTED
whose instance has been started and is consistent, whatever UEs its registry
holds. -/
theorem restart_contract (cfg : AppConfig) (net : NetworkConfig) (simId : String) (fuel : Nat)
    (hfuel : 2 ^ 16 < fuel) (t₁ t₂ t₃ : Int) :
    (∃ app₁ app₂ app₃ app₄ inst₁ inst₂ inst₃ inst₄ trace₂ trace₃ trace₄,
      (NewCoreSimulatorApp cfg).InitNewSimulation (some net) simId fuel
        = some (Except.ok (), app₁) ∧
      app₁.StartSimulation t₁ = some (Except.ok (), app₂, trace₂) ∧
      app₂.StopSimulation t₂ = some (Except.ok (), app₃, trace₃) ∧
      app₃.StartSimulation t₃ = some (Except.ok (), app₄, trace₄) ∧
      app₁.status = CONFIGURED ∧ app₂.status = STARTED ∧
      app₃.status = STOPPED ∧ app₄.status = STARTED ∧
      app₁.currentInstance = some inst₁ ∧ app₂.currentInstance = some inst₂ ∧
      app₃.currentInstance = some inst₃ ∧ app₄.currentInstance = some inst₄ ∧
      inst₁.simId = simId ∧ inst₂.simId = simId ∧ inst₃.simId = simId ∧ inst₄.simId = simId ∧
      inst₁.config = net ∧ inst₄.config = net) ∧
    (∀ (app : CoreSimulatorApp) (inst : NetworkInstance),
      app.currentInstance = some inst → app.status = STARTED →
      inst.ueGenContext ≠ none → inst.Consistent →
      ∃ app₃ app₄ inst₃ inst₄ trace₃ trace₄,
        app.StopSimulation t₂ = some (Except.ok (), app₃, trace₃) ∧
        app₃.StartSimulation t₃ = some (Except.ok (), app₄, trace₄) ∧
        app₃.status = STOPPED ∧ app₄.status = STARTED ∧
        app₃.currentInstance = some inst₃ ∧ app₄.currentInstance = some inst₄ ∧
        inst₃.simId = inst.simId ∧ inst₄.simId = inst.simId ∧
        inst₃.config = inst.config ∧ inst₄.config = inst.config) := by
  have second : ∀ (app : CoreSimulatorApp) (inst : NetworkInstance),
      app.currentInstance = some inst → app.status = STARTED →
      inst.ueGenContext ≠ none → inst.Consistent →
      ∃ app₃ app₄ inst₃ inst₄ trace₃ trace₄,
        app.StopSimulation t₂ = some (Except.ok (), app₃, trace₃) ∧
        app₃.StartSimulation t₃ = some (Except.ok (), app₄, trace₄) ∧
        app₃.status = STOPPED ∧ app₄.status = STARTED ∧
        app₃.currentInstance = some inst₃ ∧ app₄.currentInstance = some inst₄ ∧
        inst₃.simId = inst.simId ∧ inst₄.simId = inst.simId ∧
        inst₃.config = inst.config ∧ inst₄.config = inst.config := by
    intro app inst hi hs hg hc
    obtain ⟨inst₃, trace₃, hstop, _, _, hid, hcfg, _⟩ :=
      StopSimulation_started app inst t₂ hi hs hg hc
    have hstart := StartSimulation_not_started
      { app with currentInstance := some inst₃, status := STOPPED } inst₃ t₃ rfl
      STOPPED_ne_STARTED
    exact ⟨_, _, inst₃, _, some trace₃, none, hstop, hstart, rfl, rfl, rfl, rfl, hid, hid,
      hcfg, hcfg⟩
  refine ⟨?_, second⟩
  obtain ⟨inst₁, hinit, hid₁, hcfg₁, _, _, hc₁⟩ :=
    InitNewSimulation_fresh (NewCoreSimulatorApp cfg) net simId fuel hfuel rfl
  have hstart₁ := StartSimulation_not_started
    { NewCoreSimulatorApp cfg with currentInstance := some inst₁, status := CONFIGURED }
    inst₁ t₁ rfl CONFIGURED_ne_STARTED
  have hc₂ : ({ inst₁ with
      ueGenContext := some false
      arrivalLoops := inst₁.arrivalLoops ++ [{ entered := false, i := 0 }] } :
      NetworkInstance).Consistent := hc₁
  obtain ⟨app₃, app₄, inst₃, inst₄, trace₃, trace₄, hstop, hstart₂, hs₃, hs₄, hi₃, hi₄,
    hid₃, hid₄, _, hcfg₄⟩ :=
    second
      { NewCoreSimulatorApp cfg with
        currentInstance := some
          { inst₁ with
            ueGenContext := some false
            arrivalLoops := inst₁.arrivalLoops ++ [{ entered := false, i := 0 }] }
        status := STARTED } _ rfl rfl (by simp) hc₂
  exact ⟨_, _, app₃, app₄, inst₁, _, inst₃, inst₄, none, trace₃, trace₄, hinit, hstart₁, hstop,
    hstart₂, rfl, rfl, hs₃, hs₄, rfl, rfl, hi₃, hi₄, hid₁, hid₁, hid₃.trans hid₁,
    hid₄.trans hid₁, hcfg₁, hcfg₄.trans hcfg₁⟩

/-- Witness of C30: the controller and the network configuration of the
examples. -/
theorem restart_contract_witness :
    2 ^ 16 < 65537 ∧
    ∃ app₁ app₂ app₃ app₄ trace₂ trace₃ trace₄,
      (NewCoreSimulatorApp exampleAppConfig).InitNewSimulation (some exampleNetworkConfig) "sim"
          65537 = some (Except.ok (), app₁) ∧
      app₁.StartSimulation 1 = some (Except.ok (), app₂, trace₂) ∧
      app₂.StopSimulation 2 = some (Except.ok (), app₃, trace₃) ∧
      app₃.StartSimulation 3 = some (Except.ok (), app₄, trace₄) ∧
      app₄.status = STARTED ∧ (app₄.currentInstance.map fun n => n.simId) = some "sim" := by
  refine ⟨by norm_num, ?_⟩
  obtain ⟨⟨app₁, app₂, app₃, app₄, _, _, _, inst₄, trace₂, trace₃, trace₄, h₁, h₂, h₃, h₄, _, _,
    _, hs, _, _, _, hi, _, _, _, hid, _⟩, _⟩ :=
    restart_contract exampleAppConfig exampleNetworkConfig "sim" 65537 (by norm_num) 1 2 3
  exact ⟨app₁, app₂, app₃, app₄, trace₂, trace₃, trace₄, h₁, h₂, h₃, h₄, hs, by rw [hi, ← hid]; rfl⟩

end simulator

/-! ## Sleep, release of unknown sessions, usage counters -/

namespace ran

open models

/-- C33 fails on the code: `Sleep` has no test of the registration state. The
fresh UE of the examples is not registered, and `Sleep` sends an AMF
CONNECTIVITY_STATE_REPORT for it. -/
theorem Sleep_unregistered_sends :
    exampleUe.RmStatus = RmStateDeregistered ∧
    exampleUe.RmStatus ≠ RmStateRegistered ∧
    (exampleUe.Sleep false 1).2
      = [{ sender := "208950000000001"
           recipient := "AMF"
           msgType := UeToAmfType
           payload := Payload.UeToAmf
             { EventType := AMFEVENTTYPEANYOF_CONNECTIVITY_STATE_REPORT
               TimeStamp := 1
               RmState := RmStateDeregistered
               CmState := CmStateIdle
               Supi := "208950000000001"
               Gpsi := "33600000001"
               PlmnId := { Mcc := "208", Mnc := "95" }
               CurrentCellId := ""
               AccessType := ACCESSTYPE__3_GPP_ACCESS } }] := by
  decide

/-- C34: in a state in which the allocator has a binding for `(supi, id)` only
if the session map has the entry `id`, `ReleasePduSession` with an id that is
not in the session map returns (the cancel function of the zero session is not
called), leaves the UE, with its session map, and the allocator as they were
and sends nothing; so on every id it does what the release with an early
return on the miss does. -/
theorem ReleasePduSession_unknown_id (ue : Ue) (al : utils.IPAllocator) (now : Int)
    (hinv : ∀ id, al.allocated.lookup (utils.userString ue.Imsi id) ≠ none →
      ue.PduSessions.lookup id ≠ none) :
    (∀ sessionId, ue.PduSessions.lookup sessionId = none →
      ue.ReleasePduSession al sessionId now = some (ue, al, [])) ∧
    (∀ sessionId,
      ue.ReleasePduSession al sessionId now = ue.ReleasePduSessionEarlyReturn al sessionId now) := by
  have miss : ∀ sessionId, ue.PduSessions.lookup sessionId = none →
      ue.ReleasePduSession al sessionId now = some (ue, al, []) := by
    intro sessionId habs
    rcases ReleasePduSession_cases ue al sessionId now with
      ⟨_, hr⟩ | ⟨ip, hl, _, _⟩ | ⟨ip, sess, _, hs, _⟩
    · exact hr
    · exact absurd habs (hinv sessionId (by rw [hl]; simp))
    · rw [habs] at hs
      cases hs
  refine ⟨miss, ?_⟩
  intro sessionId
  unfold Ue.ReleasePduSessionEarlyReturn
  cases hs : ue.PduSessions.lookup sessionId with
  | none => exact miss sessionId hs
  | some sess => rfl

/-- Witness of C34: the UE of the examples with the session 1 only; the
session 2 is unknown. -/
theorem ReleasePduSession_unknown_id_witness :
    (exampleUeWithSession 1).PduSessions.lookup 2 = none ∧
    (exampleUeWithSession 1).ReleasePduSession (exampleAllocator 1) 2 7
      = some (exampleUeWithSession 1, exampleAllocator 1, []) :=
  ⟨by decide,
   (ReleasePduSession_unknown_id (exampleUeWithSession 1) (exampleAllocator 1) 7 (by
      intro id hb
      have hid : id = 1 := by
        by_contra hne
        apply hb
        have hk : utils.userString "208950000000001" 1 ≠ utils.userString "208950000000001" id :=
          fun e => hne (utils.userString_id_injective _ e).symm
        simp [exampleAllocator, exampleUeWithSession, exampleUe, NewUserEquipment,
          utils.GoMap.lookup, hk]
      subst hid
      decide)).1 2 (by decide)⟩

end ran

namespace models

theorem wrapInt64_add_left (x y : Int) : wrapInt64 (wrapInt64 x + y) = wrapInt64 (x + y) := by
  unfold wrapInt64
  omega

theorem wrapInt64_add_right (x y : Int) : wrapInt64 (x + wrapInt64 y) = wrapInt64 (x + y) := by
  unfold wrapInt64
  omega

theorem NewPacket_totals (stats : UpStats) (ul : Bool) (size timestamp : Int)
    (hp : stats.NumOfPackets = wrapInt64 (stats.NumUlPackets + stats.NumDlPackets))
    (hb : stats.TotalBytes = wrapInt64 (stats.TotalUlBytes + stats.TotalDlBytes)) :
    (stats.NewPacket ul size timestamp).NumOfPackets
      = wrapInt64 ((stats.NewPacket ul size timestamp).NumUlPackets
          + (stats.NewPacket ul size timestamp).NumDlPackets) ∧
    (stats.NewPacket ul size timestamp).TotalBytes
      = wrapInt64 ((stats.NewPacket ul size timestamp).TotalUlBytes
          + (stats.NewPacket ul size timestamp).TotalDlBytes) := by
  cases ul with
  | true =>
    simp only [UpStats.NewPacket, if_true, hp, hb]
    refine ⟨?_, ?_⟩
    · rw [wrapInt64_add_left, wrapInt64_add_left]
      congr 1
      ring
    · rw [wrapInt64_add_left, wrapInt64_add_left]
      congr 1
      ring
  | false =>
    simp only [UpStats.NewPacket, Bool.false_eq_true, if_false, hp, hb]
    refine ⟨?_, ?_⟩
    · rw [wrapInt64_add_left, wrapInt64_add_right]
      congr 1
      ring
    · rw [wrapInt64_add_left, wrapInt64_add_right]
      congr 1
      ring

theorem NewPacket_fold_totals : ∀ (pkts : List (Bool × Int × Int)) (stats : UpStats),
    stats.NumOfPackets = wrapInt64 (stats.NumUlPackets + stats.NumDlPackets) →
    stats.TotalBytes = wrapInt64 (stats.TotalUlBytes + stats.TotalDlBytes) →
    (pkts.foldl (fun s p => s.NewPacket p.1 p.2.1 p.2.2) stats).NumOfPackets
      = wrapInt64 ((pkts.foldl (fun s p => s.NewPacket p.1 p.2.1 p.2.2) stats).NumUlPackets
          + (pkts.foldl (fun s p => s.NewPacket p.1 p.2.1 p.2.2) stats).NumDlPackets) ∧
    (pkts.foldl (fun s p => s.NewPacket p.1 p.2.1 p.2.2) stats).TotalBytes
      = wrapInt64 ((pkts.foldl (fun s p => s.NewPacket p.1 p.2.1 p.2.2) stats).TotalUlBytes
          + (pkts.foldl (fun s p => s.NewPacket p.1 p.2.1 p.2.2) stats).TotalDlBytes) := by
  intro pkts
  induction pkts with
  | nil =>
    intro stats hp hb
    exact ⟨hp, hb⟩
  | cons p rest ih =>
    intro stats hp hb
    obtain ⟨hp', hb'⟩ := NewPacket_totals stats p.1 p.2.1 p.2.2 hp hb
    exact ih _ hp' hb'

end models

namespace core

open models

/-- C38: after every sequence of `NewPacket` calls on `NewUpStats(id)`, each
with its direction, size and instant, `NumOfPackets` is
`NumUlPackets + NumDlPackets` and `TotalBytes` is `TotalUlBytes + TotalDlBytes`
in `int64` arithmetic (modulo 2^64); a UL packet leaves the DL counters as they
are and a DL packet the UL counters; and the notification of a QOS_MON message
that carries the report of such stats has `Total = Uplink + Downlink` for the
bytes and for the packet counts. -/
theorem UpStats_totals (id now : Int) (pkts : List (Bool × Int × Int)) (msg : UeToSmfMsg) :
    (pkts.foldl (fun s p => s.NewPacket p.1 p.2.1 p.2.2) (NewUpStats id now)).NumOfPackets
      = wrapInt64
          ((pkts.foldl (fun s p => s.NewPacket p.1 p.2.1 p.2.2) (NewUpStats id now)).NumUlPackets
            + (pkts.foldl (fun s p => s.NewPacket p.1 p.2.1 p.2.2)
                (NewUpStats id now)).NumDlPackets) ∧
    (pkts.foldl (fun s p => s.NewPacket p.1 p.2.1 p.2.2) (NewUpStats id now)).TotalBytes
      = wrapInt64
          ((pkts.foldl (fun s p => s.NewPacket p.1 p.2.1 p.2.2) (NewUpStats id now)).TotalUlBytes
            + (pkts.foldl (fun s p => s.NewPacket p.1 p.2.1 p.2.2)
                (NewUpStats id now)).TotalDlBytes) ∧
    (∀ (stats : UpStats) (size timestamp : Int),
      (stats.NewPacket true size timestamp).NumDlPackets = stats.NumDlPackets ∧
      (stats.NewPacket true size timestamp).TotalDlBytes = stats.TotalDlBytes ∧
      (stats.NewPacket true size timestamp).LastDlSizeArrived = stats.LastDlSizeArrived ∧
      (stats.NewPacket true size timestamp).LastDlUpdate = stats.LastDlUpdate ∧
      (stats.NewPacket false size timestamp).NumUlPackets = stats.NumUlPackets ∧
      (stats.NewPacket false size timestamp).TotalUlBytes = stats.TotalUlBytes ∧
      (stats.NewPacket false size timestamp).LastUlSizeArrived = stats.LastUlSizeArrived ∧
      (stats.NewPacket false size timestamp).LastUlUpdate = stats.LastUlUpdate) ∧
    (∃ notif event report,
      smfNotification
          { msg with
            EventType := SMFEVENTANYOF_QOS_MON
            UpReport := some (pkts.foldl (fun s p => s.NewPacket p.1 p.2.1 p.2.2)
              (NewUpStats id now)).GenerateReport }
        = some notif ∧
      notif.EventNotifs = [event] ∧ event.CustomizedData = some report ∧
      report.Volume.Total = wrapInt64 (report.Volume.Uplink + report.Volume.Downlink) ∧
      report.NoP.Total = wrapInt64 (report.NoP.Uplink + report.NoP.Downlink)) := by
  obtain ⟨hp, hb⟩ := NewPacket_fold_totals pkts (NewUpStats id now) (by
    simp [NewUpStats, wrapInt64]) (by simp [NewUpStats, wrapInt64])
  refine ⟨hp, hb, ?_, ?_⟩
  · intro stats size timestamp
    simp [UpStats.NewPacket]
  · have h₁ : ¬ SMFEVENTANYOF_QOS_MON = SMFEVENTANYOF_PDU_SES_EST := by decide
    have h₂ : ¬ SMFEVENTANYOF_QOS_MON = SMFEVENTANYOF_PDU_SES_REL := by decide
    have h₃ : ¬ SMFEVENTANYOF_QOS_MON = SMFEVENTANYOF_DDDS := by decide
    generalize pkts.foldl (fun s p => s.NewPacket p.1 p.2.1 p.2.2) (NewUpStats id now) = s
      at hp hb
    refine ⟨{ NotifId := "test"
              EventNotifs :=
                [{ Event := SMFEVENTANYOF_QOS_MON
                   TimeStamp := msg.TimeStamp
                   Supi := msg.Supi
                   Gpsi := msg.Gpsi
                   Dnn := msg.Dnn
                   Snssai := msg.Snssai
                   AccType := msg.AccessType
                   PduSeId := msg.PduSessId
                   PlmnId := msg.PlmnId
                   CustomizedData := some
                     { Volume :=
                         { Downlink := s.TotalDlBytes
                           Uplink := s.TotalUlBytes
                           Total := s.TotalBytes }
                       NoP :=
                         { Downlink := s.NumDlPackets
                           Uplink := s.NumUlPackets
                           Total := s.NumOfPackets }
                       Trigger := "PERIODIC"
                       SeId := msg.PduSessId } }] },
      _, _, ?_, rfl, rfl, hb, hp⟩
    simp only [smfNotification, h₁, h₂, h₃, if_false, if_true, Option.map_some',
      UpStats.GenerateReport]

end core

/-! ## Conservation of the pool and safety of the lookup -/

namespace utils

namespace GoMap

theorem not_mem_keys_of_lookup_none (m : GoMap) (k : String) (h : m.lookup k = none) :
    k ∉ m.map Prod.fst := by
  induction m with
  | nil => simp
  | cons p rest ih =>
    obtain ⟨k', v⟩ := p
    simp only [lookup] at h
    by_cases hk : k' = k
    · simp [hk] at h
    · simp only [hk, if_false] at h
      simp only [List.map_cons, List.mem_cons, not_or]
      exact ⟨fun e => hk e.symm, ih h⟩

theorem delete_of_not_mem (m : GoMap) (k : String) (h : k ∉ m.map Prod.fst) :
    delete m k = m := by
  unfold delete
  rw [List.filter_eq_self]
  intro p hp
  have : p.1 ≠ k := fun e => h (e ▸ List.mem_map_of_mem Prod.fst hp)
  simpa using this

theorem keys_delete_nodup (m : GoMap) (k : String) (h : (m.map Prod.fst).Nodup) :
    ((delete m k).map Prod.fst).Nodup := by
  unfold delete
  exact h.sublist ((List.filter_sublist m).map Prod.fst)

theorem mem_iff_lookup (m : GoMap) (h : (m.map Prod.fst).Nodup) (k v : String) :
    (k, v) ∈ m ↔ m.lookup k = some v := by
  induction m with
  | nil => simp [lookup]
  | cons p rest ih =>
    obtain ⟨k', v'⟩ := p
    have hnd := List.nodup_cons.1 (by simpa using h : (k' :: rest.map Prod.fst).Nodup)
    by_cases hk : k' = k
    · subst hk
      have hl : lookup ((k', v') :: rest) k' = some v' := by simp [lookup]
      rw [hl]
      constructor
      · intro hm
        rcases List.mem_cons.1 hm with e | hm
        · injection e with _ e
          rw [e]
        · exact absurd (List.mem_map_of_mem Prod.fst hm) hnd.1
      · intro e
        injection e with e
        rw [e]
        exact List.mem_cons_self _ _
    · have hl : lookup ((k', v') :: rest) k = lookup rest k := by simp [lookup, hk]
      rw [hl, ← ih hnd.2]
      constructor
      · intro hm
        rcases List.mem_cons.1 hm with e | hm
        · injection e with e _
          exact absurd e.symm hk
        · exact hm
      · exact List.mem_cons_of_mem _

theorem values_delete_perm (m : GoMap) (h : (m.map Prod.fst).Nodup) (k v : String)
    (hl : m.lookup k = some v) :
    (m.map Prod.snd).Perm (v :: (delete m k).map Prod.snd) := by
  induction m with
  | nil => simp [lookup] at hl
  | cons p rest ih =>
    obtain ⟨k', v'⟩ := p
    simp only [List.map_cons, List.nodup_cons] at h
    simp only [lookup] at hl
    by_cases hk : k' = k
    · subst hk
      simp only [if_true, Option.some.injEq] at hl
      subst hl
      have hd : delete ((k', v') :: rest) k' = delete rest k' := by
        unfold delete
        simp [List.filter_cons]
      rw [hd, delete_of_not_mem rest k' h.1]
      exact List.Perm.refl _
    · simp only [hk, if_false] at hl
      have hd : delete ((k', v') :: rest) k = (k', v') :: delete rest k := by
        unfold delete
        simp [List.filter_cons, hk]
      rw [hd]
      simp only [List.map_cons]
      exact ((ih h.2 hl).cons v').trans (List.Perm.swap _ _ _)

end GoMap

/-- What the pool keeps: the keys of the forward map are distinct, and the free
addresses with the bound ones are the addresses of `pool`. -/
theorem conservation_AllocateIP (pool : List String) (al : IPAllocator) (supi : String)
    (pduSessId : Int) (hk : (al.allocated.map Prod.fst).Nodup)
    (hp : (al.availableIPs ++ al.boundIPs).Perm pool) :
    ((AllocateIP al supi pduSessId).2.allocated.map Prod.fst).Nodup ∧
    ((AllocateIP al supi pduSessId).2.availableIPs
      ++ (AllocateIP al supi pduSessId).2.boundIPs).Perm pool := by
  unfold AllocateIP
  cases hl : al.allocated.lookup (userString supi pduSessId) with
  | some x => exact ⟨by simpa [hl] using hk, by simpa [hl] using hp⟩
  | none =>
    cases hf : al.availableIPs with
    | nil =>
      refine ⟨by simpa [hl, hf] using hk, ?_⟩
      rw [hf] at hp
      simpa [hl, hf] using hp
    | cons ip rest =>
      have hnot := GoMap.not_mem_keys_of_lookup_none _ _ hl
      have hdel := GoMap.delete_of_not_mem _ _ hnot
      simp only [hl, hf, GoMap.store, hdel, IPAllocator.boundIPs, List.map_cons]
      refine ⟨List.nodup_cons.2 ⟨hnot, hk⟩, ?_⟩
      rw [hf] at hp
      simp only [IPAllocator.boundIPs, List.cons_append] at hp
      exact (List.perm_middle).trans hp

theorem conservation_ReleaseIP (pool : List String) (al : IPAllocator) (supi : String)
    (pduSessId : Int) (hk : (al.allocated.map Prod.fst).Nodup)
    (hp : (al.availableIPs ++ al.boundIPs).Perm pool) :
    ((ReleaseIP al supi pduSessId).2.allocated.map Prod.fst).Nodup ∧
    ((ReleaseIP al supi pduSessId).2.availableIPs
      ++ (ReleaseIP al supi pduSessId).2.boundIPs).Perm pool := by
  unfold ReleaseIP
  cases hl : al.allocated.lookup (userString supi pduSessId) with
  | none => exact ⟨by simpa [hl] using hk, by simpa [hl] using hp⟩
  | some ip =>
    simp only [hl, IPAllocator.boundIPs, List.singleton_append, List.cons_append]
    refine ⟨GoMap.keys_delete_nodup _ _ hk, ?_⟩
    have hv := GoMap.values_delete_perm _ hk _ _ hl
    simp only [IPAllocator.boundIPs] at hp
    refine List.Perm.trans ?_ hp
    exact (List.perm_middle.symm).trans (List.Perm.append_left _ hv.symm)

theorem ReachableFrom_conservation (init al : IPAllocator) (h : ReachableFrom init al)
    (hI : Inv init) (hk : (init.allocated.map Prod.fst).Nodup) :
    Inv al ∧ (al.allocated.map Prod.fst).Nodup ∧
    (al.availableIPs ++ al.boundIPs).Perm (init.availableIPs ++ init.boundIPs) := by
  induction h with
  | start => exact ⟨hI, hk, List.Perm.refl _⟩
  | allocate al supi pduSessId _ ih =>
    obtain ⟨h₁, h₂, h₃⟩ := ih
    exact ⟨Inv_AllocateIP al supi pduSessId h₁,
      conservation_AllocateIP _ al supi pduSessId h₂ h₃⟩
  | release al supi pduSessId _ ih =>
    obtain ⟨h₁, h₂, h₃⟩ := ih
    exact ⟨Inv_ReleaseIP al supi pduSessId h₁,
      conservation_ReleaseIP _ al supi pduSessId h₂ h₃⟩

/-- C35: in every state reached from the pool of `NewIpamService` on an IPv4
block by calls of `AllocateIP` and `ReleaseIP`, successful or failing, the free
list has no duplicate, no free address is the value of a binding, the forward
and the inverse map are inverse to each other, and the free addresses together
with the bound ones, one per binding, are a rearrangement of the initial pool;
so the number of free addresses plus the number of bindings is the size of the
initial pool. -/
theorem pool_conservation (fuel a b c d ones : Nat) (init al : IPAllocator)
    (ha : a < 256) (hb : b < 256) (hc : c < 256) (hd : d < 256) (hones : ones ≤ 32)
    (hinit : NewIpamService fuel (some (ipv4Net a b c d ones)) = some (some init))
    (h : ReachableFrom init al) :
    al.availableIPs.Nodup ∧
    (∀ ip ∈ al.availableIPs, ∀ k, al.allocated.lookup k ≠ some ip) ∧
    (∀ k ip, al.allocated.lookup k = some ip ↔ al.ipToUser.lookup ip = some k) ∧
    (al.allocated.map Prod.fst).Nodup ∧
    (∀ ip, ip ∈ al.boundIPs ↔ ∃ k, al.allocated.lookup k = some ip) ∧
    (al.availableIPs ++ al.boundIPs).Perm init.availableIPs ∧
    (∀ ip, ip ∈ init.availableIPs ↔ ip ∈ al.availableIPs ∨ ip ∈ al.boundIPs) ∧
    al.availableIPs.length + al.allocated.length = init.availableIPs.length := by
  have hI₀ : Inv init :=
    Reachable_Inv init (Reachable.init fuel a b c d ones init ha hb hc hd hones hinit)
  obtain ⟨_, hinit'⟩ := Reachable_init_eq fuel a b c d ones init ha hb hc hd hones hinit
  have hk₀ : (init.allocated.map Prod.fst).Nodup := by
    rw [hinit']
    exact List.nodup_nil
  obtain ⟨hI, hk, hp⟩ := ReachableFrom_conservation init al h hI₀ hk₀
  have hb₀ : init.boundIPs = [] := by
    rw [hinit']
    rfl
  rw [hb₀, List.append_nil] at hp
  refine ⟨hI.nodup, ?_, ?_, hk, ?_, hp, ?_, ?_⟩
  · intro ip hip k hl
    have := hI.free ip hip
    rw [hI.fwd k ip hl] at this
    cases this
  · intro k ip
    exact ⟨hI.fwd k ip, hI.bwd ip k⟩
  · intro ip
    simp only [IPAllocator.boundIPs, List.mem_map, Prod.exists, exists_eq_right]
    constructor
    · rintro ⟨k, hm⟩
      exact ⟨k, (GoMap.mem_iff_lookup _ hk k ip).1 hm⟩
    · rintro ⟨k, hl⟩
      exact ⟨k, (GoMap.mem_iff_lookup _ hk k ip).2 hl⟩
  · intro ip
    rw [← hp.mem_iff, List.mem_append]
  · have := hp.length_eq
    simpa [IPAllocator.boundIPs] using this

/-- Witness of C35: the pool of `10.0.0.0/30` after one allocation. -/
theorem pool_conservation_witness :
    NewIpamService 5 (some (ipv4Net 10 0 0 0 30))
      = some (some ⟨["10.0.0.1", "10.0.0.2"], [], []⟩) ∧
    ((AllocateIP ⟨["10.0.0.1", "10.0.0.2"], [], []⟩ "208950000000001" 1).2.availableIPs
      ++ (AllocateIP ⟨["10.0.0.1", "10.0.0.2"], [], []⟩ "208950000000001" 1).2.boundIPs).Perm
        ["10.0.0.1", "10.0.0.2"] ∧
    (AllocateIP ⟨["10.0.0.1", "10.0.0.2"], [], []⟩ "208950000000001" 1).2.availableIPs.length
      + (AllocateIP ⟨["10.0.0.1", "10.0.0.2"], [], []⟩ "208950000000001" 1).2.allocated.length
      = 2 :=
  ⟨by decide,
   (pool_conservation 5 10 0 0 0 30 ⟨["10.0.0.1", "10.0.0.2"], [], []⟩ _ (by decide) (by decide)
      (by decide) (by decide) (by decide) (by decide)
      (ReachableFrom.allocate _ "208950000000001" 1 ReachableFrom.start)).2.2.2.2.2.1,
   (pool_conservation 5 10 0 0 0 30 ⟨["10.0.0.1", "10.0.0.2"], [], []⟩ _ (by decide) (by decide)
      (by decide) (by decide) (by decide) (by decide)
      (ReachableFrom.allocate _ "208950000000001" 1 ReachableFrom.start)).2.2.2.2.2.2.2⟩

theorem splitOnP_length (p : Char → Bool) : ∀ xs : List Char, (∃ x ∈ xs, p x = true) →
    2 ≤ (xs.splitOnP p).length := by
  intro xs
  induction xs with
  | nil =>
    rintro ⟨x, hx, _⟩
    cases hx
  | cons x xs ih =>
    intro h
    rw [List.splitOnP_cons]
    by_cases hp : p x = true
    · simp only [hp, if_true, List.length_cons]
      have := List.length_pos.2 (List.splitOnP_ne_nil p xs)
      omega
    · simp only [hp, if_false]
      have hx : ∃ y ∈ xs, p y = true := by
        obtain ⟨y, hy, hpy⟩ := h
        rcases List.mem_cons.1 hy with rfl | hy
        · exact absurd hpy hp
        · exact ⟨y, hy, hpy⟩
      have := ih hx
      simpa using this

theorem Split_length (k : String) (h : '-' ∈ k.data) : 2 ≤ (Split k '-').length := by
  unfold Split List.splitOn
  rw [List.length_map]
  exact splitOnP_length _ _ ⟨'-', h, by simp⟩

theorem Reachable_hyphen (al : IPAllocator) (h : Reachable al) :
    ∀ ip k, al.ipToUser.lookup ip = some k → '-' ∈ k.data := by
  induction h with
  | init fuel a b c d ones al ha hb hc hd hones h =>
    obtain ⟨_, rfl⟩ := Reachable_init_eq fuel a b c d ones al ha hb hc hd hones h
    intro ip k hk
    cases hk
  | allocate al supi pduSessId _ ih =>
    intro ip k hk
    unfold AllocateIP at hk
    cases hl : al.allocated.lookup (userString supi pduSessId) with
    | some x =>
      simp only [hl] at hk
      exact ih ip k hk
    | none =>
      cases hf : al.availableIPs with
      | nil =>
        simp only [hl, hf] at hk
        exact ih ip k hk
      | cons ip₀ rest =>
        simp only [hl, hf] at hk
        by_cases he : ip = ip₀
        · subst he
          rw [GoMap.lookup_store_self] at hk
          injection hk with hk
          rw [← hk, userString_data]
          simp
        · rw [GoMap.lookup_store_ne _ _ he] at hk
          exact ih ip k hk
  | release al supi pduSessId _ ih =>
    intro ip k hk
    unfold ReleaseIP at hk
    cases hl : al.allocated.lookup (userString supi pduSessId) with
    | none =>
      simp only [hl] at hk
      exact ih ip k hk
    | some ip₀ =>
      simp only [hl] at hk
      by_cases he : ip = ip₀
      · subst he
        rw [GoMap.lookup_delete_self] at hk
        cases hk
      · rw [GoMap.lookup_delete_ne _ he] at hk
        exact ih ip k hk

/-- C37: in every state reachable from `NewIpamService` by calls of `AllocateIP`
and `ReleaseIP`, every value of the inverse map contains a `-`, so its split
has at least two elements, and for every string `ip` the call
`GetUserStringOk(ip)` returns, without the index panic: not-found or a
result. -/
theorem GetUserStringOk_returns (al : IPAllocator) (h : Reachable al) :
    (∀ ip k, al.ipToUser.lookup ip = some k →
      '-' ∈ k.data ∧ 2 ≤ (Split k '-').length) ∧
    (∀ ip, ∃ user pduSessId ok, GetUserStringOk al ip = some (user, pduSessId, ok)) := by
  have hy := Reachable_hyphen al h
  refine ⟨fun ip k hk => ⟨hy ip k hk, Split_length k (hy ip k hk)⟩, ?_⟩
  intro ip
  unfold GetUserStringOk
  cases hl : al.ipToUser.lookup ip with
  | none => exact ⟨"", 0, false, rfl⟩
  | some k =>
    have hlen := Split_length k (hy ip k hl)
    cases hs : Split k '-' with
    | nil =>
      rw [hs] at hlen
      simp at hlen
    | cons user rest =>
      cases rest with
      | nil =>
        rw [hs] at hlen
        simp at hlen
      | cons second rest' =>
        cases hat : Atoi second with
        | none =>
          simp only [hs, hat]
          exact ⟨"", 0, false, rfl⟩
        | some v =>
          simp only [hs, hat]
          exact ⟨user, toInt32 v, true, rfl⟩

/-- Witness of C37: the pool of `10.0.0.0/30` after the allocation for the SUPI
`a-b`, whose key has two hyphens. -/
theorem GetUserStringOk_returns_witness :
    Reachable (AllocateIP ⟨["10.0.0.1", "10.0.0.2"], [], []⟩ "a-b" 1).2 ∧
    ∃ user pduSessId ok,
      GetUserStringOk (AllocateIP ⟨["10.0.0.1", "10.0.0.2"], [], []⟩ "a-b" 1).2 "10.0.0.1"
        = some (user, pduSessId, ok) :=
  ⟨Reachable.allocate _ "a-b" 1 Reachable_slash30,
   (GetUserStringOk_returns _ (Reachable.allocate _ "a-b" 1 Reachable_slash30)).2 "10.0.0.1"⟩

end utils

/-! ## Start of the controller and the arrival loop -/

namespace simulator

open models

/-- C31 (amended): `StartSimulation` returns an error and leaves the controller
as it is exactly when there is no instance. With an instance and a status other
than STARTED (CONFIGURED, STOPPED, ERROR) it starts the instance and succeeds
with the status STARTED. With the status STARTED and a consistent instance that
has been started it stops the instance, starts it again and succeeds with the
status STARTED. Whenever it returns, it succeeds if and only if there is an
instance. -/
theorem StartSimulation_spec (app : CoreSimulatorApp) (now : Int) :
    (app.currentInstance = none →
      app.StartSimulation now
        = some (Except.error "please configure the simulation via /configure", app, none)) ∧
    (∀ inst, app.currentInstance = some inst → app.status ≠ STARTED →
      app.StartSimulation now
        = some (Except.ok (),
            { app with currentInstance := some inst.Start.2, status := STARTED }, none)) ∧
    (∀ inst, app.currentInstance = some inst → app.status = STARTED →
      inst.ueGenContext ≠ none → inst.Consistent →
      ∃ inst' trace,
        inst.Stop now = some (Except.ok (), inst', trace) ∧ inst'.UeList = [] ∧
        app.StartSimulation now
          = some (Except.ok (),
              { app with currentInstance := some inst'.Start.2, status := STARTED },
              some trace)) ∧
    (∀ r app' trace, app.StartSimulation now = some (r, app', trace) →
      (r = Except.ok () ↔ app.currentInstance ≠ none)) := by
  refine ⟨?_, ?_, ?_, ?_⟩
  · intro h
    unfold CoreSimulatorApp.StartSimulation
    simp [h]
  · intro inst hi hs
    exact StartSimulation_not_started app inst now hi hs
  · intro inst hi hs hg hc
    obtain ⟨inst', trace, hstop, hl, _⟩ := Stop_returns inst now hg hc
    refine ⟨inst', trace, hstop, hl, ?_⟩
    unfold CoreSimulatorApp.StartSimulation
    simp [hi, hs, hstop, NetworkInstance.Start]
  · intro r app' trace h
    unfold CoreSimulatorApp.StartSimulation at h
    cases hi : app.currentInstance with
    | none =>
      simp only [hi, Option.some.injEq, Prod.mk.injEq] at h
      constructor
      · intro hr
        rw [hr] at h
        exact absurd h.1 (by simp)
      · intro hn
        exact absurd rfl hn
    | some inst =>
      refine ⟨fun _ => by simp, fun _ => ?_⟩
      simp only [hi] at h
      by_cases hs : app.status = STARTED
      · simp only [hs, if_true] at h
        cases hst : inst.Stop now with
        | none => simp [hst] at h
        | some res =>
          simp only [hst, Option.map_some', NetworkInstance.Start, Option.some.injEq,
            Prod.mk.injEq] at h
          exact h.1.symm
      · simp only [if_neg hs, NetworkInstance.Start, Option.some.injEq, Prod.mk.injEq] at h
        exact h.1.symm

/-- C31 fails from STOPPED: after Configure, Start and Stop on a fresh
controller the status is STOPPED, and `StartSimulation` succeeds and sets the
status STARTED. -/
theorem StartSimulation_from_stopped :
    (((NewCoreSimulatorApp exampleAppConfig).InitNewSimulation (some exampleNetworkConfig) "sim"
        65537).bind fun r₁ =>
      (r₁.2.StartSimulation 1).bind fun r₂ =>
        (r₂.2.1.StopSimulation 2).bind fun r₃ =>
          (r₃.2.1.StartSimulation 3).map fun r₄ => (r₃.1, r₃.2.1.status, r₄.1, r₄.2.1.status))
      = some (Except.ok (), STOPPED, Except.ok (), STARTED) := by
  obtain ⟨inst₁, hinit, _, _, _, _, hc₁⟩ :=
    InitNewSimulation_fresh (NewCoreSimulatorApp exampleAppConfig) exampleNetworkConfig "sim"
      65537 (by norm_num) rfl
  have hstart₁ := StartSimulation_not_started
    { NewCoreSimulatorApp exampleAppConfig with
      currentInstance := some inst₁, status := CONFIGURED }
    inst₁ 1 rfl CONFIGURED_ne_STARTED
  have hc₂ : ({ inst₁ with
      ueGenContext := some false
      arrivalLoops := inst₁.arrivalLoops ++ [{ entered := false, i := 0 }] } :
      NetworkInstance).Consistent := hc₁
  obtain ⟨inst₃, trace₃, hstop, _⟩ := StopSimulation_started
    { NewCoreSimulatorApp exampleAppConfig with
      currentInstance := some
        { inst₁ with
          ueGenContext := some false
          arrivalLoops := inst₁.arrivalLoops ++ [{ entered := false, i := 0 }] }
      status := STARTED } _ 2 rfl rfl (by simp) hc₂
  have hstart₃ := StartSimulation_not_started
    { NewCoreSimulatorApp exampleAppConfig with
      currentInstance := some inst₃, status := STOPPED } inst₃ 3 rfl STOPPED_ne_STARTED
  rw [hinit]
  simp only [Option.some_bind]
  rw [hstart₁]
  simp only [Option.some_bind]
  rw [hstop]
  simp only [Option.some_bind]
  rw [hstart₃]
  rfl

end simulator

namespace simulator

open models

set_option maxRecDepth 100000 in
/-- C32 fails on the code: the arrival goroutine tests the generation scope
once, before its loop. With 3 UEs configured: the goroutine enters its loop
and creates the first UE; `Stop` cancels the scope, turns that UE off and
empties the registry; the next round of the same goroutine, with the scope
cancelled, puts the second UE in the registry. -/
theorem arrival_after_Stop :
    (((NewNetworkInstance 8080 exampleNetworkConfig "sim").InitNetworkInstance 65537).bind
      fun r₀ =>
        (r₀.2.Start.2.arrivalStep 0 35209900 176148 1).bind fun n₁ =>
          (n₁.arrivalStep 0 35209900 176148 2).bind fun n₂ =>
            (n₂.Stop 5).bind fun r₃ =>
              (r₃.2.1.arrivalStep 0 35209900 176148 6).map fun n₄ =>
                (n₂.UeList.map Prod.fst,
                 r₃.2.2.turnedOff.map (fun ue => (ue.Imsi, ue.RmStatus, ue.ctxDone)),
                 r₃.2.1.UeList.map Prod.fst, r₃.2.1.ueGenContext,
                 n₄.UeList.map Prod.fst, n₄.ueGenContext))
      = some (["208950000000001"], [("208950000000001", RmStateDeregistered, true)],
          [], some true, ["208950000000002"], some true) := by
  rw [InitNetworkInstance_eq _ 65537 (by norm_num)]
  simp only [Option.some_bind]
  rfl

end simulator

/-! ## The Markov state and the registration state -/

namespace ran

open models

theorem NextStateLoop_mem (rnd : ℚ) (current : UeState) : ∀ (row : List Transition) (c : ℚ),
    NextStateLoop rnd current row c ∈ row.map (fun t => (t.To, t.Procedure)) ∨
    NextStateLoop rnd current row c = (current, NoProcedure) := by
  intro row
  induction row with
  | nil =>
    intro c
    exact Or.inr rfl
  | cons t rest ih =>
    intro c
    simp only [NextStateLoop]
    by_cases h : rnd < c + t.Probability
    · simp only [if_pos h]
      exact Or.inl (List.mem_cons_self _ _)
    · simp only [if_neg h]
      rcases ih (c + t.Probability) with hm | he
      · exact Or.inl (List.mem_cons_of_mem _ hm)
      · exact Or.inr he

theorem transitionsAt_other (s : UeState) (h0 : s ≠ 0) (h1 : s ≠ 1) (h2 : s ≠ 2) (h3 : s ≠ 3)
    (h4 : s ≠ 4) (h5 : s ≠ 5) : transitionsAt s = [] := by
  have e0 : ((0 : Int) == s) = false := by simpa using fun e => h0 e.symm
  have e1 : ((1 : Int) == s) = false := by simpa using fun e => h1 e.symm
  have e2 : ((2 : Int) == s) = false := by simpa using fun e => h2 e.symm
  have e3 : ((3 : Int) == s) = false := by simpa using fun e => h3 e.symm
  have e4 : ((4 : Int) == s) = false := by simpa using fun e => h4 e.symm
  have e5 : ((5 : Int) == s) = false := by simpa using fun e => h5 e.symm
  simp [transitionsAt, transitionsRow, transitions, List.find?, Deregistered, Registered,
    Attached, Idle, Connected, Handover, e0, e1, e2, e3, e4, e5]

/-- What the table says about the procedure of a transition: out of
`Deregistered` only a `Registration` leads, into `Deregistered` only a
`LossOfConnection` or a `HandoverFailure`, and these three procedures occur
nowhere else. -/
theorem NextState_table (rnd : ℚ) (s : UeState) :
    (s = Deregistered →
      NextState rnd s = (Registered, Registration) ∨
      NextState rnd s = (Deregistered, NoProcedure)) ∧
    (s ≠ Deregistered →
      (NextState rnd s).2 ≠ Registration ∧
      (((NextState rnd s).1 = Deregistered ∧
          ((NextState rnd s).2 = models.LossOfConnection ∨
            (NextState rnd s).2 = HandoverFailure)) ∨
        ((NextState rnd s).1 ≠ Deregistered ∧
          (NextState rnd s).2 ≠ models.LossOfConnection ∧
          (NextState rnd s).2 ≠ HandoverFailure ∧
          (NextState rnd s).2 ≠ PduSessionRelease))) := by
  have key := NextStateLoop_mem rnd s (transitionsAt s) 0
  have hdef : NextState rnd s = NextStateLoop rnd s (transitionsAt s) 0 := rfl
  rw [← hdef] at key
  by_cases h0 : s = 0
  · subst h0
    have hrow : (transitionsAt 0).map (fun t => (t.To, t.Procedure))
        = [(Registered, Registration), (Deregistered, NoProcedure)] := rfl
    rw [hrow] at key
    refine ⟨fun _ => ?_, fun h => absurd rfl h⟩
    rcases key with hm | he
    · simp only [List.mem_cons, List.mem_singleton, List.not_mem_nil, or_false] at hm
      exact hm
    · exact Or.inr he
  · refine ⟨fun h => absurd h h0, fun _ => ?_⟩
    by_cases h1 : s = 1
    · subst h1
      have hrow : (transitionsAt 1).map (fun t => (t.To, t.Procedure))
          = [(Attached, models.Attach), (Registered, ""),
             (Deregistered, models.LossOfConnection)] := rfl
      rw [hrow] at key
      simp only [List.mem_cons, List.mem_singleton, List.not_mem_nil, or_false] at key
      rcases key with (he | he | he) | he <;> rw [he] <;> decide
    · by_cases h2 : s = 2
      · subst h2
        have hrow : (transitionsAt 2).map (fun t => (t.To, t.Procedure))
            = [(Connected, PduSessionEstablishement), (Attached, NoProcedure),
               (Deregistered, models.LossOfConnection)] := rfl
        rw [hrow] at key
        simp only [List.mem_cons, List.mem_singleton, List.not_mem_nil, or_false] at key
        rcases key with (he | he | he) | he <;> rw [he] <;> decide
      · by_cases h3 : s = 3
        · subst h3
          have hrow : (transitionsAt 3).map (fun t => (t.To, t.Procedure))
              = [(Idle, NoProcedure), (Connected, Paging), (Handover, HandoverInitiated),
                 (Deregistered, models.LossOfConnection)] := rfl
          rw [hrow] at key
          simp only [List.mem_cons, List.mem_singleton, List.not_mem_nil, or_false] at key
          rcases key with (he | he | he | he) | he <;> rw [he] <;> decide
        · by_cases h4 : s = 4
          · subst h4
            have hrow : (transitionsAt 4).map (fun t => (t.To, t.Procedure))
                = [(Connected, NoProcedure), (Handover, HandoverInitiated),
                   (Deregistered, models.LossOfConnection)] := rfl
            rw [hrow] at key
            simp only [List.mem_cons, List.mem_singleton, List.not_mem_nil, or_false] at key
            rcases key with (he | he | he) | he <;> rw [he] <;> decide
          · by_cases h5 : s = 5
            · subst h5
              have hrow : (transitionsAt 5).map (fun t => (t.To, t.Procedure))
                  = [(Connected, HandoverSuccessful), (Deregistered, HandoverFailure)] := rfl
              rw [hrow] at key
              simp only [List.mem_cons, List.mem_singleton, List.not_mem_nil, or_false] at key
              rcases key with (he | he) | he <;> rw [he] <;> decide
            · rw [transitionsAt_other s h0 h1 h2 h3 h4 h5] at key
              simp only [List.map_nil, List.not_mem_nil, false_or] at key
              rw [key]
              have n₁ : NoProcedure ≠ Registration := by decide
              have n₂ : NoProcedure ≠ models.LossOfConnection := by decide
              have n₃ : NoProcedure ≠ HandoverFailure := by decide
              have n₄ : NoProcedure ≠ PduSessionRelease := by decide
              exact ⟨n₁, Or.inr ⟨h0, n₂, n₃, n₄⟩⟩

end ran

namespace ran

open models

theorem releaseLoop_ueState (now : Int) : ∀ (is : List Nat) (ue ue' : Ue)
    (al al' : utils.IPAllocator) (sent msgs : List SendCall),
    releaseLoop now is (ue, al, sent) = some (ue', al', msgs) → ue'.ueState = ue.ueState := by
  intro is
  induction is with
  | nil =>
    intro ue ue' al al' sent msgs h
    simp only [releaseLoop, Option.some.injEq, Prod.mk.injEq] at h
    rw [← h.1]
  | cons i rest ih =>
    intro ue ue' al al' sent msgs h
    simp only [releaseLoop] at h
    cases hr : ue.ReleasePduSession al (utils.toInt32 ((i : Int) + 1)) now with
    | none => simp [hr] at h
    | some r =>
      obtain ⟨u₁, al₁, m₁⟩ := r
      simp only [hr] at h
      have h₁ := ih _ _ _ _ _ _ h
      rcases (ReleasePduSession_frame ue u₁ al al₁ _ now m₁ hr).2 with e | e
      · rw [h₁, e]
      · rw [h₁, e]

theorem LossOfConnection_state (ue ue' : Ue) (al al' : utils.IPAllocator) (isGracefully : Bool)
    (now : Int) (msgs : List SendCall)
    (h : ue.LossOfConnection al isGracefully now = some (ue', al', msgs)) :
    ue'.ueState = ue.ueState ∧ ue'.RmStatus = RmStateDeregistered ∧
    ue'.CmStatus = CmStateIdle := by
  simp only [Ue.LossOfConnection] at h
  have h₁ := releaseLoop_ueState now _ _ _ _ _ _ _ h
  have h₂ := releaseLoop_status now _ _ _ _ _ _ _ h
  exact ⟨h₁, h₂.1, h₂.2.1⟩

theorem NewPduSession_state (ue : Ue) (al : utils.IPAllocator) (sessionId : Int) (dnn : String)
    (snssai : Snssai) (enableReport : Bool) (now : Int) :
    (ue.NewPduSession al sessionId dnn snssai enableReport now).1.ueState = ue.ueState ∧
    (ue.NewPduSession al sessionId dnn snssai enableReport now).1.RmStatus = ue.RmStatus ∧
    (ue.NewPduSession al sessionId dnn snssai enableReport now).1.CmStatus = ue.CmStatus := by
  unfold Ue.NewPduSession
  by_cases hc : ue.CmStatus ≠ CmStateConnected
  · simp [hc]
  · simp only [hc, if_false]
    cases utils.AllocateIP al ue.Imsi sessionId with
    | mk r al' =>
      cases r with
      | error e => exact ⟨rfl, rfl, rfl⟩
      | ok ip =>
        cases enableReport
        · exact ⟨rfl, rfl, rfl⟩
        · exact ⟨rfl, rfl, rfl⟩

theorem Attach_state (ue : Ue) (inactivityTimer now : Int) :
    (ue.Attach inactivityTimer now).1.ueState = ue.ueState ∧
    (ue.Attach inactivityTimer now).1.RmStatus = ue.RmStatus ∧
    ((ue.Attach inactivityTimer now).1.CmStatus = CmStateConnected →
      ue.CmStatus = CmStateConnected ∨ ue.RmStatus = RmStateRegistered) := by
  unfold Ue.Attach
  by_cases hr : ue.RmStatus ≠ RmStateRegistered
  · simp only [if_pos hr]
    exact ⟨trivial, trivial, Or.inl⟩
  · simp only [if_neg hr]
    exact ⟨trivial, trivial, fun _ => Or.inr (not_not.1 hr)⟩

theorem WakeUp_state (ue : Ue) (isPaging : Bool) (now : Int) :
    (ue.WakeUp isPaging now).1.ueState = ue.ueState ∧
    (ue.WakeUp isPaging now).1.RmStatus = ue.RmStatus ∧
    ((ue.WakeUp isPaging now).1.CmStatus = CmStateConnected →
      ue.CmStatus = CmStateConnected ∨ ue.RmStatus = RmStateRegistered) := by
  unfold Ue.WakeUp
  by_cases hr : ue.RmStatus ≠ RmStateRegistered
  · simp only [if_pos hr]
    exact ⟨trivial, trivial, Or.inl⟩
  · simp only [if_neg hr]
    by_cases hc : ue.CmStatus ≠ CmStateConnected
    · simp only [if_pos hc]
      exact ⟨trivial, trivial, fun _ => Or.inr (not_not.1 hr)⟩
    · simp only [if_neg hc]
      exact ⟨trivial, trivial, Or.inl⟩

/-- The effect of one round of the ticker on the Markov, RM and CM states. -/
theorem tick_state (ue ue' : Ue) (al al' : utils.IPAllocator) (rnd : ℚ) (draws : List Nat)
    (now : Int) (msgs : List SendCall)
    (h : ue.tick al rnd draws now = some (ue', al', msgs)) :
    ue'.ueState = (NextState rnd ue.ueState).1 ∧
    ((NextState rnd ue.ueState).2 = Registration →
      ue'.RmStatus = RmStateRegistered ∧ ue'.CmStatus = ue.CmStatus) ∧
    ((NextState rnd ue.ueState).2 = models.LossOfConnection ∨
        (NextState rnd ue.ueState).2 = HandoverFailure →
      ue'.RmStatus = RmStateDeregistered ∧ ue'.CmStatus = CmStateIdle) ∧
    ((NextState rnd ue.ueState).2 ≠ Registration →
      (NextState rnd ue.ueState).2 ≠ models.LossOfConnection →
      (NextState rnd ue.ueState).2 ≠ HandoverFailure →
      ue'.RmStatus = ue.RmStatus ∧
      (ue'.CmStatus = CmStateConnected →
        ue.CmStatus = CmStateConnected ∨ ue.RmStatus = RmStateRegistered)) := by
  unfold Ue.tick at h
  generalize NextState rnd ue.ueState = next at h ⊢
  obtain ⟨s', proc⟩ := next
  simp only at h ⊢
  by_cases c₁ : proc = Registration
  · simp only [if_pos c₁] at h
    unfold Ue.Register at h
    cases hp : Ue.pickRandomNRCellID { ue with ueState := s' } draws with
    | none => simp [hp] at h
    | some cell =>
      simp only [hp, Option.map_some', Option.some.injEq, Prod.mk.injEq] at h
      obtain ⟨rfl, _, _⟩ := h
      refine ⟨rfl, fun _ => ⟨rfl, rfl⟩, ?_, fun hn => absurd c₁ hn⟩
      rintro (e | e) <;> rw [c₁] at e <;> exact absurd e (by decide)
  · simp only [if_neg c₁] at h
    by_cases c₂ : proc = models.Attach
    · simp only [if_pos c₂, Option.some.injEq, Prod.mk.injEq] at h
      obtain ⟨rfl, _, _⟩ := h
      obtain ⟨a₁, a₂, a₃⟩ := Attach_state { ue with ueState := s' } 10000000000 now
      refine ⟨a₁, fun e => absurd e c₁, ?_, fun _ _ _ => ⟨a₂, a₃⟩⟩
      rintro (e | e) <;> rw [c₂] at e <;> exact absurd e (by decide)
    · simp only [if_neg c₂] at h
      by_cases c₃ : proc = PduSessionEstablishement
      · simp only [if_pos c₃, Option.some.injEq] at h
        obtain ⟨a₁, a₂, a₃⟩ := NewPduSession_state { ue with ueState := s' } al 1
          ue.defautlDnn ue.defaultSnssai true now
        rw [h] at a₁ a₂ a₃
        refine ⟨a₁, fun e => absurd e c₁, ?_, fun _ _ _ => ⟨a₂, fun hc => Or.inl (a₃ ▸ hc)⟩⟩
        rintro (e | e) <;> rw [c₃] at e <;> exact absurd e (by decide)
      · simp only [if_neg c₃] at h
        by_cases c₄ : proc = PduSessionFailure
        · simp only [if_pos c₄, Option.some.injEq, Prod.mk.injEq] at h
          obtain ⟨rfl, _, _⟩ := h
          refine ⟨rfl, fun e => absurd e c₁, ?_, fun _ _ _ => ⟨rfl, Or.inl⟩⟩
          rintro (e | e) <;> rw [c₄] at e <;> exact absurd e (by decide)
        · simp only [if_neg c₄] at h
          by_cases c₅ : proc = PduSessionRelease
          · simp only [if_pos c₅] at h
            have hfr := (ReleasePduSession_frame _ _ _ _ _ _ _ h).2
            have hcl : ∀ e₀ : proc = models.LossOfConnection ∨ proc = HandoverFailure,
                False := by
              rintro (e | e) <;> rw [c₅] at e <;> exact absurd e (by decide)
            rcases hfr with e | e
            · rw [e]
              exact ⟨rfl, fun e => absurd e c₁, fun e₀ => (hcl e₀).elim,
                fun _ _ _ => ⟨rfl, Or.inl⟩⟩
            · rw [e]
              exact ⟨rfl, fun e => absurd e c₁, fun e₀ => (hcl e₀).elim,
                fun _ _ _ => ⟨rfl, Or.inl⟩⟩
          · simp only [if_neg c₅] at h
            by_cases c₆ : proc = models.LossOfConnection
            · simp only [if_pos c₆] at h
              obtain ⟨a₁, a₂, a₃⟩ := LossOfConnection_state _ _ _ _ _ _ _ h
              exact ⟨a₁, fun e => absurd e c₁, fun _ => ⟨a₂, a₃⟩, fun _ hn _ => absurd c₆ hn⟩
            · simp only [if_neg c₆] at h
              by_cases c₇ : proc = models.Sleep
              · simp only [if_pos c₇, Option.some.injEq, Prod.mk.injEq] at h
                obtain ⟨rfl, _, _⟩ := h
                refine ⟨rfl, fun e => absurd e c₁, ?_, fun _ _ _ => ⟨rfl, Or.inl⟩⟩
                rintro (e | e) <;> rw [c₇] at e <;> exact absurd e (by decide)
              · simp only [if_neg c₇] at h
                by_cases c₈ : proc = Paging
                · simp only [if_pos c₈, Option.some.injEq, Prod.mk.injEq] at h
                  obtain ⟨rfl, _, _⟩ := h
                  obtain ⟨a₁, a₂, a₃⟩ := WakeUp_state { ue with ueState := s' } true now
                  refine ⟨a₁, fun e => absurd e c₁, ?_, fun _ _ _ => ⟨a₂, a₃⟩⟩
                  rintro (e | e) <;> rw [c₈] at e <;> exact absurd e (by decide)
                · simp only [if_neg c₈] at h
                  by_cases c₉ : proc = HandoverSuccessful
                  · simp only [if_pos c₉] at h
                    cases hp : Ue.pickRandomNRCellID { ue with ueState := s' } draws with
                    | none => simp [hp] at h
                    | some cell =>
                      simp only [hp, Option.map_some', Option.some.injEq, Prod.mk.injEq] at h
                      obtain ⟨rfl, _, _⟩ := h
                      refine ⟨rfl, fun e => absurd e c₁, ?_, fun _ _ _ => ⟨rfl, Or.inl⟩⟩
                      rintro (e | e) <;> rw [c₉] at e <;> exact absurd e (by decide)
                  · simp only [if_neg c₉] at h
                    by_cases c₁₀ : proc = HandoverFailure
                    · simp only [if_pos c₁₀] at h
                      obtain ⟨a₁, a₂, a₃⟩ := LossOfConnection_state _ _ _ _ _ _ _ h
                      exact ⟨a₁, fun e => absurd e c₁, fun _ => ⟨a₂, a₃⟩,
                        fun _ _ hn => absurd c₁₀ hn⟩
                    · simp only [if_neg c₁₀, ite_self, Option.some.injEq, Prod.mk.injEq] at h
                      obtain ⟨rfl, _, _⟩ := h
                      refine ⟨rfl, fun e => absurd e c₁, ?_, fun _ _ _ => ⟨rfl, Or.inl⟩⟩
                      rintro (e | e)
                      · exact absurd e c₆
                      · exact absurd e c₁₀

/-- The invariant of the trajectories: the Markov state and RM are both
"deregistered" or both not, RM being then Registered, and a connected UE is
registered. -/
theorem Trajectory_inv (ue : Ue) (h : Ue.Trajectory ue) :
    ((ue.ueState = Deregistered ∧ ue.RmStatus = RmStateDeregistered) ∨
      (ue.ueState ≠ Deregistered ∧ ue.RmStatus = RmStateRegistered)) ∧
    (ue.CmStatus = CmStateConnected → ue.RmStatus = RmStateRegistered) := by
  induction h with
  | init parentDone cfg simulationId gnbs now =>
    exact ⟨Or.inl ⟨rfl, rfl⟩, fun hc => absurd hc idle_ne_connected⟩
  | tick ue ue' al al' rnd draws now msgs _ hstep ih =>
    obtain ⟨hs, hreg, hloss, hother⟩ := tick_state ue ue' al al' rnd draws now msgs hstep
    obtain ⟨hd, hn⟩ := NextState_table rnd ue.ueState
    obtain ⟨hinv, hcm⟩ := ih
    rcases hinv with ⟨h0, hrm⟩ | ⟨h0, hrm⟩
    · rcases hd h0 with e | e
      · rw [e] at hs hreg
        obtain ⟨r₁, r₂⟩ := hreg rfl
        exact ⟨Or.inr ⟨by rw [hs]; decide, r₁⟩, fun _ => r₁⟩
      · rw [e] at hs hother
        obtain ⟨r₁, r₂⟩ := hother (by decide) (by decide) (by decide)
        refine ⟨Or.inl ⟨hs, by rw [r₁, hrm]⟩, ?_⟩
        intro hc
        rcases r₂ hc with hc' | hr'
        · rw [r₁]
          exact hcm hc'
        · rw [r₁]
          exact hr'
    · obtain ⟨hnr, hcase⟩ := hn h0
      rcases hcase with ⟨hto, hp⟩ | ⟨hto, hp₁, hp₂, _⟩
      · obtain ⟨r₁, r₂⟩ := hloss hp
        refine ⟨Or.inl ⟨by rw [hs, hto], r₁⟩, ?_⟩
        intro hc
        rw [r₂] at hc
        exact absurd hc idle_ne_connected
      · obtain ⟨r₁, r₂⟩ := hother hnr hp₁ hp₂
        refine ⟨Or.inr ⟨by rw [hs]; exact hto, by rw [r₁, hrm]⟩, fun _ => by rw [r₁, hrm]⟩
  | monitor ue inactivityTimer now _ ih =>
    obtain ⟨hinv, hcm⟩ := ih
    unfold Ue.inactivityMonitorFire
    by_cases hc : ue.CmStatus = CmStateConnected ∧
        ue.LastActivityTime < now - inactivityTimer
    · simp only [if_pos hc]
      refine ⟨Or.inr ⟨by decide, hcm hc.1⟩, fun _ => hcm hc.1⟩
    · simp only [if_neg hc]
      exact ⟨hinv, hcm⟩
  | traffic ue sessionId ul size now _ ih =>
    obtain ⟨hinv, hcm⟩ := ih
    have hw := WakeUp_state ue false now
    have hst : (ue.trafficPacket sessionId ul size now).1.ueState = ue.ueState ∧
        (ue.trafficPacket sessionId ul size now).1.RmStatus = ue.RmStatus ∧
        ((ue.trafficPacket sessionId ul size now).1.CmStatus = CmStateConnected →
          ue.CmStatus = CmStateConnected ∨ ue.RmStatus = RmStateRegistered) := by
      unfold Ue.trafficPacket
      generalize ue.WakeUp false now = w at hw ⊢
      obtain ⟨u, m⟩ := w
      obtain ⟨a₁, a₂, a₃⟩ := hw
      simp only at a₁ a₂ a₃ ⊢
      cases u.UpStats.lookup sessionId with
      | none => exact ⟨a₁, a₂, a₃⟩
      | some stats => exact ⟨a₁, a₂, a₃⟩
    obtain ⟨b₁, b₂, b₃⟩ := hst
    rw [b₁, b₂]
    refine ⟨hinv, ?_⟩
    intro hc
    rcases b₃ hc with hc' | hr'
    · exact hcm hc'
    · exact hr'

/-- C36: along every trajectory of a UE from `NewUserEquipment`, whose steps
are the rounds of the 1 Hz ticker (`NextState` followed by the procedure it
dispatches), the firings of the inactivity monitor and the packets of the
traffic sessions, the Markov state is `Deregistered` if and only if RM is
`DEREGISTERED`. -/
theorem ueState_RmStatus_in_step (ue : Ue) (h : Ue.Trajectory ue) :
    ue.ueState = Deregistered ↔ ue.RmStatus = RmStateDeregistered := by
  obtain ⟨hinv, _⟩ := Trajectory_inv ue h
  rcases hinv with ⟨h₁, h₂⟩ | ⟨h₁, h₂⟩
  · exact ⟨fun _ => h₂, fun _ => h₁⟩
  · refine ⟨fun e => absurd e h₁, fun e => ?_⟩
    rw [h₂] at e
    exact absurd e (by decide)

/-- Witness of C36: the UE of the examples after the round of the ticker with
the draw 0.5, which registers it: it lies on a trajectory, its Markov state is
`Registered` and RM is `REGISTERED`. -/
theorem ueState_RmStatus_in_step_witness :
    Ue.Trajectory
        ((exampleUe.tick (exampleAllocator 1) 0.5 [] 1).getD
          (exampleUe, exampleAllocator 1, [])).1 ∧
    (exampleUe.tick (exampleAllocator 1) 0.5 [] 1).map
        (fun r => (r.1.ueState, r.1.RmStatus)) = some (Registered, RmStateRegistered) ∧
    (((exampleUe.tick (exampleAllocator 1) 0.5 [] 1).getD
          (exampleUe, exampleAllocator 1, [])).1.ueState = Deregistered ↔
      ((exampleUe.tick (exampleAllocator 1) 0.5 [] 1).getD
          (exampleUe, exampleAllocator 1, [])).1.RmStatus = RmStateDeregistered) := by
  have hn : NextState 0.5 exampleUe.ueState = (Registered, Registration) := by
    norm_num [NextState, NextStateLoop, transitionsAt, transitionsRow, transitions,
      exampleUe, NewUserEquipment, Deregistered]
  have hval : (exampleUe.tick (exampleAllocator 1) 0.5 [] 1).map
      (fun r => (r.1.ueState, r.1.RmStatus)) = some (Registered, RmStateRegistered) := by
    simp only [Ue.tick, hn]
    rfl
  cases hr : exampleUe.tick (exampleAllocator 1) 0.5 [] 1 with
  | none =>
    rw [hr] at hval
    cases hval
  | some r =>
    obtain ⟨ue', al', msgs⟩ := r
    have htraj : Ue.Trajectory ue' :=
      Ue.Trajectory.tick exampleUe ue' _ al' 0.5 [] 1 msgs
        (Ue.Trajectory.init false _ "sim" [] 0) hr
    rw [hr] at hval
    exact ⟨htraj, hval, ueState_RmStatus_in_step ue' htraj⟩

end ran
